import Mathlib

/-!
Verification development for the japanese_law_id library (src/lib.rs): a codec
between Japanese legal-instrument identifiers and their structured form, plus
Gregorian/Wareki calendar conversion.  Rust strings are embedded as `List Char`
(all identifier strings are ASCII, so Rust's byte indexing coincides with
character indexing); Rust `usize` is embedded as `Nat` (wrap-around is modelled
explicitly where the source can overflow); fallible Rust functions return
`Option`/`Except`, and functions whose slicing can panic on short input return
a `PRes` that separates a panic from a normal return.
-/

/-- Model of a Rust computation that can panic: `panics` stands for an
uncaught panic (out-of-bounds slicing), `ret a` for a normal return of `a`. -/
inductive PRes (α : Type) where
  | panics : PRes α
  | ret : α → PRes α
  deriving DecidableEq, Repr

/-- Sequencing of panicking computations: a panic propagates. -/
def PRes.bind {α β : Type} : PRes α → (α → PRes β) → PRes β
  | .panics, _ => .panics
  | .ret a, f => f a

instance {ε α : Type} [DecidableEq ε] [DecidableEq α] :
    DecidableEq (Except ε α) := fun x y =>
  match x, y with
  | .error e, .error f =>
    if h : e = f then isTrue (by rw [h]) else isFalse (by simp [h])
  | .error _, .ok _ => isFalse (by simp)
  | .ok _, .error _ => isFalse (by simp)
  | .ok a, .ok b =>
    if h : a = b then isTrue (by rw [h]) else isFalse (by simp [h])

/-- Rust's inclusive slice `&s[a..=b]`: panics exactly when `b + 1` exceeds the
length (for the ASCII strings in scope, byte and char indices agree).  All call
sites in the source have `a ≤ b`. -/
def sliceIncl (s : List Char) (a b : Nat) : PRes (List Char) :=
  if b < s.length then .ret ((s.drop a).take (b + 1 - a)) else .panics

/-- Value of usize::MAX on the 64-bit targets the crate is built for. -/
def USIZE_MAX : Nat := 18446744073709551615

/-- Character for a decimal digit, as Rust's Display for usize renders it. -/
def decDigitChar (d : Nat) : Char := Char.ofNat (48 + d)

/-- Character for a hexadecimal digit as Rust's UpperHex (the X format) renders
it: 0-9 then A-F. -/
def hexDigitChar (d : Nat) : Char :=
  if d < 10 then Char.ofNat (48 + d) else Char.ofNat (55 + d)

/-- Value of a decimal digit character, none for any other character. -/
def decDigitVal (c : Char) : Option Nat :=
  if '0' ≤ c ∧ c ≤ '9' then some (c.toNat - 48) else none

/-- Value of a hexadecimal digit character as Rust's from_str_radix(_, 16)
accepts it: either case of a-f. -/
def hexDigitVal (c : Char) : Option Nat :=
  if '0' ≤ c ∧ c ≤ '9' then some (c.toNat - 48)
  else if 'a' ≤ c ∧ c ≤ 'f' then some (c.toNat - 87)
  else if 'A' ≤ c ∧ c ≤ 'F' then some (c.toNat - 55)
  else none

/-- Accumulating digit scan shared by the embeddings of str::parse::<usize>
and usize::from_str_radix: fails at the first character that is not a digit
of the radix.  Overflow of usize is not modelled: every field parsed by the
source is at most 8 characters, far below 2^64. -/
def parseRadixGo (b : Nat) (dv : Char → Option Nat) : List Char → Nat → Option Nat
  | [], acc => some acc
  | c :: rest, acc =>
    match dv c with
    | some d => parseRadixGo b dv rest (acc * b + d)
    | none => none

/-- Digit-run parser: empty input is an error. -/
def parseRadix (b : Nat) (dv : Char → Option Nat) (l : List Char) : Option Nat :=
  if l = [] then none else parseRadixGo b dv l 0

/-- Embedding of str::parse::<usize>(): an optional leading plus sign, then a
non-empty run of decimal digits. -/
def parseUsize (l : List Char) : Option Nat :=
  match l with
  | '+' :: rest => parseRadix 10 decDigitVal rest
  | _ => parseRadix 10 decDigitVal l

/-- Embedding of usize::from_str_radix(s, 16): an optional leading plus sign,
then a non-empty run of hexadecimal digits of either case. -/
def parseUsizeRadix16 (l : List Char) : Option Nat :=
  match l with
  | '+' :: rest => parseRadix 16 hexDigitVal rest
  | _ => parseRadix 16 hexDigitVal l

/-- Little-endian digits of n in base b, with explicit fuel so that the
definition is structural and kernel-reducible; fuel ≥ n is always enough. -/
def digitsLE (b : Nat) : Nat → Nat → List Nat
  | 0, _ => []
  | fuel + 1, n => if n = 0 then [] else n % b :: digitsLE b fuel (n / b)

/-- Characters of n in base b, most significant first, as Rust renders an
unpadded integer; 0 renders as the single digit 0. -/
def natCharsBase (b : Nat) (toC : Nat → Char) (n : Nat) : List Char :=
  if n = 0 then [toC 0] else ((digitsLE b n n).map toC).reverse

/-- Zero padding to a field width, as Rust's 0w format flag: a value whose
rendering is wider than the field keeps its full width. -/
def padZero (w : Nat) (l : List Char) : List Char :=
  List.replicate (w - l.length) '0' ++ l

/-- Decimal rendering of n with no padding (Rust's plain Display). -/
def natDecChars (n : Nat) : List Char := natCharsBase 10 decDigitChar n

/-- Rust's zero-padded decimal format, e.g. the 03 in format!("{num:03}"). -/
def fmtDec (w n : Nat) : List Char := padZero w (natDecChars n)

/-- Uppercase hexadecimal rendering of n with no padding. -/
def natHexChars (n : Nat) : List Char := natCharsBase 16 hexDigitChar n

/-- Rust's zero-padded uppercase hex format, the 07X in format!("{n:07X}"). -/
def fmtHex (w n : Nat) : List Char := padZero w (natHexChars n)

/-- Rust's format!("{n:028b}") for n < 2^28 (the only way the source calls it:
n is parsed from 7 hex digits): character i is binary digit 27 - i. -/
def fmtBin28 (n : Nat) : List Char :=
  (List.range 28).map fun i => if n.testBit (27 - i) then '1' else '0'

/-- The era enumeration of the source (Meiji and later). -/
inductive Era where
  | Meiji
  | Taisho
  | Showa
  | Heisei
  | Reiwa
  deriving DecidableEq, Repr

/-- Era.start: first day of the era as a YYYYMMDD integer. -/
def Era.start : Era → Nat
  | .Meiji => 18681023
  | .Taisho => 19120729
  | .Showa => 19261225
  | .Heisei => 19890108
  | .Reiwa => 20190501

/-- Era.start_year: the Gregorian year before year 1 of the era (the Wareki
year is 1-indexed). -/
def Era.start_year : Era → Nat
  | .Meiji => 1867
  | .Taisho => 1911
  | .Showa => 1925
  | .Heisei => 1988
  | .Reiwa => 2018

/-- Era.end: last day of the era as a YYYYMMDD integer; Reiwa has not ended
and the source uses usize::MAX.  (Renamed from the source's end, a Lean
keyword.) -/
def Era.endNum : Era → Nat
  | .Meiji => 19120728
  | .Taisho => 19261224
  | .Showa => 19890107
  | .Heisei => 20190431
  | .Reiwa => USIZE_MAX

/-- Era.from_text: the five canonical two-character era names. -/
def Era.from_text (l : List Char) : Option Era :=
  if l = ['明', '治'] then some .Meiji
  else if l = ['大', '正'] then some .Taisho
  else if l = ['昭', '和'] then some .Showa
  else if l = ['平', '成'] then some .Heisei
  else if l = ['令', '和'] then some .Reiwa
  else none

/-- Era.to_text. -/
def Era.to_text : Era → List Char
  | .Meiji => ['明', '治']
  | .Taisho => ['大', '正']
  | .Showa => ['昭', '和']
  | .Heisei => ['平', '成']
  | .Reiwa => ['令', '和']

/-- Era.from_number: Meiji is 1, Taisho 2, and so on. -/
def Era.from_number (n : Nat) : Option Era :=
  if n = 1 then some .Meiji
  else if n = 2 then some .Taisho
  else if n = 3 then some .Showa
  else if n = 4 then some .Heisei
  else if n = 5 then some .Reiwa
  else none

/-- Era.to_number. -/
def Era.to_number : Era → Nat
  | .Meiji => 1
  | .Taisho => 2
  | .Showa => 3
  | .Heisei => 4
  | .Reiwa => 5

/-- Wareki: an era together with a 1-indexed year within the era. -/
structure Wareki where
  era : Era
  year : Nat
  deriving DecidableEq, Repr

/-- Wareki::new. -/
def Wareki.new (era : Era) (year : Nat) : Wareki := ⟨era, year⟩

/-- Wareki::from_ad: selects the era whose YYYYMMDD range contains the date;
the source's unreachable!() branch is modelled as none.  The key t is
computed in usize, so it wraps for years around 1.845e15 and beyond (release
builds; debug builds abort there): the wrap is modelled by reducing the exact
key modulo 2^64, exactly as Date.cmpKey does. -/
def Wareki.from_ad (year month day : Nat) : Option Wareki :=
  let t := (year * 10000 + month * 100 + day) % (USIZE_MAX + 1)
  if Era.start .Meiji ≤ t ∧ t ≤ Era.endNum .Meiji then
    some ⟨.Meiji, year - Era.start_year .Meiji⟩
  else if Era.start .Taisho ≤ t ∧ t ≤ Era.endNum .Taisho then
    some ⟨.Taisho, year - Era.start_year .Taisho⟩
  else if Era.start .Showa ≤ t ∧ t ≤ Era.endNum .Showa then
    some ⟨.Showa, year - Era.start_year .Showa⟩
  else if Era.start .Heisei ≤ t ∧ t ≤ Era.endNum .Heisei then
    some ⟨.Heisei, year - Era.start_year .Heisei⟩
  else if Era.start .Reiwa ≤ t then
    some ⟨.Reiwa, year - Era.start_year .Reiwa⟩
  else none

/-- Wareki::to_ad: the Gregorian year of the Wareki year. -/
def Wareki.to_ad (w : Wareki) : Nat := w.era.start_year + w.year

/-- Date: a Gregorian (year, month, day) triple, fields unvalidated. -/
structure Date where
  year : Nat
  month : Nat
  day : Nat
  deriving DecidableEq, Repr

/-- Date::new_wareki. -/
def Date.new_wareki (era : Era) (year month day : Nat) : Date :=
  ⟨(Wareki.new era year).to_ad, month, day⟩

/-- Date::new_ad: no validation of any field. -/
def Date.new_ad (year month day : Nat) : Date := ⟨year, month, day⟩

/-- Date::get_ad_year. -/
def Date.get_ad_year (d : Date) : Nat := d.year

/-- Date::gen_wareki_year (the unreachable branch again modelled as none). -/
def Date.gen_wareki_year (d : Date) : Option Wareki :=
  Wareki.from_ad d.year d.month d.day

/-- Comparison of two usize values (Rust's Ord for usize). -/
def natCmp (a b : Nat) : Ordering :=
  if a < b then .lt else if a = b then .eq else .gt

/-- The key the source's Ord for Date compares: year * 10000 + month * 100 +
day, computed in usize (wrap-around on overflow is made explicit; the claims
in scope keep the key far below 2^64). -/
def Date.cmpKey (d : Date) : Nat :=
  (d.year * 10000 + d.month * 100 + d.day) % (USIZE_MAX + 1)

/-- Ord::cmp for Date. -/
def Date.cmp (a b : Date) : Ordering := natCmp a.cmpKey b.cmpKey

/-- Lexicographic comparison of the (year, month, day) triple, as the spec
describes the intended total order on Date (spec wording, for comparison with
Date.cmp). -/
def dateLexCmp (a b : Date) : Ordering :=
  if a.year < b.year then .lt
  else if b.year < a.year then .gt
  else if a.month < b.month then .lt
  else if b.month < a.month then .gt
  else if a.day < b.day then .lt
  else if b.day < a.day then .gt
  else .eq

/-- Leap year of the Gregorian calendar (used only to state which dates are
valid in claim C5; the source itself never validates dates). -/
def isLeap (y : Nat) : Bool := (y % 4 = 0 && y % 100 != 0) || y % 400 = 0

/-- Days in a Gregorian month (claim-side vocabulary for C5). -/
def daysInMonth (y m : Nat) : Nat :=
  if m = 2 then (if isLeap y then 29 else 28)
  else if m = 4 ∨ m = 6 ∨ m = 9 ∨ m = 11 then 30
  else if 1 ≤ m ∧ m ≤ 12 then 31
  else 0

/-- A valid Gregorian calendar date (claim-side vocabulary for C5). -/
def validDate (y m d : Nat) : Prop :=
  1 ≤ m ∧ m ≤ 12 ∧ 1 ≤ d ∧ d ≤ daysInMonth y m

instance (y m d : Nat) : Decidable (validDate y m d) := by
  unfold validDate; infer_instance

/-- YYYYMMDD encoding of a date, exact (no usize wrap: within every claim's
scope the value is far below 2^64). -/
def ymdNum (y m d : Nat) : Nat := y * 10000 + m * 100 + d

/-- Membership of a date in an era's range, as Wareki::from_ad tests it: the
four finished eras by their inclusive integer ranges, Reiwa unbounded above
(the documented boundary table gives Reiwa no end). -/
def Era.containsYmd (e : Era) (t : Nat) : Prop :=
  match e with
  | .Reiwa => Era.start .Reiwa ≤ t
  | _ => e.start ≤ t ∧ t ≤ e.endNum

instance (e : Era) (t : Nat) : Decidable (e.containsYmd t) := by
  unfold Era.containsYmd; cases e <;> infer_instance

/-- RippouType: legislative origin of an Act. -/
inductive RippouType where
  | Kakuhou
  | Syuin
  | Sanin
  deriving DecidableEq, Repr

/-- LawEfficacy: legal-force class of an order. -/
inductive LawEfficacy where
  | CabinetOrder
  | Law
  deriving DecidableEq, Repr

/-- Rust str::contains(pattern) for a literal pattern: substring containment. -/
def hasSub : List Char → List Char → Bool
  | hay, pat =>
    if pat.isPrefixOf hay then true
    else match hay with
      | [] => false
      | _ :: t => hasSub t pat

/-- The MinistryContents trait's data: the bit position of each member and its
inverse.  The trait's date range and name matching are period-specific plain
definitions below (they never enter the generic mask codec). -/
class MinistryContents (α : Type) where
  to_int : α → Nat
  from_int : Nat → Option α

/-- Error text "unexpected flag: {n}" of MinistryContents::from_id_str. -/
def unexpectedFlag (n : Nat) : List Char :=
  ['u', 'n', 'e', 'x', 'p', 'e', 'c', 't', 'e', 'd', ' ', 'f', 'l', 'a', 'g',
   ':', ' '] ++ natDecChars n

/-- Error text "unexpected char: {c}" of MinistryContents::from_id_str. -/
def unexpectedChar (c : Char) : List Char :=
  ['u', 'n', 'e', 'x', 'p', 'e', 'c', 't', 'e', 'd', ' ', 'c', 'h', 'a', 'r',
   ':', ' ', c]

/-- Error text "unexpected string" of Ministry::from_id_str. -/
def unexpectedString : List Char :=
  ['u', 'n', 'e', 'x', 'p', 'e', 'c', 't', 'e', 'd', ' ', 's', 't', 'r', 'i',
   'n', 'g']

/-- Error text "Unexpected input" of Ministry::from_name. -/
def unexpectedInput : List Char :=
  ['U', 'n', 'e', 'x', 'p', 'e', 'c', 't', 'e', 'd', ' ', 'i', 'n', 'p', 'u',
   't']

/-- The mask accumulated by MinistryContents::to_id_str's loop: OR of
2^(to_int(m) - 1) over the list. -/
def MinistryContents.mask {α : Type} [MinistryContents α] (l : List α) : Nat :=
  l.foldl (fun n v => n ||| 2 ^ (MinistryContents.to_int v - 1)) 0

/-- MinistryContents::to_id_str: the mask rendered as 7 zero-padded uppercase
hex digits. -/
def MinistryContents.to_id_str {α : Type} [MinistryContents α]
    (l : List α) : List Char :=
  fmtHex 7 (MinistryContents.mask l)

/-- The scan loop of MinistryContents::from_id_str: character index i maps to
bit position 28 - i; a 1 whose position has no member, or a character other
than 0 and 1, is the loop's (first) error. -/
def MinistryContents.fromIdStrGo (α : Type) [MinistryContents α] :
    Nat → List Char → Except (List Char) (List α)
  | _, [] => .ok []
  | i, c :: rest =>
    if c = '1' then
      match @MinistryContents.from_int α _ (28 - i) with
      | some t =>
        match fromIdStrGo α (i + 1) rest with
        | .ok v => .ok (t :: v)
        | .error e => .error e
      | none => .error (unexpectedFlag (28 - i))
    else if c = '0' then fromIdStrGo α (i + 1) rest
    else .error (unexpectedChar c)

/-- MinistryContents::from_id_str over the 28-character binary expansion. -/
def MinistryContents.from_id_str (α : Type) [MinistryContents α]
    (byte_s : List Char) : Except (List Char) (List α) :=
  MinistryContents.fromIdStrGo α 0 byte_s

/-- MinistryContents::applicable_wareki compares Gregorian years only. -/
def applicableWareki (startD endD : Date) (w : Wareki) : Bool :=
  decide (startD.year ≤ w.to_ad ∧ w.to_ad ≤ endD.year)

/-- One matching branch of a from_name body: the source's
"if name.contains(pat) { v.push(x) }" contributes [x] when the test holds and
nothing otherwise. -/
def pushIf {α : Type} (c : Bool) (x : α) : List α := if c then [x] else []

/-- M1Ministry: issuing bodies of 1869-07-08 to 1943-10-31. -/
inductive M1Ministry where
  | CabinetOrder
  | ImperialHouseholdOrdinance
  | GreaterEastAsiaMinisterialOrdinance
  | MinistryOfTheInteriorOrdinance
  | MinistryOfJusticeOrdinance
  | MinistryOfForeignAffairsOrdinance
  | MinistryOfFinanceOrdinance
  | MinistryOfEducationOrdinance
  | MinistryOfHealthAndWelfareOrdinance
  | MinistryOfAgricultureAndCommerceOrdinance
  | MinistryOfCommerceAndIndustryOrdinance
  | RailwayMinisterialOrdinance
  | MinistryOfCommunicationsOrdinance
  | MinistryOfTheArmyOrdinanceA
  | NavyMinisterialOrdinance
  | MinistryOfTheArmyOrdinanceB
  | MinistryOfAgricultureAndForestryOrdinance
  | MinistryOfLandDevelopmentOrdinanceA
  | MinistryOfLandDevelopmentOrdinanceB
  | MinistryOfAgricultureAndCommerceOrdinanceTemporary
  | MinistryOfJusticeOrdinanceHei
  deriving DecidableEq, Repr

/-- M1Ministry's to_int. -/
def M1Ministry.to_int : M1Ministry → Nat
  | .CabinetOrder => 1
  | .ImperialHouseholdOrdinance => 2
  | .GreaterEastAsiaMinisterialOrdinance => 3
  | .MinistryOfTheInteriorOrdinance => 4
  | .MinistryOfJusticeOrdinance => 5
  | .MinistryOfForeignAffairsOrdinance => 6
  | .MinistryOfFinanceOrdinance => 7
  | .MinistryOfEducationOrdinance => 8
  | .MinistryOfHealthAndWelfareOrdinance => 9
  | .MinistryOfAgricultureAndCommerceOrdinance => 10
  | .MinistryOfCommerceAndIndustryOrdinance => 11
  | .RailwayMinisterialOrdinance => 12
  | .MinistryOfCommunicationsOrdinance => 13
  | .MinistryOfTheArmyOrdinanceA => 14
  | .NavyMinisterialOrdinance => 15
  | .MinistryOfTheArmyOrdinanceB => 16
  | .MinistryOfAgricultureAndForestryOrdinance => 17
  | .MinistryOfLandDevelopmentOrdinanceA => 18
  | .MinistryOfLandDevelopmentOrdinanceB => 19
  | .MinistryOfAgricultureAndCommerceOrdinanceTemporary => 20
  | .MinistryOfJusticeOrdinanceHei => 21

/-- M1Ministry's from_int. -/
def M1Ministry.from_int (n : Nat) : Option M1Ministry :=
  if n = 1 then some .CabinetOrder
  else if n = 2 then some .ImperialHouseholdOrdinance
  else if n = 3 then some .GreaterEastAsiaMinisterialOrdinance
  else if n = 4 then some .MinistryOfTheInteriorOrdinance
  else if n = 5 then some .MinistryOfJusticeOrdinance
  else if n = 6 then some .MinistryOfForeignAffairsOrdinance
  else if n = 7 then some .MinistryOfFinanceOrdinance
  else if n = 8 then some .MinistryOfEducationOrdinance
  else if n = 9 then some .MinistryOfHealthAndWelfareOrdinance
  else if n = 10 then some .MinistryOfAgricultureAndCommerceOrdinance
  else if n = 11 then some .MinistryOfCommerceAndIndustryOrdinance
  else if n = 12 then some .RailwayMinisterialOrdinance
  else if n = 13 then some .MinistryOfCommunicationsOrdinance
  else if n = 14 then some .MinistryOfTheArmyOrdinanceA
  else if n = 15 then some .NavyMinisterialOrdinance
  else if n = 16 then some .MinistryOfTheArmyOrdinanceB
  else if n = 17 then some .MinistryOfAgricultureAndForestryOrdinance
  else if n = 18 then some .MinistryOfLandDevelopmentOrdinanceA
  else if n = 19 then some .MinistryOfLandDevelopmentOrdinanceB
  else if n = 20 then some .MinistryOfAgricultureAndCommerceOrdinanceTemporary
  else if n = 21 then some .MinistryOfJusticeOrdinanceHei
  else none

instance : MinistryContents M1Ministry :=
  ⟨M1Ministry.to_int, M1Ministry.from_int⟩

/-- M1Ministry's start. -/
def M1Ministry.start : Date := Date.new_ad 1869 7 8

/-- M1Ministry's end (renamed: end is a Lean keyword). -/
def M1Ministry.endDate : Date := Date.new_ad 1943 10 31

/-- M1Ministry's applicable_wareki (the trait's default body). -/
def M1Ministry.applicable_wareki (w : Wareki) : Bool :=
  applicableWareki M1Ministry.start M1Ministry.endDate w

/-- M1Ministry's from_name: each matching rule tested in enumeration order,
every match pushed. -/
def M1Ministry.from_name (name : List Char) : List M1Ministry :=
  pushIf (hasSub name ['閣']) .CabinetOrder ++
  pushIf (hasSub name ['宮', '内', '省']) .ImperialHouseholdOrdinance ++
  pushIf (hasSub name ['大', '東', '亜', '省']) .GreaterEastAsiaMinisterialOrdinance ++
  pushIf (hasSub name ['内', '務', '省']) .MinistryOfTheInteriorOrdinance ++
  pushIf (hasSub name ['司', '法', '省']) .MinistryOfJusticeOrdinance ++
  pushIf (hasSub name ['外', '務', '省']) .MinistryOfForeignAffairsOrdinance ++
  pushIf (hasSub name ['大', '蔵', '省']) .MinistryOfFinanceOrdinance ++
  pushIf (hasSub name ['文', '部', '省']) .MinistryOfEducationOrdinance ++
  pushIf (hasSub name ['厚', '生', '省']) .MinistryOfHealthAndWelfareOrdinance ++
  pushIf (hasSub name ['農', '商', '務', '省']) .MinistryOfAgricultureAndCommerceOrdinance ++
  pushIf (hasSub name ['商', '工', '省']) .MinistryOfCommerceAndIndustryOrdinance ++
  pushIf (hasSub name ['鉄', '道', '省']) .RailwayMinisterialOrdinance ++
  pushIf (hasSub name ['逓', '信', '省']) .MinistryOfCommunicationsOrdinance ++
  pushIf (hasSub name ['陸', '軍', '省'] && hasSub name ['甲']) .MinistryOfTheArmyOrdinanceA ++
  pushIf (hasSub name ['海', '軍', '省']) .NavyMinisterialOrdinance ++
  pushIf (hasSub name ['陸', '軍', '省'] && hasSub name ['乙']) .MinistryOfTheArmyOrdinanceB ++
  pushIf (hasSub name ['農', '林', '省']) .MinistryOfAgricultureAndForestryOrdinance ++
  pushIf (hasSub name ['拓', '殖', '務', '省']) .MinistryOfLandDevelopmentOrdinanceA ++
  pushIf (hasSub name ['拓', '務', '省']) .MinistryOfLandDevelopmentOrdinanceB ++
  pushIf (hasSub name ['農', '商', '務', '省'] && hasSub name ['臨']) .MinistryOfAgricultureAndCommerceOrdinanceTemporary ++
  pushIf (hasSub name ['司', '法', '省'] && hasSub name ['丙']) .MinistryOfJusticeOrdinanceHei

/-- M2Ministry: issuing bodies of 1943-11-01 to 1945-11-30. -/
inductive M2Ministry where
  | CabinetOrder
  | ImperialHouseholdOrdinance
  | GreaterEastAsiaMinisterialOrdinance
  | MinistryOfTheInteriorOrdinance
  | MinistryOfJusticeOrdinance
  | MinistryOfForeignAffairsOrdinance
  | MinistryOfFinanceOrdinance
  | MinistryOfEducationOrdinance
  | MinistryOfHealthAndWelfareOrdinance
  | MinistryOfAgricultureAndCommerceOrdinance
  | MinistryOfCommerceAndIndustryOrdinance
  | MinistryOfTransportOrdinance
  | MinistryOfTransportAndCommunicationsOrdinance
  | MinistryOfTheArmyOrdinanceA
  | NavyMinisterialOrdinance
  | OrdinanceOfTheMinistryOfMunitions
  | MinistryOfAgricultureAndForestryOrdinance
  deriving DecidableEq, Repr

/-- M2Ministry's to_int. -/
def M2Ministry.to_int : M2Ministry → Nat
  | .CabinetOrder => 1
  | .ImperialHouseholdOrdinance => 2
  | .GreaterEastAsiaMinisterialOrdinance => 3
  | .MinistryOfTheInteriorOrdinance => 4
  | .MinistryOfJusticeOrdinance => 5
  | .MinistryOfForeignAffairsOrdinance => 6
  | .MinistryOfFinanceOrdinance => 7
  | .MinistryOfEducationOrdinance => 8
  | .MinistryOfHealthAndWelfareOrdinance => 9
  | .MinistryOfAgricultureAndCommerceOrdinance => 10
  | .MinistryOfCommerceAndIndustryOrdinance => 11
  | .MinistryOfTransportOrdinance => 12
  | .MinistryOfTransportAndCommunicationsOrdinance => 13
  | .MinistryOfTheArmyOrdinanceA => 14
  | .NavyMinisterialOrdinance => 15
  | .OrdinanceOfTheMinistryOfMunitions => 16
  | .MinistryOfAgricultureAndForestryOrdinance => 17

/-- M2Ministry's from_int. -/
def M2Ministry.from_int (n : Nat) : Option M2Ministry :=
  if n = 1 then some .CabinetOrder
  else if n = 2 then some .ImperialHouseholdOrdinance
  else if n = 3 then some .GreaterEastAsiaMinisterialOrdinance
  else if n = 4 then some .MinistryOfTheInteriorOrdinance
  else if n = 5 then some .MinistryOfJusticeOrdinance
  else if n = 6 then some .MinistryOfForeignAffairsOrdinance
  else if n = 7 then some .MinistryOfFinanceOrdinance
  else if n = 8 then some .MinistryOfEducationOrdinance
  else if n = 9 then some .MinistryOfHealthAndWelfareOrdinance
  else if n = 10 then some .MinistryOfAgricultureAndCommerceOrdinance
  else if n = 11 then some .MinistryOfCommerceAndIndustryOrdinance
  else if n = 12 then some .MinistryOfTransportOrdinance
  else if n = 13 then some .MinistryOfTransportAndCommunicationsOrdinance
  else if n = 14 then some .MinistryOfTheArmyOrdinanceA
  else if n = 15 then some .NavyMinisterialOrdinance
  else if n = 16 then some .OrdinanceOfTheMinistryOfMunitions
  else if n = 17 then some .MinistryOfAgricultureAndForestryOrdinance
  else none

instance : MinistryContents M2Ministry :=
  ⟨M2Ministry.to_int, M2Ministry.from_int⟩

/-- M2Ministry's start. -/
def M2Ministry.start : Date := Date.new_ad 1943 11 1

/-- M2Ministry's end (renamed: end is a Lean keyword). -/
def M2Ministry.endDate : Date := Date.new_ad 1945 11 30

/-- M2Ministry's applicable_wareki (the trait's default body). -/
def M2Ministry.applicable_wareki (w : Wareki) : Bool :=
  applicableWareki M2Ministry.start M2Ministry.endDate w

/-- M2Ministry's from_name. -/
def M2Ministry.from_name (name : List Char) : List M2Ministry :=
  pushIf (hasSub name ['閣']) .CabinetOrder ++
  pushIf (hasSub name ['宮', '内', '省']) .ImperialHouseholdOrdinance ++
  pushIf (hasSub name ['大', '東', '亜', '省']) .GreaterEastAsiaMinisterialOrdinance ++
  pushIf (hasSub name ['内', '務', '省']) .MinistryOfTheInteriorOrdinance ++
  pushIf (hasSub name ['司', '法', '省']) .MinistryOfJusticeOrdinance ++
  pushIf (hasSub name ['外', '務', '省']) .MinistryOfForeignAffairsOrdinance ++
  pushIf (hasSub name ['大', '蔵', '省']) .MinistryOfFinanceOrdinance ++
  pushIf (hasSub name ['文', '部', '省']) .MinistryOfEducationOrdinance ++
  pushIf (hasSub name ['厚', '生', '省']) .MinistryOfHealthAndWelfareOrdinance ++
  pushIf (hasSub name ['農', '商', '務', '省']) .MinistryOfAgricultureAndCommerceOrdinance ++
  pushIf (hasSub name ['商', '工', '省']) .MinistryOfCommerceAndIndustryOrdinance ++
  pushIf (hasSub name ['運', '輸', '省']) .MinistryOfTransportOrdinance ++
  pushIf (hasSub name ['運', '輸', '通', '信', '省']) .MinistryOfTransportAndCommunicationsOrdinance ++
  pushIf (hasSub name ['陸', '軍', '省'] && hasSub name ['甲']) .MinistryOfTheArmyOrdinanceA ++
  pushIf (hasSub name ['海', '軍', '省']) .NavyMinisterialOrdinance ++
  pushIf (hasSub name ['軍', '需', '省']) .OrdinanceOfTheMinistryOfMunitions ++
  pushIf (hasSub name ['農', '林', '省']) .MinistryOfAgricultureAndForestryOrdinance

/-- M3Ministry: issuing bodies of 1945-12-01 to 1947-05-02. -/
inductive M3Ministry where
  | CabinetOrder
  | ImperialHouseholdOrdinance
  | EconomicStabilityHeadquartersOrdinance
  | MinistryOfTheInteriorOrdinance
  | MinistryOfJusticeOrdinance
  | MinistryOfForeignAffairsOrdinance
  | MinistryOfFinanceOrdinance
  | MinistryOfEducationOrdinance
  | MinistryOfHealthAndWelfareOrdinance
  | MinistryOfAgricultureAndForestryOrdinance
  | MinistryOfCommerceAndIndustryOrdinance
  | MinistryOfTransportOrdinance
  | MinistryOfCommunicationsOrdinance
  | FirstMinisterialOrdinanceForDemobilization
  | SecondMinisterialOrdinanceForDemobilization
  | PriceAgencyOrdinance
  | CentralLaborRelationsCommissionRules
  deriving DecidableEq, Repr

/-- M3Ministry's to_int: the commission rule sits at bit 21, not 17. -/
def M3Ministry.to_int : M3Ministry → Nat
  | .CabinetOrder => 1
  | .ImperialHouseholdOrdinance => 2
  | .EconomicStabilityHeadquartersOrdinance => 3
  | .MinistryOfTheInteriorOrdinance => 4
  | .MinistryOfJusticeOrdinance => 5
  | .MinistryOfForeignAffairsOrdinance => 6
  | .MinistryOfFinanceOrdinance => 7
  | .MinistryOfEducationOrdinance => 8
  | .MinistryOfHealthAndWelfareOrdinance => 9
  | .MinistryOfAgricultureAndForestryOrdinance => 10
  | .MinistryOfCommerceAndIndustryOrdinance => 11
  | .MinistryOfTransportOrdinance => 12
  | .MinistryOfCommunicationsOrdinance => 13
  | .FirstMinisterialOrdinanceForDemobilization => 14
  | .SecondMinisterialOrdinanceForDemobilization => 15
  | .PriceAgencyOrdinance => 16
  | .CentralLaborRelationsCommissionRules => 21

/-- M3Ministry's from_int. -/
def M3Ministry.from_int (n : Nat) : Option M3Ministry :=
  if n = 1 then some .CabinetOrder
  else if n = 2 then some .ImperialHouseholdOrdinance
  else if n = 3 then some .EconomicStabilityHeadquartersOrdinance
  else if n = 4 then some .MinistryOfTheInteriorOrdinance
  else if n = 5 then some .MinistryOfJusticeOrdinance
  else if n = 6 then some .MinistryOfForeignAffairsOrdinance
  else if n = 7 then some .MinistryOfFinanceOrdinance
  else if n = 8 then some .MinistryOfEducationOrdinance
  else if n = 9 then some .MinistryOfHealthAndWelfareOrdinance
  else if n = 10 then some .MinistryOfAgricultureAndForestryOrdinance
  else if n = 11 then some .MinistryOfCommerceAndIndustryOrdinance
  else if n = 12 then some .MinistryOfTransportOrdinance
  else if n = 13 then some .MinistryOfCommunicationsOrdinance
  else if n = 14 then some .FirstMinisterialOrdinanceForDemobilization
  else if n = 15 then some .SecondMinisterialOrdinanceForDemobilization
  else if n = 16 then some .PriceAgencyOrdinance
  else if n = 21 then some .CentralLaborRelationsCommissionRules
  else none

instance : MinistryContents M3Ministry :=
  ⟨M3Ministry.to_int, M3Ministry.from_int⟩

/-- M3Ministry's start. -/
def M3Ministry.start : Date := Date.new_ad 1945 12 1

/-- M3Ministry's end (renamed: end is a Lean keyword). -/
def M3Ministry.endDate : Date := Date.new_ad 1947 5 2

/-- M3Ministry's applicable_wareki (the trait's default body). -/
def M3Ministry.applicable_wareki (w : Wareki) : Bool :=
  applicableWareki M3Ministry.start M3Ministry.endDate w

/-- M3Ministry's from_name. -/
def M3Ministry.from_name (name : List Char) : List M3Ministry :=
  pushIf (hasSub name ['閣']) .CabinetOrder ++
  pushIf (hasSub name ['宮', '内', '省']) .ImperialHouseholdOrdinance ++
  pushIf (hasSub name ['経', '済', '安', '定', '本', '部']) .EconomicStabilityHeadquartersOrdinance ++
  pushIf (hasSub name ['内', '務', '省']) .MinistryOfTheInteriorOrdinance ++
  pushIf (hasSub name ['司', '法', '省']) .MinistryOfJusticeOrdinance ++
  pushIf (hasSub name ['外', '務', '省']) .MinistryOfForeignAffairsOrdinance ++
  pushIf (hasSub name ['大', '蔵', '省']) .MinistryOfFinanceOrdinance ++
  pushIf (hasSub name ['文', '部', '省']) .MinistryOfEducationOrdinance ++
  pushIf (hasSub name ['厚', '生', '省']) .MinistryOfHealthAndWelfareOrdinance ++
  pushIf (hasSub name ['農', '林', '省']) .MinistryOfAgricultureAndForestryOrdinance ++
  pushIf (hasSub name ['商', '工', '省']) .MinistryOfCommerceAndIndustryOrdinance ++
  pushIf (hasSub name ['運', '輸', '省']) .MinistryOfTransportOrdinance ++
  pushIf (hasSub name ['逓', '信', '省']) .MinistryOfCommunicationsOrdinance ++
  pushIf (hasSub name ['第', '一', '復', '員', '省']) .FirstMinisterialOrdinanceForDemobilization ++
  pushIf (hasSub name ['第', '二', '復', '員', '省']) .SecondMinisterialOrdinanceForDemobilization ++
  pushIf (hasSub name ['物', '価', '庁']) .PriceAgencyOrdinance ++
  pushIf (hasSub name ['中', '央', '労', '働', '委', '員', '会']) .CentralLaborRelationsCommissionRules

/-- M4Ministry: issuing bodies of 1947-05-03 to 1949-05-31. -/
inductive M4Ministry where
  | LegalAffairsAgencyOrdinance
  | PrimeMinistersOfficeOrdinance
  | EconomicStabilityHeadquartersOrdinance
  | MinistryOfTheInteriorOrdinance
  | MinistryOfJusticeOrdinance
  | MinistryOfForeignAffairsOrdinance
  | MinistryOfFinanceOrdinance
  | MinistryOfEducationOrdinance
  | MinistryOfHealthAndWelfareOrdinance
  | MinistryOfAgricultureAndForestryOrdinance
  | MinistryOfInternationalTradeAndIndustryOrdinance
  | MinistryOfTransportOrdinance
  | MinistryOfCommunicationsOrdinance
  | MinistryOfLaborOrdinance
  | MinistryOfConstructionOrdinance
  | PriceAgencyOrdinance
  | MinistryOfCommerceAndIndustryOrdinance
  | CentralLaborRelationsCommissionRules
  | FairTradeCommissionRules
  | NationalPublicSafetyCommissionRegulations
  deriving DecidableEq, Repr

/-- M4Ministry's to_int: commissions sit at bits 21-23. -/
def M4Ministry.to_int : M4Ministry → Nat
  | .LegalAffairsAgencyOrdinance => 1
  | .PrimeMinistersOfficeOrdinance => 2
  | .EconomicStabilityHeadquartersOrdinance => 3
  | .MinistryOfTheInteriorOrdinance => 4
  | .MinistryOfJusticeOrdinance => 5
  | .MinistryOfForeignAffairsOrdinance => 6
  | .MinistryOfFinanceOrdinance => 7
  | .MinistryOfEducationOrdinance => 8
  | .MinistryOfHealthAndWelfareOrdinance => 9
  | .MinistryOfAgricultureAndForestryOrdinance => 10
  | .MinistryOfInternationalTradeAndIndustryOrdinance => 11
  | .MinistryOfTransportOrdinance => 12
  | .MinistryOfCommunicationsOrdinance => 13
  | .MinistryOfLaborOrdinance => 14
  | .MinistryOfConstructionOrdinance => 15
  | .PriceAgencyOrdinance => 16
  | .MinistryOfCommerceAndIndustryOrdinance => 17
  | .CentralLaborRelationsCommissionRules => 21
  | .FairTradeCommissionRules => 22
  | .NationalPublicSafetyCommissionRegulations => 23

/-- M4Ministry's from_int. -/
def M4Ministry.from_int (n : Nat) : Option M4Ministry :=
  if n = 1 then some .LegalAffairsAgencyOrdinance
  else if n = 2 then some .PrimeMinistersOfficeOrdinance
  else if n = 3 then some .EconomicStabilityHeadquartersOrdinance
  else if n = 4 then some .MinistryOfTheInteriorOrdinance
  else if n = 5 then some .MinistryOfJusticeOrdinance
  else if n = 6 then some .MinistryOfForeignAffairsOrdinance
  else if n = 7 then some .MinistryOfFinanceOrdinance
  else if n = 8 then some .MinistryOfEducationOrdinance
  else if n = 9 then some .MinistryOfHealthAndWelfareOrdinance
  else if n = 10 then some .MinistryOfAgricultureAndForestryOrdinance
  else if n = 11 then some .MinistryOfInternationalTradeAndIndustryOrdinance
  else if n = 12 then some .MinistryOfTransportOrdinance
  else if n = 13 then some .MinistryOfCommunicationsOrdinance
  else if n = 14 then some .MinistryOfLaborOrdinance
  else if n = 15 then some .MinistryOfConstructionOrdinance
  else if n = 16 then some .PriceAgencyOrdinance
  else if n = 17 then some .MinistryOfCommerceAndIndustryOrdinance
  else if n = 21 then some .CentralLaborRelationsCommissionRules
  else if n = 22 then some .FairTradeCommissionRules
  else if n = 23 then some .NationalPublicSafetyCommissionRegulations
  else none

instance : MinistryContents M4Ministry :=
  ⟨M4Ministry.to_int, M4Ministry.from_int⟩

/-- M4Ministry's start. -/
def M4Ministry.start : Date := Date.new_ad 1947 5 3

/-- M4Ministry's end (renamed: end is a Lean keyword). -/
def M4Ministry.endDate : Date := Date.new_ad 1949 5 31

/-- M4Ministry's applicable_wareki (the trait's default body). -/
def M4Ministry.applicable_wareki (w : Wareki) : Bool :=
  applicableWareki M4Ministry.start M4Ministry.endDate w

/-- M4Ministry's from_name. -/
def M4Ministry.from_name (name : List Char) : List M4Ministry :=
  pushIf (hasSub name ['法', '務', '庁']) .LegalAffairsAgencyOrdinance ++
  pushIf (hasSub name ['総', '理', '庁']) .PrimeMinistersOfficeOrdinance ++
  pushIf (hasSub name ['経', '済', '安', '定', '本', '部']) .EconomicStabilityHeadquartersOrdinance ++
  pushIf (hasSub name ['内', '務', '省']) .MinistryOfTheInteriorOrdinance ++
  pushIf (hasSub name ['司', '法', '省']) .MinistryOfJusticeOrdinance ++
  pushIf (hasSub name ['外', '務', '省']) .MinistryOfForeignAffairsOrdinance ++
  pushIf (hasSub name ['大', '蔵', '省']) .MinistryOfFinanceOrdinance ++
  pushIf (hasSub name ['文', '部', '省']) .MinistryOfEducationOrdinance ++
  pushIf (hasSub name ['厚', '生', '省']) .MinistryOfHealthAndWelfareOrdinance ++
  pushIf (hasSub name ['農', '林', '省']) .MinistryOfAgricultureAndForestryOrdinance ++
  pushIf (hasSub name ['通', '商', '産', '業', '省']) .MinistryOfInternationalTradeAndIndustryOrdinance ++
  pushIf (hasSub name ['運', '輸', '省']) .MinistryOfTransportOrdinance ++
  pushIf (hasSub name ['逓', '信', '省']) .MinistryOfCommunicationsOrdinance ++
  pushIf (hasSub name ['労', '働', '省']) .MinistryOfLaborOrdinance ++
  pushIf (hasSub name ['建', '設', '省']) .MinistryOfConstructionOrdinance ++
  pushIf (hasSub name ['物', '価', '庁']) .PriceAgencyOrdinance ++
  pushIf (hasSub name ['商', '工', '省']) .MinistryOfCommerceAndIndustryOrdinance ++
  pushIf (hasSub name ['中', '央', '労', '働', '委', '員', '会']) .CentralLaborRelationsCommissionRules ++
  pushIf (hasSub name ['公', '正', '取', '引', '委', '員', '会']) .FairTradeCommissionRules ++
  pushIf (hasSub name ['国', '家', '公', '安', '委', '員', '会']) .NationalPublicSafetyCommissionRegulations

/-- M5Ministry: issuing bodies of 1949-06-01 to 2001-01-05. -/
inductive M5Ministry where
  | LegalAffairsAgencyOrdinance
  | PrimeMinistersOfficeOrdinance
  | EconomicStabilityHeadquartersOrdinance
  | MinistryOfHomeAffairsOrdinance
  | MinistryOfJusticeOrdinance
  | MinistryOfForeignAffairsOrdinance
  | MinistryOfFinanceOrdinance
  | MinistryOfEducationOrdinance
  | MinistryOfHealthAndWelfareOrdinance
  | MinistryOfAgricultureAndForestryAndFisheriesOrdinance
  | MinistryOfInternationalTradeAndIndustryOrdinance
  | MinistryOfTransportOrdinance
  | MinistryOfPostsAndTelecommunicationsOrdinance
  | MinistryOfLaborOrdinance
  | MinistryOfConstructionOrdinance
  | PriceAgencyOrdinance
  | MinistryOfAgricultureAndForestryOrdinance
  | TelecommunicationsMinisterialOrdinance
  | CentralMinistriesAndAgenciesReformPromotionHeadquartersOrdinance
  | RadioRegulatoryCommissionRules
  | CentralLaborRelationsCommissionRules
  | FairTradeCommissionRules
  | NationalPublicSafetyCommissionRegulations
  | PollutionAdjustmentCommitteeRules
  | PublicSafetyReviewCommitteeRules
  deriving DecidableEq, Repr

/-- M5Ministry's to_int. -/
def M5Ministry.to_int : M5Ministry → Nat
  | .LegalAffairsAgencyOrdinance => 1
  | .PrimeMinistersOfficeOrdinance => 2
  | .EconomicStabilityHeadquartersOrdinance => 3
  | .MinistryOfHomeAffairsOrdinance => 4
  | .MinistryOfJusticeOrdinance => 5
  | .MinistryOfForeignAffairsOrdinance => 6
  | .MinistryOfFinanceOrdinance => 7
  | .MinistryOfEducationOrdinance => 8
  | .MinistryOfHealthAndWelfareOrdinance => 9
  | .MinistryOfAgricultureAndForestryAndFisheriesOrdinance => 10
  | .MinistryOfInternationalTradeAndIndustryOrdinance => 11
  | .MinistryOfTransportOrdinance => 12
  | .MinistryOfPostsAndTelecommunicationsOrdinance => 13
  | .MinistryOfLaborOrdinance => 14
  | .MinistryOfConstructionOrdinance => 15
  | .PriceAgencyOrdinance => 16
  | .MinistryOfAgricultureAndForestryOrdinance => 17
  | .TelecommunicationsMinisterialOrdinance => 18
  | .CentralMinistriesAndAgenciesReformPromotionHeadquartersOrdinance => 19
  | .RadioRegulatoryCommissionRules => 20
  | .CentralLaborRelationsCommissionRules => 21
  | .FairTradeCommissionRules => 22
  | .NationalPublicSafetyCommissionRegulations => 23
  | .PollutionAdjustmentCommitteeRules => 24
  | .PublicSafetyReviewCommitteeRules => 25

/-- M5Ministry's from_int. -/
def M5Ministry.from_int (n : Nat) : Option M5Ministry :=
  if n = 1 then some .LegalAffairsAgencyOrdinance
  else if n = 2 then some .PrimeMinistersOfficeOrdinance
  else if n = 3 then some .EconomicStabilityHeadquartersOrdinance
  else if n = 4 then some .MinistryOfHomeAffairsOrdinance
  else if n = 5 then some .MinistryOfJusticeOrdinance
  else if n = 6 then some .MinistryOfForeignAffairsOrdinance
  else if n = 7 then some .MinistryOfFinanceOrdinance
  else if n = 8 then some .MinistryOfEducationOrdinance
  else if n = 9 then some .MinistryOfHealthAndWelfareOrdinance
  else if n = 10 then some .MinistryOfAgricultureAndForestryAndFisheriesOrdinance
  else if n = 11 then some .MinistryOfInternationalTradeAndIndustryOrdinance
  else if n = 12 then some .MinistryOfTransportOrdinance
  else if n = 13 then some .MinistryOfPostsAndTelecommunicationsOrdinance
  else if n = 14 then some .MinistryOfLaborOrdinance
  else if n = 15 then some .MinistryOfConstructionOrdinance
  else if n = 16 then some .PriceAgencyOrdinance
  else if n = 17 then some .MinistryOfAgricultureAndForestryOrdinance
  else if n = 18 then some .TelecommunicationsMinisterialOrdinance
  else if n = 19 then some .CentralMinistriesAndAgenciesReformPromotionHeadquartersOrdinance
  else if n = 20 then some .RadioRegulatoryCommissionRules
  else if n = 21 then some .CentralLaborRelationsCommissionRules
  else if n = 22 then some .FairTradeCommissionRules
  else if n = 23 then some .NationalPublicSafetyCommissionRegulations
  else if n = 24 then some .PollutionAdjustmentCommitteeRules
  else if n = 25 then some .PublicSafetyReviewCommitteeRules
  else none

instance : MinistryContents M5Ministry :=
  ⟨M5Ministry.to_int, M5Ministry.from_int⟩

/-- M5Ministry's start. -/
def M5Ministry.start : Date := Date.new_ad 1949 6 1

/-- M5Ministry's end (renamed: end is a Lean keyword). -/
def M5Ministry.endDate : Date := Date.new_ad 2001 1 5

/-- M5Ministry's applicable_wareki (the trait's default body). -/
def M5Ministry.applicable_wareki (w : Wareki) : Bool :=
  applicableWareki M5Ministry.start M5Ministry.endDate w

/-- M5Ministry's from_name. -/
def M5Ministry.from_name (name : List Char) : List M5Ministry :=
  pushIf (hasSub name ['法', '務', '庁']) .LegalAffairsAgencyOrdinance ++
  pushIf (hasSub name ['総', '理', '庁']) .PrimeMinistersOfficeOrdinance ++
  pushIf (hasSub name ['経', '済', '安', '定', '本', '部']) .EconomicStabilityHeadquartersOrdinance ++
  pushIf (hasSub name ['自', '治', '省']) .MinistryOfHomeAffairsOrdinance ++
  pushIf (hasSub name ['法', '務', '省']) .MinistryOfJusticeOrdinance ++
  pushIf (hasSub name ['外', '務', '省']) .MinistryOfForeignAffairsOrdinance ++
  pushIf (hasSub name ['大', '蔵', '省']) .MinistryOfFinanceOrdinance ++
  pushIf (hasSub name ['文', '部', '省']) .MinistryOfEducationOrdinance ++
  pushIf (hasSub name ['厚', '生', '省']) .MinistryOfHealthAndWelfareOrdinance ++
  pushIf (hasSub name ['農', '林', '水', '産', '省']) .MinistryOfAgricultureAndForestryAndFisheriesOrdinance ++
  pushIf (hasSub name ['通', '商', '産', '業', '省']) .MinistryOfInternationalTradeAndIndustryOrdinance ++
  pushIf (hasSub name ['運', '輸', '省']) .MinistryOfTransportOrdinance ++
  pushIf (hasSub name ['郵', '政', '省']) .MinistryOfPostsAndTelecommunicationsOrdinance ++
  pushIf (hasSub name ['労', '働', '省']) .MinistryOfLaborOrdinance ++
  pushIf (hasSub name ['建', '設', '省']) .MinistryOfConstructionOrdinance ++
  pushIf (hasSub name ['物', '価', '庁']) .PriceAgencyOrdinance ++
  pushIf (hasSub name ['農', '林', '省']) .MinistryOfAgricultureAndForestryOrdinance ++
  pushIf (hasSub name ['電', '気', '通', '信', '省']) .TelecommunicationsMinisterialOrdinance ++
  pushIf (hasSub name ['中', '央', '省', '庁', '等', '改', '革', '推', '進', '本', '部']) .CentralMinistriesAndAgenciesReformPromotionHeadquartersOrdinance ++
  pushIf (hasSub name ['電', '波', '監', '理', '委', '員', '会']) .RadioRegulatoryCommissionRules ++
  pushIf (hasSub name ['中', '央', '労', '働', '委', '員', '会']) .CentralLaborRelationsCommissionRules ++
  pushIf (hasSub name ['公', '正', '取', '引', '委', '員', '会']) .FairTradeCommissionRules ++
  pushIf (hasSub name ['国', '家', '公', '安', '委', '員', '会']) .NationalPublicSafetyCommissionRegulations ++
  pushIf (hasSub name ['公', '害', '等', '調', '整', '委', '員', '会']) .PollutionAdjustmentCommitteeRules ++
  pushIf (hasSub name ['公', '安', '審', '査', '委', '員', '会']) .PublicSafetyReviewCommitteeRules

/-- M6Ministry: issuing bodies of 2001-01-06 onward. -/
inductive M6Ministry where
  | CabinetSecretariatOrdinance
  | PrimeMinistersOfficeOrdinance
  | ReconstructionAgencyOrdinance
  | MinistryOfHomeAffairsOrdinance
  | MinistryOfJusticeOrdinance
  | MinistryOfForeignAffairsOrdinance
  | MinistryOfFinanceOrdinance
  | MinistryOfEducationAndCultureAndSportsAndScienceAndTechnologyOrdinance
  | MinistryOfHealthAndLaborAndWelfareOrdinance
  | MinistryOfAgricultureAndForestryAndFisheriesOrdinance
  | MinistryOfEconomyAndTradeAndIndustryOrdinance
  | MinistryOfLandAndInfrastructureAndTransportAndTourismOrdinance
  | MinistryOfTheEnvironmentOrdinance
  | MinistryOfDefenseOrdinance
  | DigitalAgencyOrdinance
  | SpecificPersonalInformationProtectionCommissionRules
  | JapanTransportSafetyBoardRegulations
  | NuclearRegulationAuthorityRegulations
  | CentralLaborRelationsCommissionRules
  | FairTradeCommissionRules
  | NationalPublicSafetyCommissionRegulations
  | PollutionAdjustmentCommitteeRules
  | PublicSafetyReviewCommitteeRules
  | CasinoManagementCommitteeRules
  deriving DecidableEq, Repr

/-- M6Ministry's to_int: bits 16 and 17 are unused. -/
def M6Ministry.to_int : M6Ministry → Nat
  | .CabinetSecretariatOrdinance => 1
  | .PrimeMinistersOfficeOrdinance => 2
  | .ReconstructionAgencyOrdinance => 3
  | .MinistryOfHomeAffairsOrdinance => 4
  | .MinistryOfJusticeOrdinance => 5
  | .MinistryOfForeignAffairsOrdinance => 6
  | .MinistryOfFinanceOrdinance => 7
  | .MinistryOfEducationAndCultureAndSportsAndScienceAndTechnologyOrdinance => 8
  | .MinistryOfHealthAndLaborAndWelfareOrdinance => 9
  | .MinistryOfAgricultureAndForestryAndFisheriesOrdinance => 10
  | .MinistryOfEconomyAndTradeAndIndustryOrdinance => 11
  | .MinistryOfLandAndInfrastructureAndTransportAndTourismOrdinance => 12
  | .MinistryOfTheEnvironmentOrdinance => 13
  | .MinistryOfDefenseOrdinance => 14
  | .DigitalAgencyOrdinance => 15
  | .SpecificPersonalInformationProtectionCommissionRules => 18
  | .JapanTransportSafetyBoardRegulations => 19
  | .NuclearRegulationAuthorityRegulations => 20
  | .CentralLaborRelationsCommissionRules => 21
  | .FairTradeCommissionRules => 22
  | .NationalPublicSafetyCommissionRegulations => 23
  | .PollutionAdjustmentCommitteeRules => 24
  | .PublicSafetyReviewCommitteeRules => 25
  | .CasinoManagementCommitteeRules => 26

/-- M6Ministry's from_int. -/
def M6Ministry.from_int (n : Nat) : Option M6Ministry :=
  if n = 1 then some .CabinetSecretariatOrdinance
  else if n = 2 then some .PrimeMinistersOfficeOrdinance
  else if n = 3 then some .ReconstructionAgencyOrdinance
  else if n = 4 then some .MinistryOfHomeAffairsOrdinance
  else if n = 5 then some .MinistryOfJusticeOrdinance
  else if n = 6 then some .MinistryOfForeignAffairsOrdinance
  else if n = 7 then some .MinistryOfFinanceOrdinance
  else if n = 8 then some .MinistryOfEducationAndCultureAndSportsAndScienceAndTechnologyOrdinance
  else if n = 9 then some .MinistryOfHealthAndLaborAndWelfareOrdinance
  else if n = 10 then some .MinistryOfAgricultureAndForestryAndFisheriesOrdinance
  else if n = 11 then some .MinistryOfEconomyAndTradeAndIndustryOrdinance
  else if n = 12 then some .MinistryOfLandAndInfrastructureAndTransportAndTourismOrdinance
  else if n = 13 then some .MinistryOfTheEnvironmentOrdinance
  else if n = 14 then some .MinistryOfDefenseOrdinance
  else if n = 15 then some .DigitalAgencyOrdinance
  else if n = 18 then some .SpecificPersonalInformationProtectionCommissionRules
  else if n = 19 then some .JapanTransportSafetyBoardRegulations
  else if n = 20 then some .NuclearRegulationAuthorityRegulations
  else if n = 21 then some .CentralLaborRelationsCommissionRules
  else if n = 22 then some .FairTradeCommissionRules
  else if n = 23 then some .NationalPublicSafetyCommissionRegulations
  else if n = 24 then some .PollutionAdjustmentCommitteeRules
  else if n = 25 then some .PublicSafetyReviewCommitteeRules
  else if n = 26 then some .CasinoManagementCommitteeRules
  else none

instance : MinistryContents M6Ministry :=
  ⟨M6Ministry.to_int, M6Ministry.from_int⟩

/-- M6Ministry's start. -/
def M6Ministry.start : Date := Date.new_ad 2001 1 6

/-- M6Ministry's end: still in force, so the source builds a date from
usize::MAX (renamed: end is a Lean keyword). -/
def M6Ministry.endDate : Date := Date.new_ad USIZE_MAX 12 31

/-- M6Ministry's applicable_wareki (the trait's default body). -/
def M6Ministry.applicable_wareki (w : Wareki) : Bool :=
  applicableWareki M6Ministry.start M6Ministry.endDate w

/-- M6Ministry's from_name.  Note: the branch matching the Reconstruction
Agency name pushes MinistryOfHomeAffairsOrdinance, exactly as the source
does. -/
def M6Ministry.from_name (name : List Char) : List M6Ministry :=
  pushIf (hasSub name ['内', '閣', '官', '房']) .CabinetSecretariatOrdinance ++
  pushIf (hasSub name ['総', '理', '庁']) .PrimeMinistersOfficeOrdinance ++
  pushIf (hasSub name ['復', '興', '庁']) .MinistryOfHomeAffairsOrdinance ++
  pushIf (hasSub name ['自', '治', '省']) .MinistryOfHomeAffairsOrdinance ++
  pushIf (hasSub name ['法', '務', '省']) .MinistryOfJusticeOrdinance ++
  pushIf (hasSub name ['外', '務', '省']) .MinistryOfForeignAffairsOrdinance ++
  pushIf (hasSub name ['財', '務', '省']) .MinistryOfFinanceOrdinance ++
  pushIf (hasSub name ['文', '部', '科', '学', '省']) .MinistryOfEducationAndCultureAndSportsAndScienceAndTechnologyOrdinance ++
  pushIf (hasSub name ['厚', '生', '労', '働', '省']) .MinistryOfHealthAndLaborAndWelfareOrdinance ++
  pushIf (hasSub name ['農', '林', '水', '産', '省']) .MinistryOfAgricultureAndForestryAndFisheriesOrdinance ++
  pushIf (hasSub name ['経', '済', '産', '業', '省']) .MinistryOfEconomyAndTradeAndIndustryOrdinance ++
  pushIf (hasSub name ['国', '土', '交', '通', '省']) .MinistryOfLandAndInfrastructureAndTransportAndTourismOrdinance ++
  pushIf (hasSub name ['環', '境', '省']) .MinistryOfTheEnvironmentOrdinance ++
  pushIf (hasSub name ['防', '衛', '省']) .MinistryOfDefenseOrdinance ++
  pushIf (hasSub name ['デ', 'ジ', 'タ', 'ル', '庁']) .DigitalAgencyOrdinance ++
  pushIf (hasSub name ['特', '定', '個', '人', '情', '報', '保', '護', '委', '員', '会']) .SpecificPersonalInformationProtectionCommissionRules ++
  pushIf (hasSub name ['運', '輸', '安', '全', '委', '員', '会']) .JapanTransportSafetyBoardRegulations ++
  pushIf (hasSub name ['原', '子', '力', '規', '制', '委', '員', '会']) .NuclearRegulationAuthorityRegulations ++
  pushIf (hasSub name ['中', '央', '労', '働', '委', '員', '会']) .CentralLaborRelationsCommissionRules ++
  pushIf (hasSub name ['公', '正', '取', '引', '委', '員', '会']) .FairTradeCommissionRules ++
  pushIf (hasSub name ['国', '家', '公', '安', '委', '員', '会']) .NationalPublicSafetyCommissionRegulations ++
  pushIf (hasSub name ['公', '害', '等', '調', '整', '委', '員', '会']) .PollutionAdjustmentCommitteeRules ++
  pushIf (hasSub name ['公', '安', '審', '査', '委', '員', '会']) .PublicSafetyReviewCommitteeRules ++
  pushIf (hasSub name ['カ', 'ジ', 'ノ', '管', '理', '委', '員', '会']) .CasinoManagementCommitteeRules

/-- Ministry: one period's ordered member list, tagged M1-M6. -/
inductive Ministry where
  | M1 : List M1Ministry → Ministry
  | M2 : List M2Ministry → Ministry
  | M3 : List M3Ministry → Ministry
  | M4 : List M4Ministry → Ministry
  | M5 : List M5Ministry → Ministry
  | M6 : List M6Ministry → Ministry
  deriving DecidableEq, Repr

/-- Ministry::to_id_str: the two-character period tag then the 7-hex-digit
mask. -/
def Ministry.to_id_str : Ministry → List Char
  | .M1 l => ['M', '1'] ++ MinistryContents.to_id_str l
  | .M2 l => ['M', '2'] ++ MinistryContents.to_id_str l
  | .M3 l => ['M', '3'] ++ MinistryContents.to_id_str l
  | .M4 l => ['M', '4'] ++ MinistryContents.to_id_str l
  | .M5 l => ['M', '5'] ++ MinistryContents.to_id_str l
  | .M6 l => ['M', '6'] ++ MinistryContents.to_id_str l

/-- The body every period arm of Ministry::from_id_str repeats verbatim:
parse bytes 2-8 as hex, expand to the 28-character binary string, delegate to
the period's decoder, wrap the result in the period's constructor. -/
def ministryPeriodArm (α : Type) [MinistryContents α]
    (wrap : List α → Ministry) (s : List Char) :
    PRes (Except (List Char) Ministry) :=
  (sliceIncl s 2 8).bind fun h =>
  match parseUsizeRadix16 h with
  | none => .ret (.error unexpectedString)
  | some n =>
    match MinistryContents.from_id_str α (fmtBin28 n) with
    | .error e => .ret (.error e)
    | .ok l => .ret (.ok (wrap l))

/-- Ministry::from_id_str: reads the tag at bytes 0-1 and dispatches to the
period's arm.  Slicing panics (input shorter than 9 bytes) surface as
PRes.panics; ordinary failures as ret (error _). -/
def Ministry.from_id_str (s : List Char) : PRes (Except (List Char) Ministry) :=
  (sliceIncl s 0 0).bind fun p00 =>
  if p00 = ['M'] then
    (sliceIncl s 1 1).bind fun p11 =>
    if p11 = ['1'] then ministryPeriodArm M1Ministry .M1 s
    else if p11 = ['2'] then ministryPeriodArm M2Ministry .M2 s
    else if p11 = ['3'] then ministryPeriodArm M3Ministry .M3 s
    else if p11 = ['4'] then ministryPeriodArm M4Ministry .M4 s
    else if p11 = ['5'] then ministryPeriodArm M5Ministry .M5 s
    else if p11 = ['6'] then ministryPeriodArm M6Ministry .M6 s
    else .ret (.error unexpectedString)
  else .ret (.error unexpectedString)

/-- The period-selection chain of Ministry::from_name (src/lib.rs 1539-1559):
after the regular-expression collaborator has extracted the Wareki and the
ministry substring, the six periods are tested in order M1 to M6 and the
first applicable one wins. -/
def Ministry.select (wareki : Wareki) (ministry_s : List Char) :
    Except (List Char) Ministry :=
  if M1Ministry.applicable_wareki wareki then
    .ok (.M1 (M1Ministry.from_name ministry_s))
  else if M2Ministry.applicable_wareki wareki then
    .ok (.M2 (M2Ministry.from_name ministry_s))
  else if M3Ministry.applicable_wareki wareki then
    .ok (.M3 (M3Ministry.from_name ministry_s))
  else if M4Ministry.applicable_wareki wareki then
    .ok (.M4 (M4Ministry.from_name ministry_s))
  else if M5Ministry.applicable_wareki wareki then
    .ok (.M5 (M5Ministry.from_name ministry_s))
  else if M6Ministry.applicable_wareki wareki then
    .ok (.M6 (M6Ministry.from_name ministry_s))
  else .error unexpectedInput

/-- Institution: flat enumeration of standalone bodies. -/
inductive Institution where
  | BoardOfAudit
  | CoastGuard
  | ScienceCouncilOfJapan
  | LandAdjustmentCommittee
  | FinancialReconstructionCommittee
  | MetropolitanAreaDevelopmentCommittee
  | LocalFinanceCommittee
  | BarExaminationManagementCommittee
  | CertifiedPublicAccountantManagementCommittee
  | ForeignInvestmentCommittee
  | CulturalPropertiesProtectionCommittee
  | JapaneseNationalCommissionForUNESCO
  | SupremeCourt
  | HouseOfRepresentatives
  | HouseOfCouncilors
  | SeafarersCentralLaborCommittee
  | RadioRegulatoryCommission
  | CasinoManagementCommittee
  deriving DecidableEq, Repr

/-- Institution::to_int: codes 17 is never produced (the enumeration skips
from 16 to 18). -/
def Institution.to_int : Institution → Nat
  | .BoardOfAudit => 1
  | .CoastGuard => 2
  | .ScienceCouncilOfJapan => 3
  | .LandAdjustmentCommittee => 4
  | .FinancialReconstructionCommittee => 5
  | .MetropolitanAreaDevelopmentCommittee => 6
  | .LocalFinanceCommittee => 7
  | .BarExaminationManagementCommittee => 8
  | .CertifiedPublicAccountantManagementCommittee => 9
  | .ForeignInvestmentCommittee => 10
  | .CulturalPropertiesProtectionCommittee => 11
  | .JapaneseNationalCommissionForUNESCO => 12
  | .SupremeCourt => 13
  | .HouseOfRepresentatives => 14
  | .HouseOfCouncilors => 15
  | .SeafarersCentralLaborCommittee => 16
  | .RadioRegulatoryCommission => 18
  | .CasinoManagementCommittee => 19

/-- Institution::from_int: both 8 and 17 decode to the bar-examination
committee, exactly as the source's match does. -/
def Institution.from_int (n : Nat) : Option Institution :=
  if n = 1 then some .BoardOfAudit
  else if n = 2 then some .CoastGuard
  else if n = 3 then some .ScienceCouncilOfJapan
  else if n = 4 then some .LandAdjustmentCommittee
  else if n = 5 then some .FinancialReconstructionCommittee
  else if n = 6 then some .MetropolitanAreaDevelopmentCommittee
  else if n = 7 then some .LocalFinanceCommittee
  else if n = 8 then some .BarExaminationManagementCommittee
  else if n = 9 then some .CertifiedPublicAccountantManagementCommittee
  else if n = 10 then some .ForeignInvestmentCommittee
  else if n = 11 then some .CulturalPropertiesProtectionCommittee
  else if n = 12 then some .JapaneseNationalCommissionForUNESCO
  else if n = 13 then some .SupremeCourt
  else if n = 14 then some .HouseOfRepresentatives
  else if n = 15 then some .HouseOfCouncilors
  else if n = 16 then some .SeafarersCentralLaborCommittee
  else if n = 17 then some .BarExaminationManagementCommittee
  else if n = 18 then some .RadioRegulatoryCommission
  else if n = 19 then some .CasinoManagementCommittee
  else none

/-- LawType: the tagged union of instrument categories. -/
inductive LawType where
  | Constitution : LawType
  | Act : RippouType → Nat → LawType
  | CabinetOrder : LawEfficacy → Nat → LawType
  | ImperialOrder : LawEfficacy → Nat → LawType
  | DajokanFukoku : LawEfficacy → Nat → LawType
  | DajokanTasshi : LawEfficacy → Nat → LawType
  | DajokanHutatsu : LawEfficacy → Nat → LawType
  | MinistryOrder : Ministry → Nat → LawType
  | Jinjin : Nat → Nat → Nat → LawType
  | Regulation : Institution → Nat → LawType
  | PrimeMinisterDecision : Nat → Nat → Nat → LawType
  deriving DecidableEq, Repr

/-- The fixed string CONSTITUTION. -/
def constitutionStr : List Char :=
  ['C', 'O', 'N', 'S', 'T', 'I', 'T', 'U', 'T', 'I', 'O', 'N']

/-- LawType::to_id_str: tag letters then zero-padded numeric fields. -/
def LawType.to_id_str : LawType → List Char
  | .Constitution => constitutionStr
  | .Act rt num =>
    (match rt with
     | .Kakuhou => ['A', 'C', '0', '0', '0', '0', '0', '0', '0']
     | .Syuin => ['A', 'C', '1', '0', '0', '0', '0', '0', '0']
     | .Sanin => ['A', 'C', '0', '1', '0', '0', '0', '0', '0']) ++ fmtDec 3 num
  | .CabinetOrder e num =>
    (match e with
     | .Law => ['C', 'O', '1', '0', '0', '0', '0', '0', '0']
     | .CabinetOrder => ['C', 'O', '0', '0', '0', '0', '0', '0', '0']) ++ fmtDec 3 num
  | .ImperialOrder e num =>
    (match e with
     | .Law => ['I', 'O', '1', '0', '0', '0', '0', '0', '0']
     | .CabinetOrder => ['I', 'O', '0', '0', '0', '0', '0', '0', '0']) ++ fmtDec 3 num
  | .DajokanFukoku e num =>
    (match e with
     | .Law => ['D', 'F', '1', '0', '0', '0', '0', '0', '0']
     | .CabinetOrder => ['D', 'F', '0', '0', '0', '0', '0', '0', '0']) ++ fmtDec 3 num
  | .DajokanTasshi e num =>
    (match e with
     | .Law => ['D', 'T', '1', '0', '0', '0', '0', '0', '0']
     | .CabinetOrder => ['D', 'T', '0', '0', '0', '0', '0', '0', '0']) ++ fmtDec 3 num
  | .DajokanHutatsu e num =>
    (match e with
     | .Law => ['D', 'H', '1', '0', '0', '0', '0', '0', '0']
     | .CabinetOrder => ['D', 'H', '0', '0', '0', '0', '0', '0', '0']) ++ fmtDec 3 num
  | .MinistryOrder m num => m.to_id_str ++ fmtDec 3 num
  | .Jinjin kind ks amend =>
    ['R', 'J', 'N', 'J'] ++ fmtDec 2 kind ++ fmtDec 3 ks ++ fmtDec 3 amend
  | .Regulation inst num => ['R'] ++ fmtDec 8 inst.to_int ++ fmtDec 3 num
  | .PrimeMinisterDecision month day num =>
    ['R', 'P', 'M', 'D'] ++ fmtDec 2 month ++ fmtDec 2 day ++ fmtDec 4 num

/-- The flag if-chain of the Act branch of LawType::from_id_str: 0 is a
cabinet bill, 1000000 a lower-house bill, 100000 an upper-house bill, any
other value an error. -/
def actFlag (v : Nat) : Option (Nat → LawType) :=
  if v = 0 then some (.Act .Kakuhou)
  else if v = 1000000 then some (.Act .Syuin)
  else if v = 100000 then some (.Act .Sanin)
  else none

/-- The flag if-chain the CO/IO/DF/DT/DH branches of LawType::from_id_str all
repeat: 0 is order force, 1000000 law force, anything else an error. -/
def efficacyFlag (mk : LawEfficacy → Nat → LawType) (v : Nat) :
    Option (Nat → LawType) :=
  if v = 0 then some (mk .CabinetOrder)
  else if v = 1000000 then some (mk .Law)
  else none

/-- The shared body of the Act and order branches of LawType::from_id_str:
parse the 7-digit flag at bytes 2-8, run the branch's flag if-chain (an
unknown flag returns None before the serial is sliced, as in the source),
then parse the 3-digit serial at bytes 9-11. -/
def flagNumBranch (s : List Char) (flagOf : Nat → Option (Nat → LawType)) :
    PRes (Option LawType) :=
  (sliceIncl s 2 8).bind fun f =>
  match parseUsize f with
  | none => .ret none
  | some v =>
    match flagOf v with
    | none => .ret none
    | some mk =>
      (sliceIncl s 9 11).bind fun nf =>
      match parseUsize nf with
      | none => .ret none
      | some num => .ret (some (mk num))

/-- The M branch of LawType::from_id_str: Ministry::from_id_str on the whole
string (its error becomes None), then the serial at bytes 9-11. -/
def ministryBranch (s : List Char) : PRes (Option LawType) :=
  (Ministry.from_id_str s).bind fun mres =>
  match mres with
  | .error _ => .ret none
  | .ok ministry =>
    (sliceIncl s 9 11).bind fun nf =>
    match parseUsize nf with
    | none => .ret none
    | some num => .ret (some (.MinistryOrder ministry num))

/-- The RJNJ branch of LawType::from_id_str: kind at bytes 4-5, kind serial
at 6-8, amendment serial at 9-11. -/
def jinjinBranch (s : List Char) : PRes (Option LawType) :=
  (sliceIncl s 4 5).bind fun kf =>
  match parseUsize kf with
  | none => .ret none
  | some kind =>
    (sliceIncl s 6 8).bind fun ksf =>
    match parseUsize ksf with
    | none => .ret none
    | some ks =>
      (sliceIncl s 9 11).bind fun af =>
      match parseUsize af with
      | none => .ret none
      | some amend => .ret (some (.Jinjin kind ks amend))

/-- The RPMD branch of LawType::from_id_str: month at bytes 4-5, day at 6-7,
serial at 8-11. -/
def rpmdBranch (s : List Char) : PRes (Option LawType) :=
  (sliceIncl s 4 5).bind fun mf =>
  match parseUsize mf with
  | none => .ret none
  | some month =>
    (sliceIncl s 6 7).bind fun df =>
    match parseUsize df with
    | none => .ret none
    | some day =>
      (sliceIncl s 8 11).bind fun nf =>
      match parseUsize nf with
      | none => .ret none
      | some num => .ret (some (.PrimeMinisterDecision month day num))

/-- The R branch of LawType::from_id_str: the 8-digit institution code at
bytes 1-8 through Institution::from_int, then the serial at bytes 9-11. -/
def regulationBranch (s : List Char) : PRes (Option LawType) :=
  (sliceIncl s 1 8).bind fun instf =>
  match parseUsize instf with
  | none => .ret none
  | some code =>
    match Institution.from_int code with
    | none => .ret none
    | some inst =>
      (sliceIncl s 9 11).bind fun nf =>
      match parseUsize nf with
      | none => .ret none
      | some num => .ret (some (.Regulation inst num))

/-- LawType::from_id_str: tag dispatch by fixed-position prefix tests in the
source's order (the CONSTITUTION equality first, the two-letter tags, the M
tag, RJNJ and RPMD before the bare R), each arm as above.  Out-of-bounds
slicing on short input is a panic (PRes.panics); a failed parse or unknown
flag is an ordinary none. -/
def LawType.from_id_str (s : List Char) : PRes (Option LawType) :=
  if s = constitutionStr then .ret (some .Constitution)
  else
  (sliceIncl s 0 1).bind fun p01 =>
  if p01 = ['A', 'C'] then flagNumBranch s actFlag
  else if p01 = ['C', 'O'] then flagNumBranch s (efficacyFlag .CabinetOrder)
  else if p01 = ['I', 'O'] then flagNumBranch s (efficacyFlag .ImperialOrder)
  else if p01 = ['D', 'F'] then flagNumBranch s (efficacyFlag .DajokanFukoku)
  else if p01 = ['D', 'T'] then flagNumBranch s (efficacyFlag .DajokanTasshi)
  else if p01 = ['D', 'H'] then flagNumBranch s (efficacyFlag .DajokanHutatsu)
  else
  (sliceIncl s 0 0).bind fun p00 =>
  if p00 = ['M'] then ministryBranch s
  else
  (sliceIncl s 0 3).bind fun p03 =>
  if p03 = ['R', 'J', 'N', 'J'] then jinjinBranch s
  else if p03 = ['R', 'P', 'M', 'D'] then rpmdBranch s
  else if p00 = ['R'] then regulationBranch s
  else .ret none

/-- LawId: a Wareki prefix and a LawType payload. -/
structure LawId where
  wareki : Wareki
  law_type : LawType
  deriving DecidableEq, Repr

/-- LawId::to_id_str: era number, two-digit Wareki year, then the law type's
id string. -/
def LawId.to_id_str (x : LawId) : List Char :=
  natDecChars x.wareki.era.to_number ++ fmtDec 2 x.wareki.year ++
    x.law_type.to_id_str

/-- LawId::from_id_str: byte 0 is the era number, bytes 1-2 the Wareki year,
bytes 3-14 the law type. -/
def LawId.from_id_str (s : List Char) : PRes (Option LawId) :=
  (sliceIncl s 0 0).bind fun ef =>
  match parseUsize ef with
  | none => .ret none
  | some era_n =>
    match Era.from_number era_n with
    | none => .ret none
    | some era =>
      (sliceIncl s 1 2).bind fun yf =>
      match parseUsize yf with
      | none => .ret none
      | some year =>
        (sliceIncl s 3 14).bind fun type_str =>
        (LawType.from_id_str type_str).bind fun lres =>
        match lres with
        | none => .ret none
        | some law_type => .ret (some ⟨Wareki.new era year, law_type⟩)

/-- Modelled from the spec: the external kanji-numeral collaborator (the
Kansuji crate, out of scope for the core) as the spec's
kanji_numeral_to_integer interface.  Digit value of one kanji digit. -/
def kanjiDigitVal (c : Char) : Option Nat :=
  if c = '一' then some 1
  else if c = '二' then some 2
  else if c = '三' then some 3
  else if c = '四' then some 4
  else if c = '五' then some 5
  else if c = '六' then some 6
  else if c = '七' then some 7
  else if c = '八' then some 8
  else if c = '九' then some 9
  else none

/-- Modelled from the spec: accumulator loop of the kanji-numeral conversion:
a plain digit becomes the current coefficient, a tens or hundreds marker
multiplies the coefficient (1 when absent) onto the total. -/
def kanjiToIntGo : List Char → Nat → Nat → Option Nat
  | [], total, cur => some (total + cur)
  | c :: t, total, cur =>
    if c = '十' then kanjiToIntGo t (total + (if cur = 0 then 1 else cur) * 10) 0
    else if c = '百' then kanjiToIntGo t (total + (if cur = 0 then 1 else cur) * 100) 0
    else match kanjiDigitVal c with
      | some d => kanjiToIntGo t total d
      | none => none

/-- Modelled from the spec: kanji_numeral_to_integer(text) -> Option, empty
input rejected. -/
def kanjiToInt (l : List Char) : Option Nat :=
  if l = [] then none else kanjiToIntGo l 0 0

/-- The full-width-digit replacements of Wareki::from_text. -/
def zenkakuToAscii (c : Char) : Char :=
  if c = '０' then '0'
  else if c = '１' then '1'
  else if c = '２' then '2'
  else if c = '３' then '3'
  else if c = '４' then '4'
  else if c = '５' then '5'
  else if c = '６' then '6'
  else if c = '７' then '7'
  else if c = '８' then '8'
  else if c = '９' then '9'
  else c

/-- The regex's kanji-numeral character class. -/
def isKanjiNumChar (c : Char) : Bool :=
  c = '一' || c = '二' || c = '三' || c = '四' || c = '五' || c = '六' ||
  c = '七' || c = '八' || c = '九' || c = '十' || c = '百'

/-- The regex's ASCII-digit character class. -/
def isAsciiDigitChar (c : Char) : Bool := '0' ≤ c && c ≤ '9'

/-- The regex's full-width-digit character class. -/
def isZenkakuDigitChar (c : Char) : Bool :=
  c = '０' || c = '１' || c = '２' || c = '３' || c = '４' || c = '５' ||
  c = '６' || c = '７' || c = '８' || c = '９'

/-- Greedy non-empty character-class run (the regex's +). -/
def takeRun1 (p : Char → Bool) (l : List Char) :
    Option (List Char × List Char) :=
  match l.takeWhile p with
  | [] => none
  | run => some (run, l.drop run.length)

/-- Modelled from the spec: one attempt of the Wareki::from_text regex at a
fixed position: a two-character era name, then the year-expression
alternatives in the pattern's order (the gan literal, kanji numerals, ASCII
digits, full-width digits), then the year marker. -/
def matchWarekiAt (l : List Char) : Option Wareki :=
  match l with
  | e1 :: e2 :: rest =>
    match Era.from_text [e1, e2] with
    | none => none
    | some era =>
      match rest with
      | '元' :: '年' :: _ => some ⟨era, 1⟩
      | _ =>
        match takeRun1 isKanjiNumChar rest with
        | some (run, '年' :: _) => (kanjiToInt run).map fun y => ⟨era, y⟩
        | _ =>
          match takeRun1 isAsciiDigitChar rest with
          | some (run, '年' :: _) =>
            (parseRadix 10 decDigitVal run).map fun y => ⟨era, y⟩
          | _ =>
            match takeRun1 isZenkakuDigitChar rest with
            | some (run, '年' :: _) =>
              (parseRadix 10 decDigitVal (run.map zenkakuToAscii)).map
                fun y => ⟨era, y⟩
            | _ => none
  | _ => none

/-- Wareki::from_text: the regex collaborator's leftmost match of the pattern
(era name, year expression, year marker), then the source's own handling of
the four capture alternatives. -/
def Wareki.from_text : List Char → Option Wareki
  | [] => none
  | c :: t =>
    match matchWarekiAt (c :: t) with
    | some w => some w
    | none => Wareki.from_text t

/-- Claim-side predicate: a period member list in strictly decreasing bit
position, the order in which the period decoder emits members (the canonical
list order of an id string). -/
def strictDescMask {α : Type} [MinistryContents α] (l : List α) : Bool :=
  decide (List.Chain'
    (fun a b => MinistryContents.to_int b < MinistryContents.to_int a) l)

/-- Claim-side predicate for C1: the ministry payload's member list is in the
decoder's canonical order. -/
def Ministry.canonicalList : Ministry → Bool
  | .M1 l => strictDescMask l
  | .M2 l => strictDescMask l
  | .M3 l => strictDescMask l
  | .M4 l => strictDescMask l
  | .M5 l => strictDescMask l
  | .M6 l => strictDescMask l

/-- Claim-side predicate for C1: every numeric payload fits its fixed field
width, and a ministry list is canonically ordered. -/
def LawType.canonical : LawType → Bool
  | .Constitution => true
  | .Act _ num => decide (num ≤ 999)
  | .CabinetOrder _ num => decide (num ≤ 999)
  | .ImperialOrder _ num => decide (num ≤ 999)
  | .DajokanFukoku _ num => decide (num ≤ 999)
  | .DajokanTasshi _ num => decide (num ≤ 999)
  | .DajokanHutatsu _ num => decide (num ≤ 999)
  | .MinistryOrder m num => m.canonicalList && decide (num ≤ 999)
  | .Jinjin kind ks amend =>
    decide (kind ≤ 99) && decide (ks ≤ 999) && decide (amend ≤ 999)
  | .Regulation _ num => decide (num ≤ 999)
  | .PrimeMinisterDecision month day num =>
    decide (month ≤ 99) && decide (day ≤ 99) && decide (num ≤ 9999)

/-- Claim-side predicate for C1: the Wareki year fits its two-digit field and
the law type is canonical. -/
def LawId.canonical (x : LawId) : Bool :=
  decide (x.wareki.year ≤ 99) && x.law_type.canonical

/-- Claim-side predicate for C2: a character of the canonical id alphabet, an
ASCII digit or an uppercase ASCII letter. -/
def isCanonChar (c : Char) : Bool :=
  ('0' ≤ c && c ≤ '9') || ('A' ≤ c && c ≤ 'Z')

/-- Claim-side predicate for C2: the id string carries the legacy institution
code 17 in a Regulation payload (the one accepted code whose re-encoding
differs). -/
def reg17At (s : List Char) : Bool :=
  decide ((s.drop 3).take 9 = ['R', '0', '0', '0', '0', '0', '0', '1', '7'])

/-- Proof-side view of the mask scan: the bit positions of n that are at most
k, largest first (position b is bit b - 1). -/
def setBitsDesc (n : Nat) : Nat → List Nat
  | 0 => []
  | k + 1 => if n.testBit k then (k + 1) :: setBitsDesc n k else setBitsDesc n k

/-- Proof-side view of the decoder's member lookup: from_int mapped over a
list of bit positions, failing like the scan loop does. -/
def tryFromInts (α : Type) [MinistryContents α] :
    List Nat → Except (List Char) (List α)
  | [] => .ok []
  | b :: t =>
    match @MinistryContents.from_int α _ b with
    | some m =>
      match tryFromInts α t with
      | .ok v => .ok (m :: v)
      | .error e => .error e
    | none => .error (unexpectedFlag b)

/-- The properties the six period tables share and the mask codec relies on:
from_int inverts to_int, bit positions lie in 1..28, and from_int is sound
(whatever it returns maps back to the queried position).  Each instance is
verified against the tables by computation. -/
class LawfulMC (α : Type) [MinistryContents α] : Prop where
  from_to : ∀ m : α,
    @MinistryContents.from_int α _ (MinistryContents.to_int m) = some m
  to_int_ge : ∀ m : α, 1 ≤ MinistryContents.to_int m
  to_int_le : ∀ m : α, MinistryContents.to_int m ≤ 28
  from_int_ok : ∀ n : Nat, n < 29 →
    ((@MinistryContents.from_int α _ n).map MinistryContents.to_int).getD n = n

instance : LawfulMC M1Ministry where
  from_to := by intro m; cases m <;> decide
  to_int_ge := by intro m; cases m <;> decide
  to_int_le := by intro m; cases m <;> decide
  from_int_ok := by decide

instance : LawfulMC M2Ministry where
  from_to := by intro m; cases m <;> decide
  to_int_ge := by intro m; cases m <;> decide
  to_int_le := by intro m; cases m <;> decide
  from_int_ok := by decide

instance : LawfulMC M3Ministry where
  from_to := by intro m; cases m <;> decide
  to_int_ge := by intro m; cases m <;> decide
  to_int_le := by intro m; cases m <;> decide
  from_int_ok := by decide

instance : LawfulMC M4Ministry where
  from_to := by intro m; cases m <;> decide
  to_int_ge := by intro m; cases m <;> decide
  to_int_le := by intro m; cases m <;> decide
  from_int_ok := by decide

instance : LawfulMC M5Ministry where
  from_to := by intro m; cases m <;> decide
  to_int_ge := by intro m; cases m <;> decide
  to_int_le := by intro m; cases m <;> decide
  from_int_ok := by decide

instance : LawfulMC M6Ministry where
  from_to := by intro m; cases m <;> decide
  to_int_ge := by intro m; cases m <;> decide
  to_int_le := by intro m; cases m <;> decide
  from_int_ok := by decide

/-- Membership in a conditional singleton, the building block of the
from_name matchers. -/
theorem mem_ite_single {α : Type} (p : Prop) [Decidable p] (x a : α) :
    a ∈ (if p then [x] else ([] : List α)) ↔ p ∧ a = x := by
  split <;> simp_all

/-- C7: Wareki::from_text sends the gan spelling of Taisho 1 to
Wareki(Taisho, 1), and the kanji, ASCII-digit and full-width-digit spellings
of Showa 15 all to Wareki(Showa, 15). -/
theorem C7_wareki_from_text :
    Wareki.from_text ['大', '正', '元', '年'] = some (Wareki.new .Taisho 1) ∧
    Wareki.from_text ['昭', '和', '十', '五', '年'] = some (Wareki.new .Showa 15) ∧
    Wareki.from_text ['昭', '和', '1', '5', '年'] = some (Wareki.new .Showa 15) ∧
    Wareki.from_text ['昭', '和', '１', '５', '年'] = some (Wareki.new .Showa 15) := by
  refine ⟨?_, ?_, ?_, ?_⟩ <;> decide

/-- C4 counterexample: code 16 does not decode to the bar-examination
committee (it is the seafarers central labor committee), so the claimed 16/17
aliasing is false at input 16. -/
theorem C4_institution_16_not_bar :
    decide (Institution.from_int 16 =
      some Institution.BarExaminationManagementCommittee) = false := by
  decide

/-- C4 amended: codes 8 and 17 both decode to the bar-examination committee,
to_int gives it 8, and to_int never produces 17 (nor 16 for it); code 16
decodes to the seafarers central labor committee. -/
theorem C4_institution_alias :
    Institution.from_int 8 = some .BarExaminationManagementCommittee ∧
    Institution.from_int 17 = some .BarExaminationManagementCommittee ∧
    Institution.from_int 16 = some .SeafarersCentralLaborCommittee ∧
    Institution.to_int .BarExaminationManagementCommittee = 8 ∧
    ∀ i : Institution, Institution.to_int i ∈
      [1, 2, 3, 4, 5, 6, 7, 8, 9, 10, 11, 12, 13, 14, 15, 16, 18, 19] := by
  refine ⟨by decide, by decide, by decide, by decide, fun i => ?_⟩
  cases i <;> decide

/-- C10: M6Ministry::from_name can never emit ReconstructionAgencyOrdinance
(the branch that matches the Reconstruction Agency name pushes
MinistryOfHomeAffairsOrdinance instead), and an input holding both that name
and the home-affairs name collects MinistryOfHomeAffairsOrdinance twice. -/
theorem C10_reconstruction_never_emitted :
    (∀ name : List Char,
      (M6Ministry.from_name name).count M6Ministry.ReconstructionAgencyOrdinance
        = 0) ∧
    M6Ministry.from_name ['復', '興', '庁', '自', '治', '省'] =
      [M6Ministry.MinistryOfHomeAffairsOrdinance,
       M6Ministry.MinistryOfHomeAffairsOrdinance] := by
  refine ⟨fun name => ?_, by decide⟩
  rw [List.count_eq_zero]
  intro hmem
  simp only [M6Ministry.from_name, pushIf, List.mem_append, mem_ite_single]
    at hmem
  rcases hmem with h | h <;> try rcases h with h | h
  all_goals first
    | (rcases h with h | h) <;> simp_all
    | simp_all

/-- C9: the year-granularity period test is not exclusive: any Wareki whose
Gregorian year is 1943 is applicable to both M1 and M2, and the selection
chain of Ministry::from_name then takes M1, the first applicable period. -/
theorem C9_period_overlap (era : Era) (y : Nat) (s : List Char)
    (h : (Wareki.new era y).to_ad = 1943) :
    M1Ministry.applicable_wareki (Wareki.new era y) = true ∧
    M2Ministry.applicable_wareki (Wareki.new era y) = true ∧
    Ministry.select (Wareki.new era y) s =
      .ok (.M1 (M1Ministry.from_name s)) := by
  have h1 : M1Ministry.applicable_wareki (Wareki.new era y) = true := by
    simp [M1Ministry.applicable_wareki, applicableWareki, M1Ministry.start,
      M1Ministry.endDate, Date.new_ad, h]
  refine ⟨h1, ?_, ?_⟩
  · simp [M2Ministry.applicable_wareki, applicableWareki, M2Ministry.start,
      M2Ministry.endDate, Date.new_ad, h]
  · simp [Ministry.select, h1]

/-- C9 witness: Showa 18 is Gregorian 1943; both M1 and M2 accept it and the
selection chain takes M1. -/
theorem C9_period_overlap_witness :
    M1Ministry.applicable_wareki (Wareki.new .Showa 18) = true ∧
    M2Ministry.applicable_wareki (Wareki.new .Showa 18) = true ∧
    Ministry.select (Wareki.new .Showa 18) ['厚', '生', '省'] =
      .ok (.M1 [.MinistryOfHealthAndWelfareOrdinance]) :=
  C9_period_overlap .Showa 18 ['厚', '生', '省'] (by decide)

/-- C8 counterexample: with the unvalidated fields new_ad admits, the keyed
comparison is not the lexicographic one: (0, 100, 0) and (1, 0, 0) share the
key 10000, yet lexicographically the first is smaller. -/
theorem C8_cmp_not_lex :
    decide (Date.cmp (Date.new_ad 0 100 0) (Date.new_ad 1 0 0) =
      dateLexCmp (Date.new_ad 0 100 0) (Date.new_ad 1 0 0)) = false := by
  decide

/-- C8 amended: the keyed comparison agrees with the lexicographic order on
every pair of dates whose month and day stay below 100 (their digit fields)
and whose key does not overflow usize. -/
theorem C8_cmp_lex_when_in_range (a b : Date)
    (ham : a.month < 100) (had : a.day < 100)
    (hbm : b.month < 100) (hbd : b.day < 100)
    (hka : a.year * 10000 + a.month * 100 + a.day ≤ USIZE_MAX)
    (hkb : b.year * 10000 + b.month * 100 + b.day ≤ USIZE_MAX) :
    Date.cmp a b = dateLexCmp a b := by
  unfold Date.cmp Date.cmpKey natCmp dateLexCmp
  unfold USIZE_MAX at *
  rw [Nat.mod_eq_of_lt (by omega), Nat.mod_eq_of_lt (by omega)]
  split_ifs <;> first | rfl | omega

/-- C8 witness: two ordinary dates compare the same way under both orders. -/
theorem C8_cmp_lex_witness :
    Date.cmp (Date.new_ad 2019 4 30) (Date.new_ad 2019 5 1) =
      dateLexCmp (Date.new_ad 2019 4 30) (Date.new_ad 2019 5 1) :=
  C8_cmp_lex_when_in_range (Date.new_ad 2019 4 30) (Date.new_ad 2019 5 1)
    (by decide) (by decide) (by decide) (by decide) (by decide) (by decide)

/-- No Gregorian month is longer than 31 days. -/
theorem daysInMonth_le_31 (y m : Nat) : daysInMonth y m ≤ 31 := by
  unfold daysInMonth
  split_ifs <;> omega

/-- C5 counterexample: a valid Gregorian date inside the claim's scope (its
exact YYYYMMDD key is far beyond 1868-10-23, and Reiwa's documented range
contains it) at which the source's usize key wraps, every era test fails and
from_ad reaches the unreachable branch instead of returning the era. -/
theorem C5_from_ad_wraps :
    validDate 1844674407371000 1 1 ∧
    18681023 ≤ ymdNum 1844674407371000 1 1 ∧
    Era.containsYmd .Reiwa (ymdNum 1844674407371000 1 1) ∧
    Wareki.from_ad 1844674407371000 1 1 = none := by
  refine ⟨by decide, by decide, by decide, by decide⟩

/-- C5 amended: every valid Gregorian date from 1868-10-23 onward whose
YYYYMMDD key fits in usize falls in exactly one era's documented range, and
Wareki::from_ad returns that era with the year offset by the era's base year
(so the unreachable branch is never taken there); for larger years the usize
key wraps and from_ad can reach the unreachable branch. -/
theorem C5_era_totality (y m d : Nat) (hv : validDate y m d)
    (hge : 18681023 ≤ ymdNum y m d) (hmax : ymdNum y m d ≤ USIZE_MAX) :
    ∃ e : Era, Era.containsYmd e (ymdNum y m d) ∧
      (∀ e2 : Era, Era.containsYmd e2 (ymdNum y m d) → e2 = e) ∧
      Wareki.from_ad y m d = some ⟨e, y - e.start_year⟩ := by
  obtain ⟨hm1, hm12, hd1, hdm⟩ := hv
  have hd31 : d ≤ 31 := le_trans hdm (daysInMonth_le_31 y m)
  unfold ymdNum at hge hmax ⊢
  have hmod : (y * 10000 + m * 100 + d) % (USIZE_MAX + 1) =
      y * 10000 + m * 100 + d := by
    apply Nat.mod_eq_of_lt
    unfold USIZE_MAX at hmax ⊢
    omega
  by_cases c1 : y * 10000 + m * 100 + d ≤ 19120728
  · refine ⟨.Meiji, ?_, ?_, ?_⟩
    · simp only [Era.containsYmd, Era.start, Era.endNum]; omega
    · intro e2 h2
      cases e2 <;>
        simp only [Era.containsYmd, Era.start, Era.endNum, USIZE_MAX] at h2 <;>
        first | rfl | (exfalso; omega)
    · simp only [Wareki.from_ad, hmod, Era.start, Era.endNum, Era.start_year]
      rw [if_pos (by omega)]
  · by_cases c2 : y * 10000 + m * 100 + d ≤ 19261224
    · refine ⟨.Taisho, ?_, ?_, ?_⟩
      · simp only [Era.containsYmd, Era.start, Era.endNum]; omega
      · intro e2 h2
        cases e2 <;>
          simp only [Era.containsYmd, Era.start, Era.endNum, USIZE_MAX] at h2 <;>
          first | rfl | (exfalso; omega)
      · simp only [Wareki.from_ad, hmod, Era.start, Era.endNum, Era.start_year]
        rw [if_neg (by omega), if_pos (by omega)]
    · by_cases c3 : y * 10000 + m * 100 + d ≤ 19890107
      · refine ⟨.Showa, ?_, ?_, ?_⟩
        · simp only [Era.containsYmd, Era.start, Era.endNum]; omega
        · intro e2 h2
          cases e2 <;>
            simp only [Era.containsYmd, Era.start, Era.endNum, USIZE_MAX] at h2 <;>
            first | rfl | (exfalso; omega)
        · simp only [Wareki.from_ad, hmod, Era.start, Era.endNum, Era.start_year]
          rw [if_neg (by omega), if_neg (by omega), if_pos (by omega)]
      · by_cases c4 : y * 10000 + m * 100 + d ≤ 20190431
        · refine ⟨.Heisei, ?_, ?_, ?_⟩
          · simp only [Era.containsYmd, Era.start, Era.endNum]; omega
          · intro e2 h2
            cases e2 <;>
              simp only [Era.containsYmd, Era.start, Era.endNum, USIZE_MAX] at h2 <;>
              first | rfl | (exfalso; omega)
          · simp only [Wareki.from_ad, hmod, Era.start, Era.endNum, Era.start_year]
            rw [if_neg (by omega), if_neg (by omega), if_neg (by omega),
              if_pos (by omega)]
        · by_cases c5 : 20190501 ≤ y * 10000 + m * 100 + d
          · refine ⟨.Reiwa, ?_, ?_, ?_⟩
            · simp only [Era.containsYmd, Era.start]; omega
            · intro e2 h2
              cases e2 <;>
                simp only [Era.containsYmd, Era.start, Era.endNum, USIZE_MAX]
                  at h2 <;>
                first | rfl | (exfalso; omega)
            · simp only [Wareki.from_ad, hmod, Era.start, Era.endNum, Era.start_year]
              rw [if_neg (by omega), if_neg (by omega), if_neg (by omega),
                if_neg (by omega), if_pos (by omega)]
          · exfalso
            have h4 : d ≤ daysInMonth y 4 → d ≤ 30 := by
              intro hx
              have : daysInMonth y 4 = 30 := by unfold daysInMonth; norm_num
              omega
            by_cases hm4 : m = 4
            · subst hm4
              have := h4 hdm
              omega
            · omega

/-- C5 witness: 2019-04-30 is a valid date with an in-range key, lies in
Heisei's documented range only, and from_ad returns Heisei 31. -/
theorem C5_era_totality_witness :
    ∃ e : Era, Era.containsYmd e (ymdNum 2019 4 30) ∧
      (∀ e2 : Era, Era.containsYmd e2 (ymdNum 2019 4 30) → e2 = e) ∧
      Wareki.from_ad 2019 4 30 = some ⟨e, 2019 - e.start_year⟩ :=
  C5_era_totality 2019 4 30 (by decide) (by decide) (by decide)

/-- A PRes that is not a panic is a normal return. -/
theorem PRes.exists_ret {α : Type} (x : PRes α) (h : x ≠ .panics) :
    ∃ r, x = .ret r := by
  cases x
  · exact absurd rfl h
  · exact ⟨_, rfl⟩

/-- Reduction of an in-bounds inclusive slice. -/
theorem sliceIncl_ret (a : Nat) {s : List Char} {b : Nat} (h : b < s.length) :
    sliceIncl s a b = .ret ((s.drop a).take (b + 1 - a)) := if_pos h

/-- Reduction of bind over a normal return. -/
theorem PRes.bind_ret {α β : Type} (a : α) (f : α → PRes β) :
    PRes.bind (.ret a) f = f a := rfl

/-- A period arm of Ministry::from_id_str cannot panic when byte 8 exists. -/
theorem ministryPeriodArm_total (α : Type) [MinistryContents α]
    (wrap : List α → Ministry) (s : List Char) (h : 8 < s.length) :
    ∃ r, ministryPeriodArm α wrap s = .ret r := by
  apply PRes.exists_ret
  intro hcontra
  unfold ministryPeriodArm at hcontra
  rw [sliceIncl_ret 2 h] at hcontra
  simp only [PRes.bind_ret] at hcontra
  repeat' split at hcontra
  all_goals exact PRes.noConfusion hcontra

/-- Ministry::from_id_str cannot panic once the input reaches 9 characters:
every slice it takes is then in bounds. -/
theorem ministry_from_id_str_total (s : List Char) (h : 9 ≤ s.length) :
    ∃ r, Ministry.from_id_str s = .ret r := by
  obtain ⟨r1, e1⟩ := ministryPeriodArm_total M1Ministry .M1 s (by omega)
  obtain ⟨r2, e2⟩ := ministryPeriodArm_total M2Ministry .M2 s (by omega)
  obtain ⟨r3, e3⟩ := ministryPeriodArm_total M3Ministry .M3 s (by omega)
  obtain ⟨r4, e4⟩ := ministryPeriodArm_total M4Ministry .M4 s (by omega)
  obtain ⟨r5, e5⟩ := ministryPeriodArm_total M5Ministry .M5 s (by omega)
  obtain ⟨r6, e6⟩ := ministryPeriodArm_total M6Ministry .M6 s (by omega)
  apply PRes.exists_ret
  intro hcontra
  unfold Ministry.from_id_str at hcontra
  rw [sliceIncl_ret 0 (show 0 < s.length by omega),
    sliceIncl_ret 1 (show 1 < s.length by omega)] at hcontra
  simp only [PRes.bind_ret, e1, e2, e3, e4, e5, e6] at hcontra
  by_cases hM : List.take (0 + 1 - 0) (List.drop 0 s) = ['M']
  case neg => rw [if_neg hM] at hcontra; exact PRes.noConfusion hcontra
  rw [if_pos hM] at hcontra
  by_cases g1 : List.take (1 + 1 - 1) (List.drop 1 s) = ['1']
  case pos => rw [if_pos g1] at hcontra; exact PRes.noConfusion hcontra
  rw [if_neg g1] at hcontra
  by_cases g2 : List.take (1 + 1 - 1) (List.drop 1 s) = ['2']
  case pos => rw [if_pos g2] at hcontra; exact PRes.noConfusion hcontra
  rw [if_neg g2] at hcontra
  by_cases g3 : List.take (1 + 1 - 1) (List.drop 1 s) = ['3']
  case pos => rw [if_pos g3] at hcontra; exact PRes.noConfusion hcontra
  rw [if_neg g3] at hcontra
  by_cases g4 : List.take (1 + 1 - 1) (List.drop 1 s) = ['4']
  case pos => rw [if_pos g4] at hcontra; exact PRes.noConfusion hcontra
  rw [if_neg g4] at hcontra
  by_cases g5 : List.take (1 + 1 - 1) (List.drop 1 s) = ['5']
  case pos => rw [if_pos g5] at hcontra; exact PRes.noConfusion hcontra
  rw [if_neg g5] at hcontra
  by_cases g6 : List.take (1 + 1 - 1) (List.drop 1 s) = ['6']
  case pos => rw [if_pos g6] at hcontra; exact PRes.noConfusion hcontra
  rw [if_neg g6] at hcontra
  exact PRes.noConfusion hcontra

/-- The Act/order branch body cannot panic when bytes 8 and 11 exist. -/
theorem flagNumBranch_total (s : List Char)
    (flagOf : Nat → Option (Nat → LawType)) (h : 11 < s.length) :
    ∃ r, flagNumBranch s flagOf = .ret r := by
  apply PRes.exists_ret
  intro hcontra
  unfold flagNumBranch at hcontra
  rw [sliceIncl_ret 2 (show 8 < s.length by omega),
    sliceIncl_ret 9 (show 11 < s.length by omega)] at hcontra
  simp only [PRes.bind_ret] at hcontra
  repeat' split at hcontra
  all_goals exact PRes.noConfusion hcontra

/-- The M branch cannot panic when bytes up to 11 exist. -/
theorem ministryBranch_total (s : List Char) (h : 12 ≤ s.length) :
    ∃ r, ministryBranch s = .ret r := by
  obtain ⟨rm, hrm⟩ := ministry_from_id_str_total s (by omega)
  apply PRes.exists_ret
  intro hcontra
  unfold ministryBranch at hcontra
  rw [hrm, sliceIncl_ret 9 (show 11 < s.length by omega)] at hcontra
  simp only [PRes.bind_ret] at hcontra
  repeat' split at hcontra
  all_goals exact PRes.noConfusion hcontra

/-- The RJNJ branch cannot panic when bytes up to 11 exist. -/
theorem jinjinBranch_total (s : List Char) (h : 12 ≤ s.length) :
    ∃ r, jinjinBranch s = .ret r := by
  apply PRes.exists_ret
  intro hcontra
  unfold jinjinBranch at hcontra
  rw [sliceIncl_ret 4 (show 5 < s.length by omega),
    sliceIncl_ret 6 (show 8 < s.length by omega),
    sliceIncl_ret 9 (show 11 < s.length by omega)] at hcontra
  simp only [PRes.bind_ret] at hcontra
  repeat' split at hcontra
  all_goals exact PRes.noConfusion hcontra

/-- The RPMD branch cannot panic when bytes up to 11 exist. -/
theorem rpmdBranch_total (s : List Char) (h : 12 ≤ s.length) :
    ∃ r, rpmdBranch s = .ret r := by
  apply PRes.exists_ret
  intro hcontra
  unfold rpmdBranch at hcontra
  rw [sliceIncl_ret 4 (show 5 < s.length by omega),
    sliceIncl_ret 6 (show 7 < s.length by omega),
    sliceIncl_ret 8 (show 11 < s.length by omega)] at hcontra
  simp only [PRes.bind_ret] at hcontra
  repeat' split at hcontra
  all_goals exact PRes.noConfusion hcontra

/-- The R branch cannot panic when bytes up to 11 exist. -/
theorem regulationBranch_total (s : List Char) (h : 12 ≤ s.length) :
    ∃ r, regulationBranch s = .ret r := by
  apply PRes.exists_ret
  intro hcontra
  unfold regulationBranch at hcontra
  rw [sliceIncl_ret 1 (show 8 < s.length by omega),
    sliceIncl_ret 9 (show 11 < s.length by omega)] at hcontra
  simp only [PRes.bind_ret] at hcontra
  repeat' split at hcontra
  all_goals exact PRes.noConfusion hcontra

/-- LawType::from_id_str cannot panic once the input reaches 12 characters. -/
theorem lawtype_from_id_str_total (s : List Char) (h : 12 ≤ s.length) :
    ∃ r, LawType.from_id_str s = .ret r := by
  obtain ⟨ra, ea⟩ := flagNumBranch_total s actFlag (by omega)
  obtain ⟨rc, ec⟩ := flagNumBranch_total s (efficacyFlag .CabinetOrder) (by omega)
  obtain ⟨ri, ei⟩ := flagNumBranch_total s (efficacyFlag .ImperialOrder) (by omega)
  obtain ⟨rf, ef⟩ := flagNumBranch_total s (efficacyFlag .DajokanFukoku) (by omega)
  obtain ⟨rt, et⟩ := flagNumBranch_total s (efficacyFlag .DajokanTasshi) (by omega)
  obtain ⟨rh, eh⟩ := flagNumBranch_total s (efficacyFlag .DajokanHutatsu) (by omega)
  obtain ⟨rj, ej⟩ := jinjinBranch_total s h
  obtain ⟨rp, ep⟩ := rpmdBranch_total s h
  obtain ⟨rr, er⟩ := regulationBranch_total s h
  obtain ⟨rmb, emb⟩ := ministryBranch_total s h
  apply PRes.exists_ret
  intro hcontra
  unfold LawType.from_id_str at hcontra
  rw [sliceIncl_ret 0 (show 1 < s.length by omega),
    sliceIncl_ret 0 (show 0 < s.length by omega),
    sliceIncl_ret 0 (show 3 < s.length by omega)] at hcontra
  simp only [PRes.bind_ret, ea, ec, ei, ef, et, eh, ej, ep, er, emb]
    at hcontra
  by_cases k0 : s = constitutionStr
  case pos => rw [if_pos k0] at hcontra; exact PRes.noConfusion hcontra
  rw [if_neg k0] at hcontra
  by_cases k1 : List.take (1 + 1 - 0) (List.drop 0 s) = ['A', 'C']
  case pos => rw [if_pos k1] at hcontra; exact PRes.noConfusion hcontra
  rw [if_neg k1] at hcontra
  by_cases k2 : List.take (1 + 1 - 0) (List.drop 0 s) = ['C', 'O']
  case pos => rw [if_pos k2] at hcontra; exact PRes.noConfusion hcontra
  rw [if_neg k2] at hcontra
  by_cases k3 : List.take (1 + 1 - 0) (List.drop 0 s) = ['I', 'O']
  case pos => rw [if_pos k3] at hcontra; exact PRes.noConfusion hcontra
  rw [if_neg k3] at hcontra
  by_cases k4 : List.take (1 + 1 - 0) (List.drop 0 s) = ['D', 'F']
  case pos => rw [if_pos k4] at hcontra; exact PRes.noConfusion hcontra
  rw [if_neg k4] at hcontra
  by_cases k5 : List.take (1 + 1 - 0) (List.drop 0 s) = ['D', 'T']
  case pos => rw [if_pos k5] at hcontra; exact PRes.noConfusion hcontra
  rw [if_neg k5] at hcontra
  by_cases k6 : List.take (1 + 1 - 0) (List.drop 0 s) = ['D', 'H']
  case pos => rw [if_pos k6] at hcontra; exact PRes.noConfusion hcontra
  rw [if_neg k6] at hcontra
  by_cases k7 : List.take (0 + 1 - 0) (List.drop 0 s) = ['M']
  case pos => rw [if_pos k7] at hcontra; exact PRes.noConfusion hcontra
  rw [if_neg k7] at hcontra
  by_cases k8 : List.take (3 + 1 - 0) (List.drop 0 s) = ['R', 'J', 'N', 'J']
  case pos => rw [if_pos k8] at hcontra; exact PRes.noConfusion hcontra
  rw [if_neg k8] at hcontra
  by_cases k9 : List.take (3 + 1 - 0) (List.drop 0 s) = ['R', 'P', 'M', 'D']
  case pos => rw [if_pos k9] at hcontra; exact PRes.noConfusion hcontra
  rw [if_neg k9] at hcontra
  by_cases k10 : List.take (0 + 1 - 0) (List.drop 0 s) = ['R']
  case pos => rw [if_pos k10] at hcontra; exact PRes.noConfusion hcontra
  rw [if_neg k10] at hcontra
  exact PRes.noConfusion hcontra

/-- Char order is toNat order. -/
theorem charLeToNat {a c : Char} (h : a ≤ c) : a.toNat ≤ c.toNat := h

/-- Char.ofNat of an ASCII code is injectively decoded by toNat. -/
theorem charOfNatToNat (n : Nat) (h : n < 128) : (Char.ofNat n).toNat = n := by
  unfold Char.ofNat
  rw [dif_pos ?vc]
  case vc => left; omega
  rfl

/-- A decimal digit character's value is below 10. -/
theorem decDigitVal_lt (c : Char) (d : Nat) (h : decDigitVal c = some d) :
    d < 10 := by
  unfold decDigitVal at h
  split_ifs at h with hc
  · obtain ⟨h1, h2⟩ := hc
    have h48 : ('0' : Char).toNat ≤ c.toNat := charLeToNat h1
    have h57 : c.toNat ≤ ('9' : Char).toNat := charLeToNat h2
    have e0 : ('0' : Char).toNat = 48 := rfl
    have e9 : ('9' : Char).toNat = 57 := rfl
    injection h with hd
    omega

/-- Rendering a parsed decimal digit gives the character back. -/
theorem decDigitVal_inv (c : Char) (d : Nat) (h : decDigitVal c = some d) :
    decDigitChar d = c := by
  unfold decDigitVal at h
  split_ifs at h with hc
  · obtain ⟨h1, h2⟩ := hc
    have h48 : ('0' : Char).toNat ≤ c.toNat := charLeToNat h1
    have e0 : ('0' : Char).toNat = 48 := rfl
    injection h with hd
    subst hd
    unfold decDigitChar
    rw [show 48 + (c.toNat - 48) = c.toNat by omega, Char.ofNat_toNat]

/-- A hexadecimal digit character's value is below 16. -/
theorem hexDigitVal_lt (c : Char) (d : Nat) (h : hexDigitVal c = some d) :
    d < 16 := by
  unfold hexDigitVal at h
  split_ifs at h with hc1 hc2 hc3
  · obtain ⟨h1, h2⟩ := hc1
    have ha := charLeToNat h1
    have hb := charLeToNat h2
    have e0 : ('0' : Char).toNat = 48 := rfl
    have e9 : ('9' : Char).toNat = 57 := rfl
    injection h with hd
    omega
  · obtain ⟨h1, h2⟩ := hc2
    have ha := charLeToNat h1
    have hb := charLeToNat h2
    have e0 : ('a' : Char).toNat = 97 := rfl
    have e9 : ('f' : Char).toNat = 102 := rfl
    injection h with hd
    omega
  · obtain ⟨h1, h2⟩ := hc3
    have ha := charLeToNat h1
    have hb := charLeToNat h2
    have e0 : ('A' : Char).toNat = 65 := rfl
    have e9 : ('F' : Char).toNat = 70 := rfl
    injection h with hd
    omega

/-- Parsing then rendering an uppercase-or-digit hexadecimal character gives
the character back (lowercase letters re-render uppercase, hence the
canonical-alphabet hypothesis). -/
theorem hexDigitVal_inv_canon (c : Char) (d : Nat)
    (hcanon : isCanonChar c = true) (h : hexDigitVal c = some d) :
    hexDigitChar d = c := by
  unfold isCanonChar at hcanon
  unfold hexDigitVal at h
  split_ifs at h with hc1 hc2 hc3
  · obtain ⟨h1, h2⟩ := hc1
    have h48 : ('0' : Char).toNat ≤ c.toNat := charLeToNat h1
    have h57 : c.toNat ≤ ('9' : Char).toNat := charLeToNat h2
    have e0 : ('0' : Char).toNat = 48 := rfl
    have e9 : ('9' : Char).toNat = 57 := rfl
    injection h with hd
    subst hd
    unfold hexDigitChar
    rw [if_pos (by omega), show 48 + (c.toNat - 48) = c.toNat by omega,
      Char.ofNat_toNat]
  · exfalso
    obtain ⟨h1, h2⟩ := hc2
    have ha : ('a' : Char).toNat ≤ c.toNat := charLeToNat h1
    have ea : ('a' : Char).toNat = 97 := rfl
    rcases Bool.or_eq_true_iff.mp hcanon with hd | hu
    · rcases Bool.and_eq_true_iff.mp hd with ⟨_, hd2⟩
      have := charLeToNat (of_decide_eq_true hd2)
      have e9 : ('9' : Char).toNat = 57 := rfl
      omega
    · rcases Bool.and_eq_true_iff.mp hu with ⟨_, hu2⟩
      have := charLeToNat (of_decide_eq_true hu2)
      have eZ : ('Z' : Char).toNat = 90 := rfl
      omega
  · obtain ⟨h1, h2⟩ := hc3
    have h65 : ('A' : Char).toNat ≤ c.toNat := charLeToNat h1
    have h70 : c.toNat ≤ ('F' : Char).toNat := charLeToNat h2
    have eA : ('A' : Char).toNat = 65 := rfl
    have eF : ('F' : Char).toNat = 70 := rfl
    injection h with hd
    subst hd
    unfold hexDigitChar
    rw [if_neg (by omega), show 55 + (c.toNat - 55) = c.toNat by omega,
      Char.ofNat_toNat]

/-- A decimal digit renders to a character the digit parser accepts. -/
theorem decDigitChar_val (d : Nat) (h : d < 10) :
    decDigitVal (decDigitChar d) = some d := by
  interval_cases d <;> decide

/-- A hexadecimal digit renders to a character the hex parser accepts. -/
theorem hexDigitChar_val (d : Nat) (h : d < 16) :
    hexDigitVal (hexDigitChar d) = some d := by
  interval_cases d <;> decide

/-- Rendered decimal digits are in the canonical id alphabet. -/
theorem decDigitChar_canon (d : Nat) (h : d < 10) :
    isCanonChar (decDigitChar d) = true := by
  interval_cases d <;> decide

/-- Rendered hexadecimal digits are in the canonical id alphabet. -/
theorem hexDigitChar_canon (d : Nat) (h : d < 16) :
    isCanonChar (hexDigitChar d) = true := by
  interval_cases d <;> decide

/-- Canonical characters are not the plus sign. -/
theorem canon_ne_plus (c : Char) (h : isCanonChar c = true) : c ≠ '+' := by
  intro he
  subst he
  exact absurd h (by decide)

/-- A successful digit scan saw only digits. -/
theorem parseRadixGo_isSome (b : Nat) (dv : Char → Option Nat) :
    ∀ (l : List Char) (acc n : Nat), parseRadixGo b dv l acc = some n →
      ∀ c ∈ l, (dv c).isSome := by
  intro l
  induction l with
  | nil => intro acc n _ c hc; exact absurd hc (List.not_mem_nil c)
  | cons c0 t ih =>
    intro acc n h c hc
    unfold parseRadixGo at h
    cases hdv : dv c0 with
    | none => rw [hdv] at h; exact Option.noConfusion h
    | some d =>
      rw [hdv] at h
      rcases List.mem_cons.mp hc with rfl | hmem
      · simp [hdv]
      · exact ih (acc * b + d) n h c hmem

/-- Value of a successful digit scan: the accumulator shifted past the run,
plus the run read as base-b digits (most significant first). -/
theorem parseRadixGo_eq (b : Nat) (dv : Char → Option Nat) (l : List Char)
    (hall : ∀ c ∈ l, (dv c).isSome) :
    ∀ acc, parseRadixGo b dv l acc =
      some (acc * b ^ l.length +
        Nat.ofDigits b (l.map fun c => (dv c).getD 0).reverse) := by
  induction l with
  | nil => intro acc; simp [parseRadixGo, Nat.ofDigits_nil]
  | cons c0 t ih =>
    intro acc
    obtain ⟨d, hd⟩ := Option.isSome_iff_exists.mp (hall c0 (List.mem_cons_self c0 t))
    have hall' : ∀ c ∈ t, (dv c).isSome := fun c hc => hall c (List.mem_cons_of_mem c0 hc)
    have hstep : parseRadixGo b dv (c0 :: t) acc = parseRadixGo b dv t (acc * b + d) := by
      show (match dv c0 with
        | some d => parseRadixGo b dv t (acc * b + d)
        | none => none) = parseRadixGo b dv t (acc * b + d)
      rw [hd]
    rw [hstep, ih hall' (acc * b + d)]
    congr 1
    simp only [List.map_cons, List.reverse_cons, hd, Option.getD_some,
      List.length_cons, Nat.ofDigits_append, List.length_reverse,
      List.length_map, Nat.ofDigits_singleton]
    ring

/-- The digit scan's value is bounded by the base power of the run length. -/
theorem parseRadixGo_lt (b : Nat) (dv : Char → Option Nat) (hb : 2 ≤ b)
    (hdv : ∀ c d, dv c = some d → d < b) :
    ∀ (l : List Char) (acc n : Nat), parseRadixGo b dv l acc = some n →
      n < (acc + 1) * b ^ l.length := by
  intro l
  induction l with
  | nil =>
    intro acc n h
    unfold parseRadixGo at h
    injection h with h
    subst h
    simp
  | cons c0 t ih =>
    intro acc n h
    unfold parseRadixGo at h
    cases hdvc : dv c0 with
    | none => rw [hdvc] at h; exact Option.noConfusion h
    | some d =>
      rw [hdvc] at h
      have hd := hdv c0 d hdvc
      calc n < (acc * b + d + 1) * b ^ t.length := ih (acc * b + d) n h
        _ ≤ ((acc + 1) * b) * b ^ t.length := by
            apply Nat.mul_le_mul_right
            have : (acc + 1) * b = acc * b + b := by ring
            omega
        _ = (acc + 1) * b ^ (t.length + 1) := by ring

/-- Bound for the whole parse: a run of w digits reads below b^w. -/
theorem parseRadix_bound (b : Nat) (dv : Char → Option Nat) (hb : 2 ≤ b)
    (hdv : ∀ c d, dv c = some d → d < b) (l : List Char) (n : Nat)
    (h : parseRadix b dv l = some n) : n < b ^ l.length := by
  unfold parseRadix at h
  split_ifs at h with hl
  have := parseRadixGo_lt b dv hb hdv l 0 n h
  simpa using this

/-- The fueled digit list agrees with Mathlib's Nat.digits once the fuel
covers the value. -/
theorem digitsLE_eq_digits (b : Nat) (hb : 2 ≤ b) :
    ∀ fuel n, n ≤ fuel → digitsLE b fuel n = Nat.digits b n := by
  intro fuel
  induction fuel with
  | zero =>
    intro n hn
    have h0 : n = 0 := Nat.le_zero.mp hn
    subst h0
    simp [digitsLE]
  | succ f ih =>
    intro n hn
    by_cases h0 : n = 0
    · subst h0; simp [digitsLE]
    · have hpos : 0 < n := Nat.pos_of_ne_zero h0
      have hdiv : n / b < n := Nat.div_lt_self hpos (by omega)
      unfold digitsLE
      rw [if_neg h0, ih (n / b) (by omega),
        Nat.digits_def' (by omega : 1 < b) hpos]

/-- A rendered number is never the empty string. -/
theorem natCharsBase_ne_nil (b : Nat) (toC : Nat → Char) (n : Nat)
    (hb : 2 ≤ b) : natCharsBase b toC n ≠ [] := by
  unfold natCharsBase
  split_ifs with h0
  · simp
  · intro hcon
    rw [digitsLE_eq_digits b hb n n le_rfl] at hcon
    have := List.reverse_eq_nil_iff.mp hcon
    have h2 := List.map_eq_nil.mp this
    exact Nat.digits_ne_nil_iff_ne_zero.mpr h0 h2

/-- A value below b^w renders in at most w characters. -/
theorem natCharsBase_len_le (b : Nat) (toC : Nat → Char) (n w : Nat)
    (hb : 2 ≤ b) (hw : 0 < w) (hn : n < b ^ w) :
    (natCharsBase b toC n).length ≤ w := by
  unfold natCharsBase
  split_ifs with h0
  · simpa using hw
  · rw [List.length_reverse, List.length_map,
      digitsLE_eq_digits b hb n n le_rfl,
      Nat.digits_len b n (by omega) h0]
    have := (Nat.lt_pow_iff_log_lt (by omega : 1 < b) h0).mp hn
    omega

/-- Length of a zero-padded field. -/
theorem padZero_length (w : Nat) (l : List Char) :
    (padZero w l).length = max w l.length := by
  unfold padZero
  simp [List.length_append]
  omega

/-- Padding to a width the content already fills is the identity. -/
theorem padZero_of_le (w : Nat) (l : List Char) (h : w ≤ l.length) :
    padZero w l = l := by
  unfold padZero
  rw [show w - l.length = 0 by omega]
  simp

/-- A wide zero-padded field splits into leading zeros and a narrower one. -/
theorem padZero_split (w1 w2 : Nat) (l : List Char) (h : l.length ≤ w2) :
    padZero (w1 + w2) l = List.replicate w1 '0' ++ padZero w2 l := by
  unfold padZero
  rw [← List.append_assoc, ← List.replicate_add]
  congr 2
  omega

/-- Leading zero characters leave the accumulator at zero. -/
theorem parseRadixGo_zeros (b : Nat) (dv : Char → Option Nat)
    (h0 : dv '0' = some 0) :
    ∀ (k : Nat) (l : List Char),
      parseRadixGo b dv (List.replicate k '0' ++ l) 0 = parseRadixGo b dv l 0 := by
  intro k
  induction k with
  | zero => intro l; rfl
  | succ j ih =>
    intro l
    rw [List.replicate_succ, List.cons_append]
    have hstep : parseRadixGo b dv ('0' :: (List.replicate j '0' ++ l)) 0
        = parseRadixGo b dv (List.replicate j '0' ++ l) (0 * b + 0) := by
      show (match dv '0' with
        | some d => parseRadixGo b dv (List.replicate j '0' ++ l) (0 * b + d)
        | none => none) = _
      rw [h0]
    rw [hstep, Nat.zero_mul]
    exact ih l

/-- The digit scan recovers the rendered value. -/
theorem parseRadixGo_natCharsBase (b : Nat) (dv : Char → Option Nat)
    (toC : Nat → Char) (hb : 2 ≤ b)
    (hinv : ∀ d, d < b → dv (toC d) = some d) (n : Nat) :
    parseRadixGo b dv (natCharsBase b toC n) 0 = some n := by
  by_cases h0 : n = 0
  · subst h0
    have h1 : natCharsBase b toC 0 = [toC 0] := by unfold natCharsBase; simp
    rw [h1]
    have hstep : parseRadixGo b dv [toC 0] 0
        = parseRadixGo b dv [] (0 * b + 0) := by
      show (match dv (toC 0) with
        | some d => parseRadixGo b dv [] (0 * b + d)
        | none => none) = _
      rw [hinv 0 (by omega)]
    rw [hstep, Nat.zero_mul]
    rfl
  · have hdig : natCharsBase b toC n = ((Nat.digits b n).map toC).reverse := by
      unfold natCharsBase
      rw [if_neg h0, digitsLE_eq_digits b hb n n le_rfl]
    have hall : ∀ c ∈ ((Nat.digits b n).map toC).reverse, (dv c).isSome := by
      intro c hc
      rw [List.mem_reverse] at hc
      obtain ⟨d, hd, rfl⟩ := List.mem_map.mp hc
      rw [hinv d (Nat.digits_lt_base (by omega) hd)]
      rfl
    rw [hdig, parseRadixGo_eq b dv _ hall 0]
    congr 1
    rw [Nat.zero_mul, Nat.zero_add]
    have hmap : (Nat.digits b n).map (fun d => (dv (toC d)).getD 0)
        = Nat.digits b n := by
      conv_rhs => rw [← List.map_id (Nat.digits b n)]
      apply List.map_congr_left
      intro d hd
      rw [hinv d (Nat.digits_lt_base (by omega) hd)]
      rfl
    rw [List.map_reverse, List.reverse_reverse, List.map_map]
    show Nat.ofDigits b ((Nat.digits b n).map (fun d => (dv (toC d)).getD 0)) = n
    rw [hmap, Nat.ofDigits_digits]

/-- The full parser inverts zero-padded rendering at any field width. -/
theorem parseRadix_fmt (b : Nat) (dv : Char → Option Nat) (toC : Nat → Char)
    (hb : 2 ≤ b) (hinv : ∀ d, d < b → dv (toC d) = some d)
    (h0 : toC 0 = '0') (w n : Nat) :
    parseRadix b dv (padZero w (natCharsBase b toC n)) = some n := by
  unfold parseRadix padZero
  rw [if_neg ?ne]
  case ne =>
    intro hcon
    rw [List.append_eq_nil] at hcon
    exact natCharsBase_ne_nil b toC n hb hcon.2
  have hz : dv '0' = some 0 := by rw [← h0]; exact hinv 0 (by omega)
  rw [parseRadixGo_zeros b dv hz _ _]
  exact parseRadixGo_natCharsBase b dv toC hb hinv n

/-- A most-significant-first digit list of length w reads below b^w. -/
theorem ofDigits_rev_lt (b : Nat) (hb : 2 ≤ b) :
    ∀ ds : List Nat, (∀ d ∈ ds, d < b) →
      Nat.ofDigits b ds.reverse < b ^ ds.length := by
  intro ds
  induction ds with
  | nil => intro _; simp [Nat.ofDigits_nil]
  | cons d t ih =>
    intro h
    rw [List.reverse_cons, Nat.ofDigits_append, List.length_reverse,
      Nat.ofDigits_singleton]
    have h1 := ih (fun x hx => h x (List.mem_cons_of_mem d hx))
    have h2 : d < b := h d (List.mem_cons_self d t)
    have h3 : b ^ t.length * d ≤ b ^ t.length * (b - 1) :=
      Nat.mul_le_mul_left _ (by omega)
    have h4 : b ^ (d :: t).length = b ^ t.length + b ^ t.length * (b - 1) := by
      rw [List.length_cons, pow_succ]
      have h5 : b ^ t.length * b = b ^ t.length * (1 + (b - 1)) := by
        congr 1
        omega
      rw [h5, Nat.mul_add, Nat.mul_one]
    rw [h4]
    omega

/-- Zero-padded rendering inverts the digit decomposition: a digit string of
width w whose value is n is exactly the width-w rendering of n. -/
theorem fmt_of_ofDigits (b : Nat) (toC : Nat → Char) (hb : 2 ≤ b)
    (h0 : toC 0 = '0') :
    ∀ ds : List Nat, ds ≠ [] → (∀ d ∈ ds, d < b) →
      padZero ds.length (natCharsBase b toC (Nat.ofDigits b ds.reverse))
        = ds.map toC := by
  intro ds
  induction ds with
  | nil => intro h _; exact absurd rfl h
  | cons d t ih =>
    intro _ hlt
    by_cases ht : t = []
    · subst ht
      simp only [List.reverse_cons, List.reverse_nil, List.nil_append,
        Nat.ofDigits_singleton]
      have hd : d < b := hlt d (List.mem_cons_self d [])
      by_cases hd0 : d = 0
      · subst hd0
        have h1 : natCharsBase b toC 0 = [toC 0] := by unfold natCharsBase; simp
        rw [h1]
        simp [padZero, h0]
      · have hdig : Nat.digits b d = [d] := by
          rw [Nat.digits_def' (by omega : 1 < b) (Nat.pos_of_ne_zero hd0),
            Nat.mod_eq_of_lt hd, Nat.div_eq_of_lt hd, Nat.digits_zero]
        have h1 : natCharsBase b toC d = [toC d] := by
          unfold natCharsBase
          rw [if_neg hd0, digitsLE_eq_digits b hb d d le_rfl, hdig]
          rfl
        rw [h1]
        simp [padZero]
    · by_cases hd0 : d = 0
      · subst hd0
        have hn : Nat.ofDigits b ((0 : Nat) :: t).reverse
            = Nat.ofDigits b t.reverse := by
          rw [List.reverse_cons, Nat.ofDigits_append, Nat.ofDigits_singleton]
          simp
        rw [hn]
        have hlt' : ∀ x ∈ t, x < b := fun x hx => hlt x (List.mem_cons_of_mem _ hx)
        have htpos : 0 < t.length := by
          cases t with
          | nil => exact absurd rfl ht
          | cons a s => simp
        have hlen : (natCharsBase b toC (Nat.ofDigits b t.reverse)).length
            ≤ t.length :=
          natCharsBase_len_le b toC _ t.length hb htpos
            (ofDigits_rev_lt b hb t hlt')
        have hsplit : padZero (((0 : Nat) :: t).length)
            (natCharsBase b toC (Nat.ofDigits b t.reverse))
            = List.replicate 1 '0'
              ++ padZero t.length (natCharsBase b toC (Nat.ofDigits b t.reverse)) := by
          rw [List.length_cons, show t.length + 1 = 1 + t.length by omega]
          exact padZero_split 1 t.length _ hlen
        rw [hsplit, ih ht hlt']
        simp [h0]
      · have hlt' : ∀ x ∈ (d :: t).reverse, x < b := by
          intro x hx
          exact hlt x (List.mem_reverse.mp hx)
        have hrc : (d :: t).reverse = t.reverse ++ [d] := List.reverse_cons d t
        have hn0 : Nat.ofDigits b (d :: t).reverse ≠ 0 := by
          rw [hrc, Nat.ofDigits_append, Nat.ofDigits_singleton,
            List.length_reverse]
          have hp : 0 < b ^ t.length * d :=
            Nat.mul_pos (pow_pos (by omega) _) (Nat.pos_of_ne_zero hd0)
          omega
        have hdig : Nat.digits b (Nat.ofDigits b (t.reverse ++ [d]))
            = t.reverse ++ [d] := by
          refine Nat.digits_ofDigits b (by omega) _ ?_ ?_
          · intro x hx
            apply hlt'
            rw [hrc]
            exact hx
          · intro hne2
            simp only [List.getLast_append]
            exact hd0
        have hchars : natCharsBase b toC (Nat.ofDigits b (d :: t).reverse)
            = (d :: t).map toC := by
          unfold natCharsBase
          rw [if_neg hn0, digitsLE_eq_digits b hb _ _ le_rfl, hrc, hdig,
            ← hrc, ← List.map_reverse, List.reverse_reverse]
        rw [hchars]
        apply padZero_of_le
        simp

/-- A fixed-width digit string that parses to n is the width-w rendering of
n, provided every digit character re-renders to itself. -/
theorem parseRadix_fmt_inv (b : Nat) (dv : Char → Option Nat)
    (toC : Nat → Char) (hb : 2 ≤ b) (h0 : toC 0 = '0') (l : List Char)
    (n : Nat) (hc : ∀ c ∈ l, ∀ d, dv c = some d → toC d = c ∧ d < b)
    (h : parseRadix b dv l = some n) :
    padZero l.length (natCharsBase b toC n) = l := by
  unfold parseRadix at h
  split_ifs at h with hl
  have hall : ∀ c ∈ l, (dv c).isSome := parseRadixGo_isSome b dv l 0 n h
  rw [parseRadixGo_eq b dv l hall 0] at h
  injection h with h
  rw [Nat.zero_mul, Nat.zero_add] at h
  have hlen : (l.map fun c => (dv c).getD 0).length = l.length :=
    List.length_map _ _
  have hlt : ∀ d ∈ (l.map fun c => (dv c).getD 0), d < b := by
    intro d hd
    obtain ⟨c, hcl, hdc⟩ := List.mem_map.mp hd
    obtain ⟨d2, hd2⟩ := Option.isSome_iff_exists.mp (hall c hcl)
    have hlt2 := (hc c hcl d2 hd2).2
    rw [hd2] at hdc
    simp at hdc
    omega
  have hmap : (l.map fun c => (dv c).getD 0).map toC = l := by
    rw [List.map_map]
    conv_rhs => rw [← List.map_id l]
    apply List.map_congr_left
    intro c hcl
    obtain ⟨d2, hd2⟩ := Option.isSome_iff_exists.mp (hall c hcl)
    show toC ((dv c).getD 0) = id c
    rw [hd2]
    exact (hc c hcl d2 hd2).1
  have hne : (l.map fun c => (dv c).getD 0) ≠ [] := by
    intro hcon
    rw [hcon] at hlen
    exact hl (List.length_eq_zero.mp hlen.symm)
  rw [← h, ← hlen, fmt_of_ofDigits b toC hb h0 _ hne hlt, hmap]

/-- The zero digit renders as the zero character. -/
theorem decDigitChar_zero : decDigitChar 0 = '0' := by decide

/-- The zero hex digit renders as the zero character. -/
theorem hexDigitChar_zero : hexDigitChar 0 = '0' := by decide

/-- A zero-padded decimal field always parses back to its value. -/
theorem fmtDec_parse (w n : Nat) :
    parseRadix 10 decDigitVal (fmtDec w n) = some n :=
  parseRadix_fmt 10 decDigitVal decDigitChar (by omega)
    (fun d hd => decDigitChar_val d hd) decDigitChar_zero w n

/-- A zero-padded hex field always parses back to its value. -/
theorem fmtHex_parse (w n : Nat) :
    parseRadix 16 hexDigitVal (fmtHex w n) = some n :=
  parseRadix_fmt 16 hexDigitVal hexDigitChar (by omega)
    (fun d hd => hexDigitChar_val d hd) hexDigitChar_zero w n

/-- Every character of a rendered number is a rendered digit. -/
theorem natCharsBase_mem (b : Nat) (toC : Nat → Char) (n : Nat) (hb : 2 ≤ b)
    (c : Char) (hc : c ∈ natCharsBase b toC n) : ∃ d, d < b ∧ c = toC d := by
  unfold natCharsBase at hc
  split_ifs at hc with h0
  · simp at hc
    exact ⟨0, by omega, hc⟩
  · rw [digitsLE_eq_digits b hb n n le_rfl, List.mem_reverse] at hc
    obtain ⟨d, hd, rfl⟩ := List.mem_map.mp hc
    exact ⟨d, Nat.digits_lt_base (by omega) hd, rfl⟩

/-- Decimal fields contain only canonical characters. -/
theorem fmtDec_canon (w n : Nat) (c : Char) (hc : c ∈ fmtDec w n) :
    isCanonChar c = true := by
  unfold fmtDec padZero at hc
  rcases List.mem_append.mp hc with hr | hm
  · rw [List.eq_of_mem_replicate hr]
    decide
  · obtain ⟨d, hd, rfl⟩ := natCharsBase_mem 10 decDigitChar n (by omega) c hm
    exact decDigitChar_canon d hd

/-- Uppercase hex fields contain only canonical characters. -/
theorem fmtHex_canon (w n : Nat) (c : Char) (hc : c ∈ fmtHex w n) :
    isCanonChar c = true := by
  unfold fmtHex padZero at hc
  rcases List.mem_append.mp hc with hr | hm
  · rw [List.eq_of_mem_replicate hr]
    decide
  · obtain ⟨d, hd, rfl⟩ := natCharsBase_mem 16 hexDigitChar n (by omega) c hm
    exact hexDigitChar_canon d hd

/-- On strings of the canonical alphabet, parse::<usize> is the plain digit
run parse (the optional-plus arm cannot fire). -/
theorem parseUsize_of_canon (l : List Char)
    (h : ∀ c ∈ l, isCanonChar c = true) :
    parseUsize l = parseRadix 10 decDigitVal l := by
  cases l with
  | nil => rfl
  | cons c rest =>
    have hc : c ≠ '+' := canon_ne_plus c (h c (List.mem_cons_self c rest))
    unfold parseUsize
    split
    · next heq =>
      injection heq with h1 _
      exact absurd h1 hc
    · rfl

/-- On strings of the canonical alphabet, from_str_radix(16) is the plain
hex digit run parse. -/
theorem parseUsizeRadix16_of_canon (l : List Char)
    (h : ∀ c ∈ l, isCanonChar c = true) :
    parseUsizeRadix16 l = parseRadix 16 hexDigitVal l := by
  cases l with
  | nil => rfl
  | cons c rest =>
    have hc : c ≠ '+' := canon_ne_plus c (h c (List.mem_cons_self c rest))
    unfold parseUsizeRadix16
    split
    · next heq =>
      injection heq with h1 _
      exact absurd h1 hc
    · rfl

/-- str::parse::<usize> inverts the zero-padded decimal format. -/
theorem parseUsize_fmtDec (w n : Nat) : parseUsize (fmtDec w n) = some n := by
  rw [parseUsize_of_canon _ (fun c hc => fmtDec_canon w n c hc)]
  exact fmtDec_parse w n

/-- from_str_radix(16) inverts the zero-padded uppercase hex format. -/
theorem parseUsizeRadix16_fmtHex (w n : Nat) :
    parseUsizeRadix16 (fmtHex w n) = some n := by
  rw [parseUsizeRadix16_of_canon _ (fun c hc => fmtHex_canon w n c hc)]
  exact fmtHex_parse w n

/-- A value that fits its decimal field renders at exactly the field width. -/
theorem fmtDec_length (w n : Nat) (hw : 0 < w) (hn : n < 10 ^ w) :
    (fmtDec w n).length = w := by
  unfold fmtDec natDecChars
  rw [padZero_length]
  have := natCharsBase_len_le 10 decDigitChar n w (by omega) hw hn
  omega

/-- A value that fits its hex field renders at exactly the field width. -/
theorem fmtHex_length (w n : Nat) (hw : 0 < w) (hn : n < 16 ^ w) :
    (fmtHex w n).length = w := by
  unfold fmtHex natHexChars
  rw [padZero_length]
  have := natCharsBase_len_le 16 hexDigitChar n w (by omega) hw hn
  omega

/-- Era number round-trip: rendering, parsing and from_number at the five
era codes. -/
theorem era_codec (e : Era) :
    natDecChars e.to_number = [decDigitChar e.to_number] ∧
    parseUsize (natDecChars e.to_number) = some e.to_number ∧
    Era.from_number e.to_number = some e := by
  cases e <;> exact ⟨by decide, by decide, by decide⟩

/-- Era.from_number is sound: an accepted code is the era's own number and
lies in 1..5. -/
theorem era_from_number_sound (n : Nat) (e : Era)
    (h : Era.from_number n = some e) :
    Era.to_number e = n ∧ 1 ≤ n ∧ n ≤ 5 := by
  unfold Era.from_number at h
  split_ifs at h with h1 h2 h3 h4 h5 <;>
    (injection h with hh; subst hh; refine ⟨?_, by omega, by omega⟩) <;>
    (first
      | (rw [h1]; decide)
      | (rw [h2]; decide)
      | (rw [h3]; decide)
      | (rw [h4]; decide)
      | (rw [h5]; decide))

/-- Institution codes invert: from_int of to_int is the identity. -/
theorem institution_from_to (i : Institution) :
    Institution.from_int (Institution.to_int i) = some i := by
  cases i <;> decide

/-- Institution.from_int is sound away from the legacy alias 17: an accepted
code re-encodes to itself. -/
theorem institution_from_int_sound (n : Nat) (i : Institution)
    (h17 : n ≠ 17) (h : Institution.from_int n = some i) :
    Institution.to_int i = n := by
  unfold Institution.from_int at h
  by_cases h1 : n = 1
  · rw [if_pos h1] at h
    injection h with hh
    subst hh
    simp only [Institution.to_int]
    omega
  rw [if_neg h1] at h
  by_cases h2 : n = 2
  · rw [if_pos h2] at h
    injection h with hh
    subst hh
    simp only [Institution.to_int]
    omega
  rw [if_neg h2] at h
  by_cases h3 : n = 3
  · rw [if_pos h3] at h
    injection h with hh
    subst hh
    simp only [Institution.to_int]
    omega
  rw [if_neg h3] at h
  by_cases h4 : n = 4
  · rw [if_pos h4] at h
    injection h with hh
    subst hh
    simp only [Institution.to_int]
    omega
  rw [if_neg h4] at h
  by_cases h5 : n = 5
  · rw [if_pos h5] at h
    injection h with hh
    subst hh
    simp only [Institution.to_int]
    omega
  rw [if_neg h5] at h
  by_cases h6 : n = 6
  · rw [if_pos h6] at h
    injection h with hh
    subst hh
    simp only [Institution.to_int]
    omega
  rw [if_neg h6] at h
  by_cases h7 : n = 7
  · rw [if_pos h7] at h
    injection h with hh
    subst hh
    simp only [Institution.to_int]
    omega
  rw [if_neg h7] at h
  by_cases h8 : n = 8
  · rw [if_pos h8] at h
    injection h with hh
    subst hh
    simp only [Institution.to_int]
    omega
  rw [if_neg h8] at h
  by_cases h9 : n = 9
  · rw [if_pos h9] at h
    injection h with hh
    subst hh
    simp only [Institution.to_int]
    omega
  rw [if_neg h9] at h
  by_cases h10 : n = 10
  · rw [if_pos h10] at h
    injection h with hh
    subst hh
    simp only [Institution.to_int]
    omega
  rw [if_neg h10] at h
  by_cases h11 : n = 11
  · rw [if_pos h11] at h
    injection h with hh
    subst hh
    simp only [Institution.to_int]
    omega
  rw [if_neg h11] at h
  by_cases h12 : n = 12
  · rw [if_pos h12] at h
    injection h with hh
    subst hh
    simp only [Institution.to_int]
    omega
  rw [if_neg h12] at h
  by_cases h13 : n = 13
  · rw [if_pos h13] at h
    injection h with hh
    subst hh
    simp only [Institution.to_int]
    omega
  rw [if_neg h13] at h
  by_cases h14 : n = 14
  · rw [if_pos h14] at h
    injection h with hh
    subst hh
    simp only [Institution.to_int]
    omega
  rw [if_neg h14] at h
  by_cases h15 : n = 15
  · rw [if_pos h15] at h
    injection h with hh
    subst hh
    simp only [Institution.to_int]
    omega
  rw [if_neg h15] at h
  by_cases h16 : n = 16
  · rw [if_pos h16] at h
    injection h with hh
    subst hh
    simp only [Institution.to_int]
    omega
  rw [if_neg h16] at h
  by_cases h17 : n = 17
  · rw [if_pos h17] at h
    injection h with hh
    subst hh
    simp only [Institution.to_int]
    omega
  rw [if_neg h17] at h
  by_cases h18 : n = 18
  · rw [if_pos h18] at h
    injection h with hh
    subst hh
    simp only [Institution.to_int]
    omega
  rw [if_neg h18] at h
  by_cases h19 : n = 19
  · rw [if_pos h19] at h
    injection h with hh
    subst hh
    simp only [Institution.to_int]
    omega
  rw [if_neg h19] at h
  exact Option.noConfusion h

/-- Institution codes lie in 1..19. -/
theorem institution_to_int_range (i : Institution) :
    1 ≤ Institution.to_int i ∧ Institution.to_int i ≤ 19 := by
  cases i <;> exact ⟨by decide, by decide⟩

/-- Bits of an OR-accumulating fold: a bit is set iff it is set in the seed
or in some element's contribution. -/
theorem foldl_or_testBit {α : Type} (f : α → Nat) (i : Nat) :
    ∀ (l : List α) (a : Nat),
      (l.foldl (fun n v => n ||| f v) a).testBit i
        = (a.testBit i || l.any fun v => (f v).testBit i) := by
  intro l
  induction l with
  | nil => intro a; simp
  | cons v t ih =>
    intro a
    show (t.foldl _ (a ||| f v)).testBit i = _
    rw [ih (a ||| f v), Nat.testBit_lor, List.any_cons, Bool.or_assoc]

/-- A bit of the member mask is set iff some member owns that position. -/
theorem mask_testBit {α : Type} [MinistryContents α] (l : List α) (i : Nat) :
    (MinistryContents.mask l).testBit i
      = l.any fun m => decide (MinistryContents.to_int m - 1 = i) := by
  unfold MinistryContents.mask
  rw [foldl_or_testBit (fun v => 2 ^ (MinistryContents.to_int v - 1)) i l 0,
    Nat.zero_testBit, Bool.false_or]
  congr 1
  funext m
  exact Nat.testBit_two_pow

/-- The OR-accumulating fold keeps the mask below 2^28 when every position
is at most 28. -/
theorem mask_lt_aux {α : Type} [MinistryContents α] [LawfulMC α] :
    ∀ (l : List α) (a : Nat), a < 2 ^ 28 →
      l.foldl (fun n v => n ||| 2 ^ (MinistryContents.to_int v - 1)) a
        < 2 ^ 28 := by
  intro l
  induction l with
  | nil => intro a ha; exact ha
  | cons v t ih =>
    intro a ha
    apply ih
    apply Nat.or_lt_two_pow ha
    have h1 := LawfulMC.to_int_le v
    have h2 : MinistryContents.to_int v - 1 < 28 := by omega
    exact Nat.pow_lt_pow_right (by omega) h2

/-- The member mask fits in 28 bits. -/
theorem mask_lt {α : Type} [MinistryContents α] [LawfulMC α] (l : List α) :
    MinistryContents.mask l < 2 ^ 28 :=
  mask_lt_aux l 0 (by norm_num)

/-- Membership in the descending set-bit list. -/
theorem setBitsDesc_mem (n : Nat) : ∀ (k p : Nat),
    p ∈ setBitsDesc n k ↔ 1 ≤ p ∧ p ≤ k ∧ n.testBit (p - 1) = true := by
  intro k
  induction k with
  | zero =>
    intro p
    constructor
    · intro h
      exact absurd h (List.not_mem_nil p)
    · rintro ⟨h1, h2, _⟩
      omega
  | succ j ih =>
    intro p
    unfold setBitsDesc
    by_cases hb : n.testBit j
    · rw [if_pos hb, List.mem_cons, ih p]
      constructor
      · rintro (rfl | ⟨h1, h2, h3⟩)
        · exact ⟨by omega, by omega, by simpa using hb⟩
        · exact ⟨h1, by omega, h3⟩
      · rintro ⟨h1, h2, h3⟩
        by_cases hp : p = j + 1
        · left; exact hp
        · right; exact ⟨h1, by omega, h3⟩
    · rw [if_neg hb, ih p]
      constructor
      · rintro ⟨h1, h2, h3⟩
        exact ⟨h1, by omega, h3⟩
      · rintro ⟨h1, h2, h3⟩
        refine ⟨h1, ?_, h3⟩
        by_cases hp : p = j + 1
        · subst hp
          rw [Nat.add_sub_cancel] at h3
          exact absurd h3 hb
        · omega

/-- The bit-scan loop on a binary expansion equals member lookup along the
descending set-bit list. -/
theorem fromIdStrGo_eq (α : Type) [MinistryContents α] (n : Nat) :
    ∀ k, k ≤ 28 →
      MinistryContents.fromIdStrGo α (28 - k)
        ((List.range k).map fun j => if n.testBit (k - 1 - j) then '1' else '0')
        = tryFromInts α (setBitsDesc n k) := by
  intro k
  induction k with
  | zero => intro _; rfl
  | succ j ih =>
    intro hk
    rw [List.range_succ_eq_map, List.map_cons, List.map_map]
    have hmapeq : (List.range j).map
          ((fun i => if n.testBit (j + 1 - 1 - i) then '1' else '0') ∘ Nat.succ)
        = (List.range j).map
          (fun i => if n.testBit (j - 1 - i) then '1' else '0') := by
      apply List.map_congr_left
      intro i _
      show (if n.testBit (j + 1 - 1 - (i + 1)) then '1' else '0') = _
      rw [show j + 1 - 1 - (i + 1) = j - 1 - i from by omega]
    rw [hmapeq]
    have h28 : 28 - (28 - (j + 1)) = j + 1 := by omega
    have h28b : 28 - (j + 1) + 1 = 28 - j := by omega
    by_cases hb : n.testBit j
    · rw [show j + 1 - 1 - 0 = j from by omega, if_pos hb]
      unfold MinistryContents.fromIdStrGo
      rw [if_pos rfl, h28, h28b, ih (by omega),
        show setBitsDesc n (j + 1) = (j + 1) :: setBitsDesc n j from by
          simp only [setBitsDesc]; rw [if_pos hb]]
      rfl
    · rw [show j + 1 - 1 - 0 = j from by omega, if_neg hb]
      unfold MinistryContents.fromIdStrGo
      rw [if_neg (by decide), if_pos rfl, h28b, ih (by omega),
        show setBitsDesc n (j + 1) = setBitsDesc n j from by
          simp only [setBitsDesc]; rw [if_neg hb]]

/-- MinistryContents::from_id_str on a 28-character binary expansion is
member lookup along the descending set-bit list. -/
theorem mc_from_id_str_fmtBin28 (α : Type) [MinistryContents α] (n : Nat) :
    MinistryContents.from_id_str α (fmtBin28 n)
      = tryFromInts α (setBitsDesc n 28) := by
  have h := fromIdStrGo_eq α n 28 (le_refl 28)
  rw [show (28 : Nat) - 28 = 0 from by omega] at h
  have hmapeq : (List.range 28).map
        (fun j => if n.testBit (28 - 1 - j) then '1' else '0')
      = (List.range 28).map
        (fun i => if n.testBit (27 - i) then '1' else '0') := by
    apply List.map_congr_left
    intro i _
    rw [show (28 : Nat) - 1 - i = 27 - i from by omega]
  rw [hmapeq] at h
  exact h

/-- Member lookup succeeds when every position resolves, and the result's
members are exactly the resolved positions. -/
theorem tryFromInts_ok_of_some {α : Type} [MinistryContents α] :
    ∀ ps : List Nat, (∀ p ∈ ps, (@MinistryContents.from_int α _ p).isSome) →
      ∃ l, tryFromInts α ps = .ok l ∧
        ∀ x, x ∈ l ↔ ∃ p ∈ ps, @MinistryContents.from_int α _ p = some x := by
  intro ps
  induction ps with
  | nil =>
    intro _
    refine ⟨[], rfl, fun x => ?_⟩
    simp
  | cons p t ih =>
    intro hall
    obtain ⟨m, hm⟩ := Option.isSome_iff_exists.mp
      (hall p (List.mem_cons_self p t))
    obtain ⟨v, hv, hmem⟩ := ih (fun q hq => hall q (List.mem_cons_of_mem p hq))
    refine ⟨m :: v, ?_, ?_⟩
    · unfold tryFromInts
      rw [hm, hv]
    · intro x
      rw [List.mem_cons]
      constructor
      · rintro (rfl | hx)
        · exact ⟨p, List.mem_cons_self p t, hm⟩
        · obtain ⟨q, hq, hfq⟩ := (hmem x).mp hx
          exact ⟨q, List.mem_cons_of_mem p hq, hfq⟩
      · rintro ⟨q, hq, hfq⟩
        rcases List.mem_cons.mp hq with rfl | hqt
        · rw [hm] at hfq
          injection hfq with hfq
          exact Or.inl hfq.symm
        · exact Or.inr ((hmem x).mpr ⟨q, hqt, hfq⟩)

/-- Member lookup inverts the period's own code list. -/
theorem tryFromInts_map {α : Type} [MinistryContents α] [LawfulMC α] :
    ∀ l : List α, tryFromInts α (l.map MinistryContents.to_int) = .ok l := by
  intro l
  induction l with
  | nil => rfl
  | cons m t ih =>
    rw [List.map_cons]
    unfold tryFromInts
    rw [LawfulMC.from_to m, ih]

/-- Decoding the binary expansion of a list's mask returns the list's
members as a set. -/
theorem mc_decode_encode {α : Type} [MinistryContents α] [LawfulMC α]
    (l : List α) :
    ∃ v, MinistryContents.from_id_str α (fmtBin28 (MinistryContents.mask l))
        = .ok v ∧ ∀ x, x ∈ v ↔ x ∈ l := by
  rw [mc_from_id_str_fmtBin28]
  have hsome : ∀ p ∈ setBitsDesc (MinistryContents.mask l) 28,
      (@MinistryContents.from_int α _ p).isSome := by
    intro p hp
    rw [setBitsDesc_mem] at hp
    obtain ⟨h1, _, h3⟩ := hp
    rw [mask_testBit] at h3
    obtain ⟨m, hm, hdm⟩ := List.any_eq_true.mp h3
    have hge := LawfulMC.to_int_ge m
    have hmp : MinistryContents.to_int m = p := by
      have := of_decide_eq_true hdm
      omega
    rw [← hmp, LawfulMC.from_to m]
    rfl
  obtain ⟨v, hv, hmem⟩ := tryFromInts_ok_of_some _ hsome
  refine ⟨v, hv, fun x => ?_⟩
  rw [hmem x]
  constructor
  · rintro ⟨p, hp, hfp⟩
    rw [setBitsDesc_mem] at hp
    obtain ⟨h1, _, h3⟩ := hp
    rw [mask_testBit] at h3
    obtain ⟨m, hm, hdm⟩ := List.any_eq_true.mp h3
    have hge := LawfulMC.to_int_ge m
    have hmp : MinistryContents.to_int m = p := by
      have := of_decide_eq_true hdm
      omega
    rw [← hmp, LawfulMC.from_to m] at hfp
    injection hfp with hfp
    rw [← hfp]
    exact hm
  · intro hx
    refine ⟨MinistryContents.to_int x, ?_, LawfulMC.from_to x⟩
    rw [setBitsDesc_mem]
    refine ⟨LawfulMC.to_int_ge x, LawfulMC.to_int_le x, ?_⟩
    rw [mask_testBit]
    exact List.any_eq_true.mpr ⟨x, hx, by simp⟩

/-- A strictly descending position list with the same bits is recovered by
the descending set-bit scan. -/
theorem setBitsDesc_eq (m : Nat) :
    ∀ (k : Nat) (ps : List Nat),
      List.Chain' (fun a b => b < a) ps →
      (∀ p ∈ ps, 1 ≤ p ∧ p ≤ k) →
      (∀ i, i < k → m.testBit i = ps.any fun p => decide (p - 1 = i)) →
      setBitsDesc m k = ps := by
  intro k
  induction k with
  | zero =>
    intro ps _ hub _
    cases ps with
    | nil => rfl
    | cons p t =>
      have := hub p (List.mem_cons_self p t)
      omega
  | succ j ih =>
    intro ps hchain hub hbits
    haveI : IsTrans Nat (fun a b => b < a) :=
      ⟨fun _ _ _ h1 h2 => lt_trans h2 h1⟩
    unfold setBitsDesc
    by_cases hb : m.testBit j
    · rw [if_pos hb]
      have hany := hbits j (by omega)
      rw [hb] at hany
      cases ps with
      | nil => simp at hany
      | cons p t =>
        have hple := hub p (List.mem_cons_self p t)
        have hpw : ∀ q ∈ t, q < p := by
          have hpair := List.chain'_iff_pairwise.mp hchain
          intro q hq
          exact (List.pairwise_cons.mp hpair).1 q hq
        have hpj : p = j + 1 := by
          by_contra hne
          have hfalse : (p :: t).any (fun q => decide (q - 1 = j)) = false := by
            rw [List.any_eq_false]
            intro q hq
            rcases List.mem_cons.mp hq with rfl | hqt
            · simp only [decide_eq_true_eq]
              omega
            · have h1 := hub q (List.mem_cons_of_mem p hqt)
              have h2 := hpw q hqt
              simp only [decide_eq_true_eq]
              omega
          rw [hfalse] at hany
          exact Bool.noConfusion hany
        subst hpj
        congr 1
        apply ih t (List.Chain'.tail hchain)
        · intro q hq
          have h2 := hpw q hq
          exact ⟨(hub q (List.mem_cons_of_mem _ hq)).1, by omega⟩
        · intro i hi
          have hbi := hbits i (by omega)
          rw [List.any_cons] at hbi
          have hpd : decide (j + 1 - 1 = i) = false := by
            simp only [decide_eq_false_iff_not]
            omega
          rw [hpd, Bool.false_or] at hbi
          exact hbi
    · rw [if_neg hb]
      apply ih ps hchain
      · intro p hp
        refine ⟨(hub p hp).1, ?_⟩
        by_contra hgt
        have hpj : p = j + 1 := by
          have := (hub p hp).2
          omega
        have h1 := hbits j (by omega)
        have h2 : ps.any (fun q => decide (q - 1 = j)) = true :=
          List.any_eq_true.mpr ⟨p, hp, by simp [hpj]⟩
        rw [h2] at h1
        exact hb h1
      · intro i hi
        exact hbits i (by omega)

/-- The position-level bit test over a mapped code list. -/
theorem any_map_decide {α : Type} (f : α → Nat) (i : Nat) :
    ∀ l : List α, (List.map f l).any (fun p => decide (p - 1 = i))
      = l.any fun m => decide (f m - 1 = i) := by
  intro l
  induction l with
  | nil => rfl
  | cons a t ih =>
    rw [List.map_cons, List.any_cons, List.any_cons, ih]

/-- Decoding the binary expansion of a strictly descending list's mask
returns that list exactly (order included). -/
theorem mask_desc_decode {α : Type} [MinistryContents α] [LawfulMC α]
    (l : List α) (hd : strictDescMask l = true) :
    MinistryContents.from_id_str α (fmtBin28 (MinistryContents.mask l))
      = .ok l := by
  rw [mc_from_id_str_fmtBin28]
  have hps : setBitsDesc (MinistryContents.mask l) 28
      = l.map MinistryContents.to_int := by
    apply setBitsDesc_eq
    · rw [List.chain'_map]
      exact of_decide_eq_true hd
    · intro p hp
      obtain ⟨m, hm, rfl⟩ := List.mem_map.mp hp
      exact ⟨LawfulMC.to_int_ge m, LawfulMC.to_int_le m⟩
    · intro i _
      rw [mask_testBit]
      exact (any_map_decide MinistryContents.to_int i l).symm
  rw [hps, tryFromInts_map]

/-- C6: bitmask round-trip for each period M1-M6: encoding a non-empty
duplicate-free member list with MinistryContents::to_id_str (the OR-mask
rendered as 7 zero-padded uppercase hex digits) and decoding the
corresponding 28-character binary expansion with
MinistryContents::from_id_str returns exactly the members of the list, as a
set. -/
theorem C6_mask_roundtrip :
    (∀ l : List M1Ministry, l ≠ [] → l.Nodup →
      ∃ n v, parseUsizeRadix16 (MinistryContents.to_id_str l) = some n ∧
        MinistryContents.from_id_str M1Ministry (fmtBin28 n) = .ok v ∧
        ∀ x, x ∈ v ↔ x ∈ l) ∧
    (∀ l : List M2Ministry, l ≠ [] → l.Nodup →
      ∃ n v, parseUsizeRadix16 (MinistryContents.to_id_str l) = some n ∧
        MinistryContents.from_id_str M2Ministry (fmtBin28 n) = .ok v ∧
        ∀ x, x ∈ v ↔ x ∈ l) ∧
    (∀ l : List M3Ministry, l ≠ [] → l.Nodup →
      ∃ n v, parseUsizeRadix16 (MinistryContents.to_id_str l) = some n ∧
        MinistryContents.from_id_str M3Ministry (fmtBin28 n) = .ok v ∧
        ∀ x, x ∈ v ↔ x ∈ l) ∧
    (∀ l : List M4Ministry, l ≠ [] → l.Nodup →
      ∃ n v, parseUsizeRadix16 (MinistryContents.to_id_str l) = some n ∧
        MinistryContents.from_id_str M4Ministry (fmtBin28 n) = .ok v ∧
        ∀ x, x ∈ v ↔ x ∈ l) ∧
    (∀ l : List M5Ministry, l ≠ [] → l.Nodup →
      ∃ n v, parseUsizeRadix16 (MinistryContents.to_id_str l) = some n ∧
        MinistryContents.from_id_str M5Ministry (fmtBin28 n) = .ok v ∧
        ∀ x, x ∈ v ↔ x ∈ l) ∧
    (∀ l : List M6Ministry, l ≠ [] → l.Nodup →
      ∃ n v, parseUsizeRadix16 (MinistryContents.to_id_str l) = some n ∧
        MinistryContents.from_id_str M6Ministry (fmtBin28 n) = .ok v ∧
        ∀ x, x ∈ v ↔ x ∈ l) := by
  refine ⟨?_, ?_, ?_, ?_, ?_, ?_⟩ <;>
    (intro l _ _
     obtain ⟨v, hv, hm⟩ := mc_decode_encode l
     exact ⟨MinistryContents.mask l, v, parseUsizeRadix16_fmtHex 7 _, hv, hm⟩)

/-- A flag-and-serial branch accepts the re-encoded tag and serial. -/
theorem flagNumBranch_ok (tag9 numf : List Char) (h9 : tag9.length = 9)
    (hnf : numf.length = 3) (flagOf : Nat → Option (Nat → LawType))
    (v : Nat) (hv : parseUsize (tag9.drop 2) = some v)
    (mk : Nat → LawType) (hmk : flagOf v = some mk)
    (num : Nat) (hnum : parseUsize numf = some num) :
    flagNumBranch (tag9 ++ numf) flagOf = .ret (some (mk num)) := by
  have hlen : (tag9 ++ numf).length = 12 := by
    rw [List.length_append]
    omega
  have hslice1 : ((tag9 ++ numf).drop 2).take (8 + 1 - 2) = tag9.drop 2 := by
    rw [List.drop_append_of_le_length (by omega),
      List.take_append_of_le_length (by rw [List.length_drop]; omega)]
    exact List.take_all_of_le (by rw [List.length_drop]; omega)
  have hslice2 : ((tag9 ++ numf).drop 9).take (11 + 1 - 9) = numf := by
    rw [List.drop_left' h9]
    exact List.take_all_of_le (by omega)
  unfold flagNumBranch
  rw [sliceIncl_ret 2 (show 8 < (tag9 ++ numf).length by omega),
    sliceIncl_ret 9 (show 11 < (tag9 ++ numf).length by omega)]
  simp only [PRes.bind_ret, hslice1, hslice2, hv, hmk, hnum]

/-- A period arm accepts a re-encoded canonical member list, whatever two
characters precede the hex field and whatever follows it. -/
theorem ministryPeriodArm_ok (α : Type) [MinistryContents α] [LawfulMC α]
    (wrap : List α → Ministry) (l : List α) (hd : strictDescMask l = true)
    (c1 c2 : Char) (suf : List Char) :
    ministryPeriodArm α wrap
      (c1 :: c2 :: (fmtHex 7 (MinistryContents.mask l) ++ suf))
      = .ret (.ok (wrap l)) := by
  have h16 : (16 : Nat) ^ 7 = 2 ^ 28 := by norm_num
  have hf7 : (fmtHex 7 (MinistryContents.mask l)).length = 7 :=
    fmtHex_length 7 _ (by omega) (by rw [h16]; exact mask_lt l)
  have hlen : (c1 :: c2 :: (fmtHex 7 (MinistryContents.mask l) ++ suf)).length
      = 9 + suf.length := by
    simp [List.length_append, hf7]
    omega
  have hslice : ((c1 :: c2 :: (fmtHex 7 (MinistryContents.mask l) ++ suf)).drop 2).take
      (8 + 1 - 2) = fmtHex 7 (MinistryContents.mask l) := by
    show ((fmtHex 7 (MinistryContents.mask l) ++ suf)).take (8 + 1 - 2) = _
    rw [List.take_append_of_le_length (by omega)]
    exact List.take_all_of_le (by omega)
  unfold ministryPeriodArm
  rw [sliceIncl_ret 2 (by omega)]
  simp only [PRes.bind_ret, hslice, parseUsizeRadix16_fmtHex,
    mask_desc_decode l hd]

/-- Every ministry id string is 9 characters. -/
theorem ministry_to_id_str_length (m : Ministry) : m.to_id_str.length = 9 := by
  have h16 : (16 : Nat) ^ 7 = 2 ^ 28 := by norm_num
  cases m <;>
    (simp only [Ministry.to_id_str, MinistryContents.to_id_str,
      List.length_append, List.length_cons, List.length_nil]
     rw [fmtHex_length 7 _ (by omega) (by rw [h16]; exact mask_lt _)])

/-- Ministry::from_id_str accepts the re-encoding of a canonically ordered
ministry, with anything appended after the 9 id characters. -/
theorem ministry_roundtrip (m : Ministry) (hc : m.canonicalList = true)
    (suf : List Char) :
    Ministry.from_id_str (m.to_id_str ++ suf) = .ret (.ok m) := by
  cases m with
  | M1 l =>
    show Ministry.from_id_str
      ('M' :: '1' :: (fmtHex 7 (MinistryContents.mask l) ++ suf)) = _
    have harm := ministryPeriodArm_ok M1Ministry .M1 l hc 'M' '1' suf
    have hlen := ministry_to_id_str_length (.M1 l)
    unfold Ministry.from_id_str
    rw [sliceIncl_ret 0 (by simp), sliceIncl_ret 1 (by simp)]
    simp only [PRes.bind_ret]
    rw [if_pos (by rfl), if_pos (by rfl)]
    exact harm
  | M2 l =>
    show Ministry.from_id_str
      ('M' :: '2' :: (fmtHex 7 (MinistryContents.mask l) ++ suf)) = _
    have harm := ministryPeriodArm_ok M2Ministry .M2 l hc 'M' '2' suf
    unfold Ministry.from_id_str
    rw [sliceIncl_ret 0 (by simp), sliceIncl_ret 1 (by simp)]
    simp only [PRes.bind_ret]
    rw [if_pos (by rfl), if_neg (by simp), if_pos (by rfl)]
    exact harm
  | M3 l =>
    show Ministry.from_id_str
      ('M' :: '3' :: (fmtHex 7 (MinistryContents.mask l) ++ suf)) = _
    have harm := ministryPeriodArm_ok M3Ministry .M3 l hc 'M' '3' suf
    unfold Ministry.from_id_str
    rw [sliceIncl_ret 0 (by simp), sliceIncl_ret 1 (by simp)]
    simp only [PRes.bind_ret]
    rw [if_pos (by rfl), if_neg (by simp), if_neg (by simp),
      if_pos (by rfl)]
    exact harm
  | M4 l =>
    show Ministry.from_id_str
      ('M' :: '4' :: (fmtHex 7 (MinistryContents.mask l) ++ suf)) = _
    have harm := ministryPeriodArm_ok M4Ministry .M4 l hc 'M' '4' suf
    unfold Ministry.from_id_str
    rw [sliceIncl_ret 0 (by simp), sliceIncl_ret 1 (by simp)]
    simp only [PRes.bind_ret]
    rw [if_pos (by rfl), if_neg (by simp), if_neg (by simp),
      if_neg (by simp), if_pos (by rfl)]
    exact harm
  | M5 l =>
    show Ministry.from_id_str
      ('M' :: '5' :: (fmtHex 7 (MinistryContents.mask l) ++ suf)) = _
    have harm := ministryPeriodArm_ok M5Ministry .M5 l hc 'M' '5' suf
    unfold Ministry.from_id_str
    rw [sliceIncl_ret 0 (by simp), sliceIncl_ret 1 (by simp)]
    simp only [PRes.bind_ret]
    rw [if_pos (by rfl), if_neg (by simp), if_neg (by simp),
      if_neg (by simp), if_neg (by simp), if_pos (by rfl)]
    exact harm
  | M6 l =>
    show Ministry.from_id_str
      ('M' :: '6' :: (fmtHex 7 (MinistryContents.mask l) ++ suf)) = _
    have harm := ministryPeriodArm_ok M6Ministry .M6 l hc 'M' '6' suf
    unfold Ministry.from_id_str
    rw [sliceIncl_ret 0 (by simp), sliceIncl_ret 1 (by simp)]
    simp only [PRes.bind_ret]
    rw [if_pos (by rfl), if_neg (by simp), if_neg (by simp),
      if_neg (by simp), if_neg (by simp), if_neg (by simp),
      if_pos (by rfl)]
    exact harm

/-- The M branch accepts a re-encoded canonical ministry order. -/
theorem ministryBranch_ok (m : Ministry) (hc : m.canonicalList = true)
    (num : Nat) (numf : List Char) (hnf : numf.length = 3)
    (hnum : parseUsize numf = some num) :
    ministryBranch (m.to_id_str ++ numf)
      = .ret (some (.MinistryOrder m num)) := by
  have h9 := ministry_to_id_str_length m
  have hslice : ((m.to_id_str ++ numf).drop 9).take (11 + 1 - 9) = numf := by
    rw [List.drop_left' h9]
    exact List.take_all_of_le (by omega)
  unfold ministryBranch
  rw [ministry_roundtrip m hc numf]
  simp only [PRes.bind_ret]
  rw [sliceIncl_ret 9 (by rw [List.length_append, h9]; omega)]
  simp only [PRes.bind_ret, hslice, hnum]

/-- The RJNJ branch accepts re-encoded fields. -/
theorem jinjinBranch_ok (f2 f3 f4 : List Char) (h2 : f2.length = 2)
    (h3 : f3.length = 3) (h4 : f4.length = 3)
    (kind ks amend : Nat) (hk : parseUsize f2 = some kind)
    (hks : parseUsize f3 = some ks) (ha : parseUsize f4 = some amend) :
    jinjinBranch (((['R', 'J', 'N', 'J'] ++ f2) ++ f3) ++ f4)
      = .ret (some (.Jinjin kind ks amend)) := by
  have hlen : ((((['R', 'J', 'N', 'J'] : List Char) ++ f2) ++ f3) ++ f4).length
      = 12 := by
    simp [List.length_append, h2, h3, h4]
  have e1 : (((((['R', 'J', 'N', 'J'] : List Char) ++ f2) ++ f3) ++ f4).drop 4).take
      (5 + 1 - 4) = f2 := by
    rw [List.append_assoc, List.append_assoc,
      List.drop_left' (show (['R', 'J', 'N', 'J'] : List Char).length = 4 from rfl),
      List.take_append_of_le_length (by omega)]
    exact List.take_all_of_le (by omega)
  have e2 : (((((['R', 'J', 'N', 'J'] : List Char) ++ f2) ++ f3) ++ f4).drop 6).take
      (8 + 1 - 6) = f3 := by
    rw [List.append_assoc,
      List.drop_left' (show ((['R', 'J', 'N', 'J'] : List Char) ++ f2).length = 6 from by
        rw [List.length_append, h2]; rfl),
      List.take_append_of_le_length (by omega)]
    exact List.take_all_of_le (by omega)
  have e3 : (((((['R', 'J', 'N', 'J'] : List Char) ++ f2) ++ f3) ++ f4).drop 9).take
      (11 + 1 - 9) = f4 := by
    rw [List.drop_left' (show (((['R', 'J', 'N', 'J'] : List Char) ++ f2) ++ f3).length = 9 from by
        rw [List.length_append, List.length_append, h2, h3]; rfl)]
    exact List.take_all_of_le (by omega)
  unfold jinjinBranch
  rw [sliceIncl_ret 4 (by omega), sliceIncl_ret 6 (by omega),
    sliceIncl_ret 9 (by omega)]
  simp only [PRes.bind_ret, e1, e2, e3, hk, hks, ha]

/-- The RPMD branch accepts re-encoded fields. -/
theorem rpmdBranch_ok (f2 g2 f4 : List Char) (h2 : f2.length = 2)
    (hg2 : g2.length = 2) (h4 : f4.length = 4)
    (month day num : Nat) (hmo : parseUsize f2 = some month)
    (hd : parseUsize g2 = some day) (hn : parseUsize f4 = some num) :
    rpmdBranch (((['R', 'P', 'M', 'D'] ++ f2) ++ g2) ++ f4)
      = .ret (some (.PrimeMinisterDecision month day num)) := by
  have hlen : ((((['R', 'P', 'M', 'D'] : List Char) ++ f2) ++ g2) ++ f4).length
      = 12 := by
    simp [List.length_append, h2, hg2, h4]
  have e1 : (((((['R', 'P', 'M', 'D'] : List Char) ++ f2) ++ g2) ++ f4).drop 4).take
      (5 + 1 - 4) = f2 := by
    rw [List.append_assoc, List.append_assoc,
      List.drop_left' (show (['R', 'P', 'M', 'D'] : List Char).length = 4 from rfl),
      List.take_append_of_le_length (by omega)]
    exact List.take_all_of_le (by omega)
  have e2 : (((((['R', 'P', 'M', 'D'] : List Char) ++ f2) ++ g2) ++ f4).drop 6).take
      (7 + 1 - 6) = g2 := by
    rw [List.append_assoc,
      List.drop_left' (show ((['R', 'P', 'M', 'D'] : List Char) ++ f2).length = 6 from by
        rw [List.length_append, h2]; rfl),
      List.take_append_of_le_length (by omega)]
    exact List.take_all_of_le (by omega)
  have e3 : (((((['R', 'P', 'M', 'D'] : List Char) ++ f2) ++ g2) ++ f4).drop 8).take
      (11 + 1 - 8) = f4 := by
    rw [List.drop_left' (show (((['R', 'P', 'M', 'D'] : List Char) ++ f2) ++ g2).length = 8 from by
        rw [List.length_append, List.length_append, h2, hg2]; rfl)]
    exact List.take_all_of_le (by omega)
  unfold rpmdBranch
  rw [sliceIncl_ret 4 (by omega), sliceIncl_ret 6 (by omega),
    sliceIncl_ret 8 (by omega)]
  simp only [PRes.bind_ret, e1, e2, e3, hmo, hd, hn]

/-- The bare-R branch accepts a re-encoded institution code and serial. -/
theorem regulationBranch_ok (f8 f3 : List Char) (h8 : f8.length = 8)
    (h3 : f3.length = 3) (code num : Nat) (inst : Institution)
    (hcode : parseUsize f8 = some code)
    (hfi : Institution.from_int code = some inst)
    (hn : parseUsize f3 = some num) :
    regulationBranch ((['R'] ++ f8) ++ f3)
      = .ret (some (.Regulation inst num)) := by
  have hlen : (((['R'] : List Char) ++ f8) ++ f3).length = 12 := by
    simp [List.length_append, h8, h3]
  have e1 : ((((['R'] : List Char) ++ f8) ++ f3).drop 1).take (8 + 1 - 1)
      = f8 := by
    rw [List.append_assoc,
      List.drop_left' (show (['R'] : List Char).length = 1 from rfl),
      List.take_append_of_le_length (by omega)]
    exact List.take_all_of_le (by omega)
  have e2 : ((((['R'] : List Char) ++ f8) ++ f3).drop 9).take (11 + 1 - 9)
      = f3 := by
    rw [List.drop_left' (show ((['R'] : List Char) ++ f8).length = 9 from by
        rw [List.length_append, h8]; rfl)]
    exact List.take_all_of_le (by omega)
  unfold regulationBranch
  rw [sliceIncl_ret 1 (by omega), sliceIncl_ret 9 (by omega)]
  simp only [PRes.bind_ret, e1, e2, hcode, hfi, hn]

/-- Three-digit serial fields have width 3. -/
theorem fmtDec3_length (n : Nat) (h : n ≤ 999) : (fmtDec 3 n).length = 3 :=
  fmtDec_length 3 n (by omega) (by norm_num; omega)

/-- Two-digit fields have width 2. -/
theorem fmtDec2_length (n : Nat) (h : n ≤ 99) : (fmtDec 2 n).length = 2 :=
  fmtDec_length 2 n (by omega) (by norm_num; omega)

/-- Four-digit fields have width 4. -/
theorem fmtDec4_length (n : Nat) (h : n ≤ 9999) : (fmtDec 4 n).length = 4 :=
  fmtDec_length 4 n (by omega) (by norm_num; omega)

/-- Eight-digit fields have width 8. -/
theorem fmtDec8_length (n : Nat) (h : n ≤ 99999999) : (fmtDec 8 n).length = 8 :=
  fmtDec_length 8 n (by omega) (by norm_num; omega)

/-- A canonical law type's id string is 12 characters. -/
theorem lawtype_to_id_str_length (t : LawType) (hc : t.canonical = true) :
    t.to_id_str.length = 12 := by
  cases t with
  | Constitution => rfl
  | Act rt num =>
    have hn : num ≤ 999 := of_decide_eq_true hc
    have hf := fmtDec3_length num hn
    cases rt <;> simp [LawType.to_id_str, List.length_append, hf]
  | CabinetOrder e num =>
    have hn : num ≤ 999 := of_decide_eq_true hc
    have hf := fmtDec3_length num hn
    cases e <;> simp [LawType.to_id_str, List.length_append, hf]
  | ImperialOrder e num =>
    have hn : num ≤ 999 := of_decide_eq_true hc
    have hf := fmtDec3_length num hn
    cases e <;> simp [LawType.to_id_str, List.length_append, hf]
  | DajokanFukoku e num =>
    have hn : num ≤ 999 := of_decide_eq_true hc
    have hf := fmtDec3_length num hn
    cases e <;> simp [LawType.to_id_str, List.length_append, hf]
  | DajokanTasshi e num =>
    have hn : num ≤ 999 := of_decide_eq_true hc
    have hf := fmtDec3_length num hn
    cases e <;> simp [LawType.to_id_str, List.length_append, hf]
  | DajokanHutatsu e num =>
    have hn : num ≤ 999 := of_decide_eq_true hc
    have hf := fmtDec3_length num hn
    cases e <;> simp [LawType.to_id_str, List.length_append, hf]
  | MinistryOrder m num =>
    have hparts := Bool.and_eq_true_iff.mp hc
    have hn : num ≤ 999 := of_decide_eq_true hparts.2
    have hf := fmtDec3_length num hn
    have h9 := ministry_to_id_str_length m
    simp [LawType.to_id_str, List.length_append, hf, h9]
  | Jinjin kind ks amend =>
    have hparts := Bool.and_eq_true_iff.mp hc
    have hparts2 := Bool.and_eq_true_iff.mp hparts.1
    have h1 : kind ≤ 99 := of_decide_eq_true hparts2.1
    have h2 : ks ≤ 999 := of_decide_eq_true hparts2.2
    have h3 : amend ≤ 999 := of_decide_eq_true hparts.2
    simp [LawType.to_id_str, List.length_append, fmtDec2_length kind h1,
      fmtDec3_length ks h2, fmtDec3_length amend h3]
  | Regulation inst num =>
    have hn : num ≤ 999 := of_decide_eq_true hc
    have hr := institution_to_int_range inst
    simp [LawType.to_id_str, List.length_append, fmtDec3_length num hn,
      fmtDec8_length (Institution.to_int inst) (by omega)]
  | PrimeMinisterDecision month day num =>
    have hparts := Bool.and_eq_true_iff.mp hc
    have hparts2 := Bool.and_eq_true_iff.mp hparts.1
    have h1 : month ≤ 99 := of_decide_eq_true hparts2.1
    have h2 : day ≤ 99 := of_decide_eq_true hparts2.2
    have h3 : num ≤ 9999 := of_decide_eq_true hparts.2
    simp [LawType.to_id_str, List.length_append, fmtDec2_length month h1,
      fmtDec2_length day h2, fmtDec4_length num h3]


/-- LawType::from_id_str accepts every canonical law type's own encoding. -/
theorem lawtype_to_from (t : LawType) (hc : t.canonical = true) :
    LawType.from_id_str t.to_id_str = .ret (some t) := by
  cases t with
  | Constitution => rfl
  | Act rt num =>
    have hn : num ≤ 999 := of_decide_eq_true hc
    have hnf : (fmtDec 3 num).length = 3 := fmtDec3_length num hn
    have hnum := parseUsize_fmtDec 3 num
    cases rt with
    | Kakuhou =>
      show LawType.from_id_str
        ('A' :: 'C' :: '0' :: '0' :: '0' :: '0' :: '0' :: '0' :: '0' :: fmtDec 3 num) = .ret (some (.Act .Kakuhou num))
      have hne : ¬(('A' :: 'C' :: '0' :: '0' :: '0' :: '0' :: '0' :: '0' :: '0' :: fmtDec 3 num : List Char)
          = constitutionStr) := by
        intro hcon
        simp [constitutionStr] at hcon
      have hlen : (('A' :: 'C' :: '0' :: '0' :: '0' :: '0' :: '0' :: '0' :: '0' :: fmtDec 3 num : List Char)).length = 12 := by
        simp [hnf]
      unfold LawType.from_id_str
      rw [if_neg hne, sliceIncl_ret 0 (by omega)]
      simp only [PRes.bind_ret]
      rw [if_pos (by rfl)]
      exact flagNumBranch_ok ['A', 'C', '0', '0', '0', '0', '0', '0', '0'] (fmtDec 3 num) rfl hnf
        (actFlag) 0 (by decide) (.Act .Kakuhou) rfl num hnum
    | Syuin =>
      show LawType.from_id_str
        ('A' :: 'C' :: '1' :: '0' :: '0' :: '0' :: '0' :: '0' :: '0' :: fmtDec 3 num) = .ret (some (.Act .Syuin num))
      have hne : ¬(('A' :: 'C' :: '1' :: '0' :: '0' :: '0' :: '0' :: '0' :: '0' :: fmtDec 3 num : List Char)
          = constitutionStr) := by
        intro hcon
        simp [constitutionStr] at hcon
      have hlen : (('A' :: 'C' :: '1' :: '0' :: '0' :: '0' :: '0' :: '0' :: '0' :: fmtDec 3 num : List Char)).length = 12 := by
        simp [hnf]
      unfold LawType.from_id_str
      rw [if_neg hne, sliceIncl_ret 0 (by omega)]
      simp only [PRes.bind_ret]
      rw [if_pos (by rfl)]
      exact flagNumBranch_ok ['A', 'C', '1', '0', '0', '0', '0', '0', '0'] (fmtDec 3 num) rfl hnf
        (actFlag) 1000000 (by decide) (.Act .Syuin) rfl num hnum
    | Sanin =>
      show LawType.from_id_str
        ('A' :: 'C' :: '0' :: '1' :: '0' :: '0' :: '0' :: '0' :: '0' :: fmtDec 3 num) = .ret (some (.Act .Sanin num))
      have hne : ¬(('A' :: 'C' :: '0' :: '1' :: '0' :: '0' :: '0' :: '0' :: '0' :: fmtDec 3 num : List Char)
          = constitutionStr) := by
        intro hcon
        simp [constitutionStr] at hcon
      have hlen : (('A' :: 'C' :: '0' :: '1' :: '0' :: '0' :: '0' :: '0' :: '0' :: fmtDec 3 num : List Char)).length = 12 := by
        simp [hnf]
      unfold LawType.from_id_str
      rw [if_neg hne, sliceIncl_ret 0 (by omega)]
      simp only [PRes.bind_ret]
      rw [if_pos (by rfl)]
      exact flagNumBranch_ok ['A', 'C', '0', '1', '0', '0', '0', '0', '0'] (fmtDec 3 num) rfl hnf
        (actFlag) 100000 (by decide) (.Act .Sanin) rfl num hnum
  | CabinetOrder e num =>
    have hn : num ≤ 999 := of_decide_eq_true hc
    have hnf : (fmtDec 3 num).length = 3 := fmtDec3_length num hn
    have hnum := parseUsize_fmtDec 3 num
    cases e with
    | CabinetOrder =>
      show LawType.from_id_str
        ('C' :: 'O' :: '0' :: '0' :: '0' :: '0' :: '0' :: '0' :: '0' :: fmtDec 3 num) = .ret (some (.CabinetOrder .CabinetOrder num))
      have hne : ¬(('C' :: 'O' :: '0' :: '0' :: '0' :: '0' :: '0' :: '0' :: '0' :: fmtDec 3 num : List Char)
          = constitutionStr) := by
        intro hcon
        simp [constitutionStr] at hcon
      have hlen : (('C' :: 'O' :: '0' :: '0' :: '0' :: '0' :: '0' :: '0' :: '0' :: fmtDec 3 num : List Char)).length = 12 := by
        simp [hnf]
      unfold LawType.from_id_str
      rw [if_neg hne, sliceIncl_ret 0 (by omega)]
      simp only [PRes.bind_ret]
      rw [if_neg (by simp), if_pos (by rfl)]
      exact flagNumBranch_ok ['C', 'O', '0', '0', '0', '0', '0', '0', '0'] (fmtDec 3 num) rfl hnf
        (efficacyFlag .CabinetOrder) 0 (by decide) (.CabinetOrder .CabinetOrder) rfl num hnum
    | Law =>
      show LawType.from_id_str
        ('C' :: 'O' :: '1' :: '0' :: '0' :: '0' :: '0' :: '0' :: '0' :: fmtDec 3 num) = .ret (some (.CabinetOrder .Law num))
      have hne : ¬(('C' :: 'O' :: '1' :: '0' :: '0' :: '0' :: '0' :: '0' :: '0' :: fmtDec 3 num : List Char)
          = constitutionStr) := by
        intro hcon
        simp [constitutionStr] at hcon
      have hlen : (('C' :: 'O' :: '1' :: '0' :: '0' :: '0' :: '0' :: '0' :: '0' :: fmtDec 3 num : List Char)).length = 12 := by
        simp [hnf]
      unfold LawType.from_id_str
      rw [if_neg hne, sliceIncl_ret 0 (by omega)]
      simp only [PRes.bind_ret]
      rw [if_neg (by simp), if_pos (by rfl)]
      exact flagNumBranch_ok ['C', 'O', '1', '0', '0', '0', '0', '0', '0'] (fmtDec 3 num) rfl hnf
        (efficacyFlag .CabinetOrder) 1000000 (by decide) (.CabinetOrder .Law) rfl num hnum
  | ImperialOrder e num =>
    have hn : num ≤ 999 := of_decide_eq_true hc
    have hnf : (fmtDec 3 num).length = 3 := fmtDec3_length num hn
    have hnum := parseUsize_fmtDec 3 num
    cases e with
    | CabinetOrder =>
      show LawType.from_id_str
        ('I' :: 'O' :: '0' :: '0' :: '0' :: '0' :: '0' :: '0' :: '0' :: fmtDec 3 num) = .ret (some (.ImperialOrder .CabinetOrder num))
      have hne : ¬(('I' :: 'O' :: '0' :: '0' :: '0' :: '0' :: '0' :: '0' :: '0' :: fmtDec 3 num : List Char)
          = constitutionStr) := by
        intro hcon
        simp [constitutionStr] at hcon
      have hlen : (('I' :: 'O' :: '0' :: '0' :: '0' :: '0' :: '0' :: '0' :: '0' :: fmtDec 3 num : List Char)).length = 12 := by
        simp [hnf]
      unfold LawType.from_id_str
      rw [if_neg hne, sliceIncl_ret 0 (by omega)]
      simp only [PRes.bind_ret]
      rw [if_neg (by simp), if_neg (by simp), if_pos (by rfl)]
      exact flagNumBranch_ok ['I', 'O', '0', '0', '0', '0', '0', '0', '0'] (fmtDec 3 num) rfl hnf
        (efficacyFlag .ImperialOrder) 0 (by decide) (.ImperialOrder .CabinetOrder) rfl num hnum
    | Law =>
      show LawType.from_id_str
        ('I' :: 'O' :: '1' :: '0' :: '0' :: '0' :: '0' :: '0' :: '0' :: fmtDec 3 num) = .ret (some (.ImperialOrder .Law num))
      have hne : ¬(('I' :: 'O' :: '1' :: '0' :: '0' :: '0' :: '0' :: '0' :: '0' :: fmtDec 3 num : List Char)
          = constitutionStr) := by
        intro hcon
        simp [constitutionStr] at hcon
      have hlen : (('I' :: 'O' :: '1' :: '0' :: '0' :: '0' :: '0' :: '0' :: '0' :: fmtDec 3 num : List Char)).length = 12 := by
        simp [hnf]
      unfold LawType.from_id_str
      rw [if_neg hne, sliceIncl_ret 0 (by omega)]
      simp only [PRes.bind_ret]
      rw [if_neg (by simp), if_neg (by simp), if_pos (by rfl)]
      exact flagNumBranch_ok ['I', 'O', '1', '0', '0', '0', '0', '0', '0'] (fmtDec 3 num) rfl hnf
        (efficacyFlag .ImperialOrder) 1000000 (by decide) (.ImperialOrder .Law) rfl num hnum
  | DajokanFukoku e num =>
    have hn : num ≤ 999 := of_decide_eq_true hc
    have hnf : (fmtDec 3 num).length = 3 := fmtDec3_length num hn
    have hnum := parseUsize_fmtDec 3 num
    cases e with
    | CabinetOrder =>
      show LawType.from_id_str
        ('D' :: 'F' :: '0' :: '0' :: '0' :: '0' :: '0' :: '0' :: '0' :: fmtDec 3 num) = .ret (some (.DajokanFukoku .CabinetOrder num))
      have hne : ¬(('D' :: 'F' :: '0' :: '0' :: '0' :: '0' :: '0' :: '0' :: '0' :: fmtDec 3 num : List Char)
          = constitutionStr) := by
        intro hcon
        simp [constitutionStr] at hcon
      have hlen : (('D' :: 'F' :: '0' :: '0' :: '0' :: '0' :: '0' :: '0' :: '0' :: fmtDec 3 num : List Char)).length = 12 := by
        simp [hnf]
      unfold LawType.from_id_str
      rw [if_neg hne, sliceIncl_ret 0 (by omega)]
      simp only [PRes.bind_ret]
      rw [if_neg (by simp), if_neg (by simp), if_neg (by simp), if_pos (by rfl)]
      exact flagNumBranch_ok ['D', 'F', '0', '0', '0', '0', '0', '0', '0'] (fmtDec 3 num) rfl hnf
        (efficacyFlag .DajokanFukoku) 0 (by decide) (.DajokanFukoku .CabinetOrder) rfl num hnum
    | Law =>
      show LawType.from_id_str
        ('D' :: 'F' :: '1' :: '0' :: '0' :: '0' :: '0' :: '0' :: '0' :: fmtDec 3 num) = .ret (some (.DajokanFukoku .Law num))
      have hne : ¬(('D' :: 'F' :: '1' :: '0' :: '0' :: '0' :: '0' :: '0' :: '0' :: fmtDec 3 num : List Char)
          = constitutionStr) := by
        intro hcon
        simp [constitutionStr] at hcon
      have hlen : (('D' :: 'F' :: '1' :: '0' :: '0' :: '0' :: '0' :: '0' :: '0' :: fmtDec 3 num : List Char)).length = 12 := by
        simp [hnf]
      unfold LawType.from_id_str
      rw [if_neg hne, sliceIncl_ret 0 (by omega)]
      simp only [PRes.bind_ret]
      rw [if_neg (by simp), if_neg (by simp), if_neg (by simp), if_pos (by rfl)]
      exact flagNumBranch_ok ['D', 'F', '1', '0', '0', '0', '0', '0', '0'] (fmtDec 3 num) rfl hnf
        (efficacyFlag .DajokanFukoku) 1000000 (by decide) (.DajokanFukoku .Law) rfl num hnum
  | DajokanTasshi e num =>
    have hn : num ≤ 999 := of_decide_eq_true hc
    have hnf : (fmtDec 3 num).length = 3 := fmtDec3_length num hn
    have hnum := parseUsize_fmtDec 3 num
    cases e with
    | CabinetOrder =>
      show LawType.from_id_str
        ('D' :: 'T' :: '0' :: '0' :: '0' :: '0' :: '0' :: '0' :: '0' :: fmtDec 3 num) = .ret (some (.DajokanTasshi .CabinetOrder num))
      have hne : ¬(('D' :: 'T' :: '0' :: '0' :: '0' :: '0' :: '0' :: '0' :: '0' :: fmtDec 3 num : List Char)
          = constitutionStr) := by
        intro hcon
        simp [constitutionStr] at hcon
      have hlen : (('D' :: 'T' :: '0' :: '0' :: '0' :: '0' :: '0' :: '0' :: '0' :: fmtDec 3 num : List Char)).length = 12 := by
        simp [hnf]
      unfold LawType.from_id_str
      rw [if_neg hne, sliceIncl_ret 0 (by omega)]
      simp only [PRes.bind_ret]
      rw [if_neg (by simp), if_neg (by simp), if_neg (by simp), if_neg (by simp), if_pos (by rfl)]
      exact flagNumBranch_ok ['D', 'T', '0', '0', '0', '0', '0', '0', '0'] (fmtDec 3 num) rfl hnf
        (efficacyFlag .DajokanTasshi) 0 (by decide) (.DajokanTasshi .CabinetOrder) rfl num hnum
    | Law =>
      show LawType.from_id_str
        ('D' :: 'T' :: '1' :: '0' :: '0' :: '0' :: '0' :: '0' :: '0' :: fmtDec 3 num) = .ret (some (.DajokanTasshi .Law num))
      have hne : ¬(('D' :: 'T' :: '1' :: '0' :: '0' :: '0' :: '0' :: '0' :: '0' :: fmtDec 3 num : List Char)
          = constitutionStr) := by
        intro hcon
        simp [constitutionStr] at hcon
      have hlen : (('D' :: 'T' :: '1' :: '0' :: '0' :: '0' :: '0' :: '0' :: '0' :: fmtDec 3 num : List Char)).length = 12 := by
        simp [hnf]
      unfold LawType.from_id_str
      rw [if_neg hne, sliceIncl_ret 0 (by omega)]
      simp only [PRes.bind_ret]
      rw [if_neg (by simp), if_neg (by simp), if_neg (by simp), if_neg (by simp), if_pos (by rfl)]
      exact flagNumBranch_ok ['D', 'T', '1', '0', '0', '0', '0', '0', '0'] (fmtDec 3 num) rfl hnf
        (efficacyFlag .DajokanTasshi) 1000000 (by decide) (.DajokanTasshi .Law) rfl num hnum
  | DajokanHutatsu e num =>
    have hn : num ≤ 999 := of_decide_eq_true hc
    have hnf : (fmtDec 3 num).length = 3 := fmtDec3_length num hn
    have hnum := parseUsize_fmtDec 3 num
    cases e with
    | CabinetOrder =>
      show LawType.from_id_str
        ('D' :: 'H' :: '0' :: '0' :: '0' :: '0' :: '0' :: '0' :: '0' :: fmtDec 3 num) = .ret (some (.DajokanHutatsu .CabinetOrder num))
      have hne : ¬(('D' :: 'H' :: '0' :: '0' :: '0' :: '0' :: '0' :: '0' :: '0' :: fmtDec 3 num : List Char)
          = constitutionStr) := by
        intro hcon
        simp [constitutionStr] at hcon
      have hlen : (('D' :: 'H' :: '0' :: '0' :: '0' :: '0' :: '0' :: '0' :: '0' :: fmtDec 3 num : List Char)).length = 12 := by
        simp [hnf]
      unfold LawType.from_id_str
      rw [if_neg hne, sliceIncl_ret 0 (by omega)]
      simp only [PRes.bind_ret]
      rw [if_neg (by simp), if_neg (by simp), if_neg (by simp), if_neg (by simp), if_neg (by simp), if_pos (by rfl)]
      exact flagNumBranch_ok ['D', 'H', '0', '0', '0', '0', '0', '0', '0'] (fmtDec 3 num) rfl hnf
        (efficacyFlag .DajokanHutatsu) 0 (by decide) (.DajokanHutatsu .CabinetOrder) rfl num hnum
    | Law =>
      show LawType.from_id_str
        ('D' :: 'H' :: '1' :: '0' :: '0' :: '0' :: '0' :: '0' :: '0' :: fmtDec 3 num) = .ret (some (.DajokanHutatsu .Law num))
      have hne : ¬(('D' :: 'H' :: '1' :: '0' :: '0' :: '0' :: '0' :: '0' :: '0' :: fmtDec 3 num : List Char)
          = constitutionStr) := by
        intro hcon
        simp [constitutionStr] at hcon
      have hlen : (('D' :: 'H' :: '1' :: '0' :: '0' :: '0' :: '0' :: '0' :: '0' :: fmtDec 3 num : List Char)).length = 12 := by
        simp [hnf]
      unfold LawType.from_id_str
      rw [if_neg hne, sliceIncl_ret 0 (by omega)]
      simp only [PRes.bind_ret]
      rw [if_neg (by simp), if_neg (by simp), if_neg (by simp), if_neg (by simp), if_neg (by simp), if_pos (by rfl)]
      exact flagNumBranch_ok ['D', 'H', '1', '0', '0', '0', '0', '0', '0'] (fmtDec 3 num) rfl hnf
        (efficacyFlag .DajokanHutatsu) 1000000 (by decide) (.DajokanHutatsu .Law) rfl num hnum
  | MinistryOrder m num =>
    have hparts := Bool.and_eq_true_iff.mp hc
    have hn : num ≤ 999 := of_decide_eq_true hparts.2
    have hnf : (fmtDec 3 num).length = 3 := fmtDec3_length num hn
    have hnum := parseUsize_fmtDec 3 num
    have hok := ministryBranch_ok m hparts.1 num (fmtDec 3 num) hnf hnum
    cases m with
    | M1 l =>
      show LawType.from_id_str
        ('M' :: '1' :: (fmtHex 7 (MinistryContents.mask l) ++ fmtDec 3 num))
          = .ret (some (.MinistryOrder (.M1 l) num))
      have h16 : (16 : Nat) ^ 7 = 2 ^ 28 := by norm_num
      have hf7 : (fmtHex 7 (MinistryContents.mask l)).length = 7 :=
        fmtHex_length 7 _ (by omega) (by rw [h16]; exact mask_lt l)
      have hne : ¬(('M' :: '1' :: (fmtHex 7 (MinistryContents.mask l)
          ++ fmtDec 3 num) : List Char) = constitutionStr) := by
        intro hcon
        simp [constitutionStr] at hcon
      have hlen : (('M' :: '1' :: (fmtHex 7 (MinistryContents.mask l)
          ++ fmtDec 3 num) : List Char)).length = 12 := by
        simp [List.length_append, hf7, hnf]
      unfold LawType.from_id_str
      rw [if_neg hne, sliceIncl_ret 0 (by omega)]
      simp only [PRes.bind_ret]
      rw [if_neg (by simp), if_neg (by simp), if_neg (by simp),
        if_neg (by simp), if_neg (by simp), if_neg (by simp)]
      rw [sliceIncl_ret 0 (by omega)]
      simp only [PRes.bind_ret]
      rw [if_pos (by rfl)]
      exact hok
    | M2 l =>
      show LawType.from_id_str
        ('M' :: '2' :: (fmtHex 7 (MinistryContents.mask l) ++ fmtDec 3 num))
          = .ret (some (.MinistryOrder (.M2 l) num))
      have h16 : (16 : Nat) ^ 7 = 2 ^ 28 := by norm_num
      have hf7 : (fmtHex 7 (MinistryContents.mask l)).length = 7 :=
        fmtHex_length 7 _ (by omega) (by rw [h16]; exact mask_lt l)
      have hne : ¬(('M' :: '2' :: (fmtHex 7 (MinistryContents.mask l)
          ++ fmtDec 3 num) : List Char) = constitutionStr) := by
        intro hcon
        simp [constitutionStr] at hcon
      have hlen : (('M' :: '2' :: (fmtHex 7 (MinistryContents.mask l)
          ++ fmtDec 3 num) : List Char)).length = 12 := by
        simp [List.length_append, hf7, hnf]
      unfold LawType.from_id_str
      rw [if_neg hne, sliceIncl_ret 0 (by omega)]
      simp only [PRes.bind_ret]
      rw [if_neg (by simp), if_neg (by simp), if_neg (by simp),
        if_neg (by simp), if_neg (by simp), if_neg (by simp)]
      rw [sliceIncl_ret 0 (by omega)]
      simp only [PRes.bind_ret]
      rw [if_pos (by rfl)]
      exact hok
    | M3 l =>
      show LawType.from_id_str
        ('M' :: '3' :: (fmtHex 7 (MinistryContents.mask l) ++ fmtDec 3 num))
          = .ret (some (.MinistryOrder (.M3 l) num))
      have h16 : (16 : Nat) ^ 7 = 2 ^ 28 := by norm_num
      have hf7 : (fmtHex 7 (MinistryContents.mask l)).length = 7 :=
        fmtHex_length 7 _ (by omega) (by rw [h16]; exact mask_lt l)
      have hne : ¬(('M' :: '3' :: (fmtHex 7 (MinistryContents.mask l)
          ++ fmtDec 3 num) : List Char) = constitutionStr) := by
        intro hcon
        simp [constitutionStr] at hcon
      have hlen : (('M' :: '3' :: (fmtHex 7 (MinistryContents.mask l)
          ++ fmtDec 3 num) : List Char)).length = 12 := by
        simp [List.length_append, hf7, hnf]
      unfold LawType.from_id_str
      rw [if_neg hne, sliceIncl_ret 0 (by omega)]
      simp only [PRes.bind_ret]
      rw [if_neg (by simp), if_neg (by simp), if_neg (by simp),
        if_neg (by simp), if_neg (by simp), if_neg (by simp)]
      rw [sliceIncl_ret 0 (by omega)]
      simp only [PRes.bind_ret]
      rw [if_pos (by rfl)]
      exact hok
    | M4 l =>
      show LawType.from_id_str
        ('M' :: '4' :: (fmtHex 7 (MinistryContents.mask l) ++ fmtDec 3 num))
          = .ret (some (.MinistryOrder (.M4 l) num))
      have h16 : (16 : Nat) ^ 7 = 2 ^ 28 := by norm_num
      have hf7 : (fmtHex 7 (MinistryContents.mask l)).length = 7 :=
        fmtHex_length 7 _ (by omega) (by rw [h16]; exact mask_lt l)
      have hne : ¬(('M' :: '4' :: (fmtHex 7 (MinistryContents.mask l)
          ++ fmtDec 3 num) : List Char) = constitutionStr) := by
        intro hcon
        simp [constitutionStr] at hcon
      have hlen : (('M' :: '4' :: (fmtHex 7 (MinistryContents.mask l)
          ++ fmtDec 3 num) : List Char)).length = 12 := by
        simp [List.length_append, hf7, hnf]
      unfold LawType.from_id_str
      rw [if_neg hne, sliceIncl_ret 0 (by omega)]
      simp only [PRes.bind_ret]
      rw [if_neg (by simp), if_neg (by simp), if_neg (by simp),
        if_neg (by simp), if_neg (by simp), if_neg (by simp)]
      rw [sliceIncl_ret 0 (by omega)]
      simp only [PRes.bind_ret]
      rw [if_pos (by rfl)]
      exact hok
    | M5 l =>
      show LawType.from_id_str
        ('M' :: '5' :: (fmtHex 7 (MinistryContents.mask l) ++ fmtDec 3 num))
          = .ret (some (.MinistryOrder (.M5 l) num))
      have h16 : (16 : Nat) ^ 7 = 2 ^ 28 := by norm_num
      have hf7 : (fmtHex 7 (MinistryContents.mask l)).length = 7 :=
        fmtHex_length 7 _ (by omega) (by rw [h16]; exact mask_lt l)
      have hne : ¬(('M' :: '5' :: (fmtHex 7 (MinistryContents.mask l)
          ++ fmtDec 3 num) : List Char) = constitutionStr) := by
        intro hcon
        simp [constitutionStr] at hcon
      have hlen : (('M' :: '5' :: (fmtHex 7 (MinistryContents.mask l)
          ++ fmtDec 3 num) : List Char)).length = 12 := by
        simp [List.length_append, hf7, hnf]
      unfold LawType.from_id_str
      rw [if_neg hne, sliceIncl_ret 0 (by omega)]
      simp only [PRes.bind_ret]
      rw [if_neg (by simp), if_neg (by simp), if_neg (by simp),
        if_neg (by simp), if_neg (by simp), if_neg (by simp)]
      rw [sliceIncl_ret 0 (by omega)]
      simp only [PRes.bind_ret]
      rw [if_pos (by rfl)]
      exact hok
    | M6 l =>
      show LawType.from_id_str
        ('M' :: '6' :: (fmtHex 7 (MinistryContents.mask l) ++ fmtDec 3 num))
          = .ret (some (.MinistryOrder (.M6 l) num))
      have h16 : (16 : Nat) ^ 7 = 2 ^ 28 := by norm_num
      have hf7 : (fmtHex 7 (MinistryContents.mask l)).length = 7 :=
        fmtHex_length 7 _ (by omega) (by rw [h16]; exact mask_lt l)
      have hne : ¬(('M' :: '6' :: (fmtHex 7 (MinistryContents.mask l)
          ++ fmtDec 3 num) : List Char) = constitutionStr) := by
        intro hcon
        simp [constitutionStr] at hcon
      have hlen : (('M' :: '6' :: (fmtHex 7 (MinistryContents.mask l)
          ++ fmtDec 3 num) : List Char)).length = 12 := by
        simp [List.length_append, hf7, hnf]
      unfold LawType.from_id_str
      rw [if_neg hne, sliceIncl_ret 0 (by omega)]
      simp only [PRes.bind_ret]
      rw [if_neg (by simp), if_neg (by simp), if_neg (by simp),
        if_neg (by simp), if_neg (by simp), if_neg (by simp)]
      rw [sliceIncl_ret 0 (by omega)]
      simp only [PRes.bind_ret]
      rw [if_pos (by rfl)]
      exact hok
  | Jinjin kind ks amend =>
    have hparts := Bool.and_eq_true_iff.mp hc
    have hparts2 := Bool.and_eq_true_iff.mp hparts.1
    have h1 : kind ≤ 99 := of_decide_eq_true hparts2.1
    have h2 : ks ≤ 999 := of_decide_eq_true hparts2.2
    have h3 : amend ≤ 999 := of_decide_eq_true hparts.2
    have hf2 := fmtDec2_length kind h1
    have hf3 := fmtDec3_length ks h2
    have hf4 := fmtDec3_length amend h3
    have hok := jinjinBranch_ok (fmtDec 2 kind) (fmtDec 3 ks)
      (fmtDec 3 amend) hf2 hf3 hf4 kind ks amend
      (parseUsize_fmtDec 2 kind) (parseUsize_fmtDec 3 ks)
      (parseUsize_fmtDec 3 amend)
    show LawType.from_id_str
      ('R' :: 'J' :: 'N' :: 'J' :: ((fmtDec 2 kind ++ fmtDec 3 ks)
        ++ fmtDec 3 amend)) = .ret (some (.Jinjin kind ks amend))
    have hne : ¬(('R' :: 'J' :: 'N' :: 'J' :: ((fmtDec 2 kind ++ fmtDec 3 ks)
        ++ fmtDec 3 amend) : List Char) = constitutionStr) := by
      intro hcon
      simp [constitutionStr] at hcon
    have hlen : (('R' :: 'J' :: 'N' :: 'J' :: ((fmtDec 2 kind ++ fmtDec 3 ks)
        ++ fmtDec 3 amend) : List Char)).length = 12 := by
      simp [List.length_append, hf2, hf3, hf4]
    unfold LawType.from_id_str
    rw [if_neg hne, sliceIncl_ret 0 (by omega)]
    simp only [PRes.bind_ret]
    rw [if_neg (by simp), if_neg (by simp), if_neg (by simp),
      if_neg (by simp), if_neg (by simp), if_neg (by simp)]
    rw [sliceIncl_ret 0 (by omega)]
    simp only [PRes.bind_ret]
    rw [if_neg (by simp)]
    rw [sliceIncl_ret 0 (by omega)]
    simp only [PRes.bind_ret]
    rw [if_pos (by rfl)]
    exact hok
  | Regulation inst num =>
    have hn : num ≤ 999 := of_decide_eq_true hc
    have hr := institution_to_int_range inst
    have hnf : (fmtDec 3 num).length = 3 := fmtDec3_length num hn
    have hnum := parseUsize_fmtDec 3 num
    have hle2 : (natDecChars (Institution.to_int inst)).length ≤ 2 :=
      natCharsBase_len_le 10 decDigitChar _ 2 (by omega) (by omega)
        (by norm_num; omega)
    have hsplit : fmtDec 8 (Institution.to_int inst)
        = ['0', '0', '0', '0', '0', '0'] ++ fmtDec 2 (Institution.to_int inst) := by
      show padZero 8 (natDecChars (Institution.to_int inst)) = _
      rw [show (8 : Nat) = 6 + 2 from rfl, padZero_split 6 2 _ hle2]
      rfl
    have h8 : (fmtDec 8 (Institution.to_int inst)).length = 8 :=
      fmtDec8_length _ (by omega)
    have hok := regulationBranch_ok (fmtDec 8 (Institution.to_int inst))
      (fmtDec 3 num) h8 hnf (Institution.to_int inst) num inst
      (parseUsize_fmtDec 8 _) (institution_from_to inst) hnum
    show LawType.from_id_str
      ((['R'] ++ fmtDec 8 (Institution.to_int inst)) ++ fmtDec 3 num)
        = .ret (some (.Regulation inst num))
    rw [hsplit]
    have hne : ¬(((['R'] ++ (['0', '0', '0', '0', '0', '0']
          ++ fmtDec 2 (Institution.to_int inst))) ++ fmtDec 3 num : List Char)
        = constitutionStr) := by
      intro hcon
      simp [constitutionStr] at hcon
    have hf2 : (fmtDec 2 (Institution.to_int inst)).length = 2 :=
      fmtDec2_length _ (by omega)
    have hlen : (((['R'] ++ (['0', '0', '0', '0', '0', '0']
        ++ fmtDec 2 (Institution.to_int inst))) ++ fmtDec 3 num
          : List Char)).length = 12 := by
      simp [List.length_append, hf2, hnf]
    unfold LawType.from_id_str
    rw [if_neg hne, sliceIncl_ret 0 (by omega)]
    simp only [PRes.bind_ret]
    rw [if_neg (by simp), if_neg (by simp), if_neg (by simp),
      if_neg (by simp), if_neg (by simp), if_neg (by simp)]
    rw [sliceIncl_ret 0 (by omega)]
    simp only [PRes.bind_ret]
    rw [if_neg (by simp)]
    rw [sliceIncl_ret 0 (by omega)]
    simp only [PRes.bind_ret]
    rw [if_neg (by simp), if_neg (by simp), if_pos (by rfl)]
    rw [← hsplit]
    exact hok
  | PrimeMinisterDecision month day num =>
    have hparts := Bool.and_eq_true_iff.mp hc
    have hparts2 := Bool.and_eq_true_iff.mp hparts.1
    have h1 : month ≤ 99 := of_decide_eq_true hparts2.1
    have h2 : day ≤ 99 := of_decide_eq_true hparts2.2
    have h3 : num ≤ 9999 := of_decide_eq_true hparts.2
    have hf2 := fmtDec2_length month h1
    have hg2 := fmtDec2_length day h2
    have hf4 := fmtDec4_length num h3
    have hok := rpmdBranch_ok (fmtDec 2 month) (fmtDec 2 day) (fmtDec 4 num)
      hf2 hg2 hf4 month day num (parseUsize_fmtDec 2 month)
      (parseUsize_fmtDec 2 day) (parseUsize_fmtDec 4 num)
    show LawType.from_id_str
      ('R' :: 'P' :: 'M' :: 'D' :: ((fmtDec 2 month ++ fmtDec 2 day)
        ++ fmtDec 4 num)) = .ret (some (.PrimeMinisterDecision month day num))
    have hne : ¬(('R' :: 'P' :: 'M' :: 'D' :: ((fmtDec 2 month ++ fmtDec 2 day)
        ++ fmtDec 4 num) : List Char) = constitutionStr) := by
      intro hcon
      simp [constitutionStr] at hcon
    have hlen : (('R' :: 'P' :: 'M' :: 'D' :: ((fmtDec 2 month ++ fmtDec 2 day)
        ++ fmtDec 4 num) : List Char)).length = 12 := by
      simp [List.length_append, hf2, hg2, hf4]
    unfold LawType.from_id_str
    rw [if_neg hne, sliceIncl_ret 0 (by omega)]
    simp only [PRes.bind_ret]
    rw [if_neg (by simp), if_neg (by simp), if_neg (by simp),
      if_neg (by simp), if_neg (by simp), if_neg (by simp)]
    rw [sliceIncl_ret 0 (by omega)]
    simp only [PRes.bind_ret]
    rw [if_neg (by simp)]
    rw [sliceIncl_ret 0 (by omega)]
    simp only [PRes.bind_ret]
    rw [if_neg (by simp), if_pos (by rfl)]
    exact hok

/-- C1 (amended): for every LawId whose fields fit their fixed-width fields
and whose ministry list is in the decoder's canonical descending order,
LawId::from_id_str inverts LawId::to_id_str. -/
theorem C1_canonical_roundtrip (x : LawId) (hc : LawId.canonical x = true) :
    LawId.from_id_str (LawId.to_id_str x) = .ret (some x) := by
  obtain ⟨⟨era, year⟩, t⟩ := x
  have hparts := Bool.and_eq_true_iff.mp hc
  have hy : year ≤ 99 := of_decide_eq_true hparts.1
  have ht : t.canonical = true := hparts.2
  obtain ⟨he1, he2, he3⟩ := era_codec era
  rw [he1] at he2
  have hyf : (fmtDec 2 year).length = 2 := fmtDec2_length year hy
  have htf : t.to_id_str.length = 12 := lawtype_to_id_str_length t ht
  have hlt := lawtype_to_from t ht
  show LawId.from_id_str
    ((natDecChars (Era.to_number era) ++ fmtDec 2 year) ++ t.to_id_str)
      = .ret (some ⟨⟨era, year⟩, t⟩)
  rw [he1]
  have e0 : ((([decDigitChar (Era.to_number era)] ++ fmtDec 2 year)
      ++ t.to_id_str).drop 0).take (0 + 1 - 0)
      = [decDigitChar (Era.to_number era)] := rfl
  have e1 : ((([decDigitChar (Era.to_number era)] ++ fmtDec 2 year)
      ++ t.to_id_str).drop 1).take (2 + 1 - 1) = fmtDec 2 year := by
    show ((fmtDec 2 year ++ t.to_id_str)).take (2 + 1 - 1) = _
    rw [List.take_append_of_le_length (by omega)]
    exact List.take_all_of_le (by omega)
  have e2 : ((([decDigitChar (Era.to_number era)] ++ fmtDec 2 year)
      ++ t.to_id_str).drop 3).take (14 + 1 - 3) = t.to_id_str := by
    show ((fmtDec 2 year ++ t.to_id_str).drop 2).take (14 + 1 - 3) = _
    rw [List.drop_left' hyf]
    exact List.take_all_of_le (by omega)
  have hlen : ((([decDigitChar (Era.to_number era)] ++ fmtDec 2 year)
      ++ t.to_id_str)).length = 15 := by
    simp [List.length_append, hyf, htf]
  unfold LawId.from_id_str
  rw [sliceIncl_ret 0 (by omega), sliceIncl_ret 1 (by omega),
    sliceIncl_ret 3 (by omega)]
  simp only [PRes.bind_ret, e0, e1, e2, he2, he3, parseUsize_fmtDec, hlt]
  rfl

/-- C1 counterexample: a constructible LawId whose M5 member list is in
ascending order does not survive the round trip (the decoder emits members
in descending bit order), refuting the claim for arbitrary member order. -/
theorem C1_unordered_list_not_roundtrip :
    decide (LawId.from_id_str (LawId.to_id_str
        ⟨⟨.Showa, 25⟩, .MinistryOrder (.M5 [.MinistryOfHomeAffairsOrdinance,
          .MinistryOfPostsAndTelecommunicationsOrdinance]) 4⟩)
      = .ret (some (⟨⟨.Showa, 25⟩,
        .MinistryOrder (.M5 [.MinistryOfHomeAffairsOrdinance,
          .MinistryOfPostsAndTelecommunicationsOrdinance]) 4⟩ : LawId)))
      = false := by
  decide

/-- C1 witness: a concrete canonical LawId round-trips. -/
theorem C1_canonical_roundtrip_witness :
    LawId.canonical ⟨⟨.Reiwa, 2⟩, .Act .Kakuhou 31⟩ = true ∧
    LawId.from_id_str (LawId.to_id_str ⟨⟨.Reiwa, 2⟩, .Act .Kakuhou 31⟩)
      = .ret (some (⟨⟨.Reiwa, 2⟩, .Act .Kakuhou 31⟩ : LawId)) :=
  ⟨by decide, C1_canonical_roundtrip _ (by decide)⟩

/-- Member lookup is sound: a successful lookup's members re-encode to the
queried positions. -/
theorem tryFromInts_sound {α : Type} [MinistryContents α] [LawfulMC α] :
    ∀ (ps : List Nat) (l : List α), (∀ p ∈ ps, p < 29) →
      tryFromInts α ps = .ok l → l.map MinistryContents.to_int = ps := by
  intro ps
  induction ps with
  | nil =>
    intro l _ h
    injection h with h
    rw [← h]
    rfl
  | cons p t ih =>
    intro l hlt h
    unfold tryFromInts at h
    cases hf : @MinistryContents.from_int α _ p with
    | none =>
      rw [hf] at h
      exact Except.noConfusion h
    | some m =>
      rw [hf] at h
      cases ht : tryFromInts α t with
      | error e =>
        rw [ht] at h
        exact Except.noConfusion h
      | ok v =>
        rw [ht] at h
        injection h with h
        rw [← h, List.map_cons]
        have hto : MinistryContents.to_int m = p := by
          have h2 := @LawfulMC.from_int_ok α _ _ p
            (hlt p (List.mem_cons_self p t))
          rw [hf] at h2
          simpa using h2
        rw [hto, ih v (fun q hq => hlt q (List.mem_cons_of_mem p hq)) ht]

/-- The bit scan is sound: a decoded member list's mask is the decoded
number. -/
theorem decode_mask {α : Type} [MinistryContents α] [LawfulMC α] (n : Nat)
    (hn : n < 2 ^ 28) (l : List α)
    (h : MinistryContents.from_id_str α (fmtBin28 n) = .ok l) :
    MinistryContents.mask l = n := by
  rw [mc_from_id_str_fmtBin28] at h
  have hps : ∀ p ∈ setBitsDesc n 28, p < 29 := by
    intro p hp
    rw [setBitsDesc_mem] at hp
    omega
  have hmap := tryFromInts_sound _ l hps h
  apply Nat.eq_of_testBit_eq
  intro i
  rw [mask_testBit]
  by_cases hi : i < 28
  · have hiff : (l.any fun m => decide (MinistryContents.to_int m - 1 = i))
        = true ↔ n.testBit i = true := by
      rw [List.any_eq_true]
      constructor
      · rintro ⟨m, hm, hdm⟩
        have hd := of_decide_eq_true hdm
        have hge := LawfulMC.to_int_ge m
        have hmem : (MinistryContents.to_int m)
            ∈ l.map MinistryContents.to_int := List.mem_map_of_mem _ hm
        rw [hmap, setBitsDesc_mem] at hmem
        have hbit := hmem.2.2
        rwa [hd] at hbit
      · intro hbit
        have hmem : (i + 1) ∈ setBitsDesc n 28 := by
          rw [setBitsDesc_mem]
          exact ⟨by omega, by omega, by rwa [Nat.add_sub_cancel]⟩
        rw [← hmap] at hmem
        obtain ⟨m, hm, hmi⟩ := List.mem_map.mp hmem
        have hge := LawfulMC.to_int_ge m
        exact ⟨m, hm, decide_eq_true (by omega)⟩
    rw [Bool.eq_iff_iff]
    constructor
    · intro ha
      exact hiff.mp ha
    · intro hb
      exact hiff.mpr hb
  · have h1 : n.testBit i = false :=
      Nat.testBit_lt_two_pow
        (lt_of_lt_of_le hn (Nat.pow_le_pow_right (by omega) (by omega)))
    rw [h1, List.any_eq_false]
    intro m hm
    simp only [decide_eq_true_eq]
    have := LawfulMC.to_int_le m
    omega

/-- str::parse on a canonical fixed-width field inverts to the field's
zero-padded rendering. -/
theorem parseUsize_fmt_inv (l : List Char) (n : Nat)
    (hch : ∀ c ∈ l, isCanonChar c = true) (h : parseUsize l = some n) :
    fmtDec l.length n = l := by
  rw [parseUsize_of_canon l hch] at h
  exact parseRadix_fmt_inv 10 decDigitVal decDigitChar (by omega)
    decDigitChar_zero l n
    (fun c hcl d hd => ⟨decDigitVal_inv c d hd, decDigitVal_lt c d hd⟩) h

/-- from_str_radix(16) on a canonical fixed-width field inverts to its
zero-padded uppercase hex rendering. -/
theorem parseUsizeRadix16_fmt_inv (l : List Char) (n : Nat)
    (hch : ∀ c ∈ l, isCanonChar c = true)
    (h : parseUsizeRadix16 l = some n) : fmtHex l.length n = l := by
  rw [parseUsizeRadix16_of_canon l hch] at h
  exact parseRadix_fmt_inv 16 hexDigitVal hexDigitChar (by omega)
    hexDigitChar_zero l n
    (fun c hcl d hd =>
      ⟨hexDigitVal_inv_canon c d (hch c hcl) hd, hexDigitVal_lt c d hd⟩) h

/-- Dissection of an accepting flag-and-serial branch run. -/
theorem flagNumBranch_inv (s : List Char) (hlen : s.length = 12)
    (flagOf : Nat → Option (Nat → LawType)) (t : LawType)
    (h : flagNumBranch s flagOf = .ret (some t)) :
    ∃ v mk num, parseUsize ((s.drop 2).take 7) = some v ∧
      flagOf v = some mk ∧ parseUsize ((s.drop 9).take 3) = some num ∧
      t = mk num := by
  unfold flagNumBranch at h
  rw [sliceIncl_ret 2 (by omega), sliceIncl_ret 9 (by omega)] at h
  simp only [PRes.bind_ret] at h
  split at h
  · exact absurd h (by simp)
  · next v hv =>
    split at h
    · exact absurd h (by simp)
    · next mk hmk =>
      split at h
      · exact absurd h (by simp)
      · next num hnum =>
        injection h with h2
        injection h2 with h3
        exact ⟨v, mk, num, hv, hmk, hnum, h3.symm⟩

/-- Dissection of an accepting period-arm run. -/
theorem ministryPeriodArm_inv (α : Type) [MinistryContents α]
    (wrap : List α → Ministry) (s : List Char) (hlen : 9 ≤ s.length)
    (m : Ministry) (h : ministryPeriodArm α wrap s = .ret (.ok m)) :
    ∃ n l, parseUsizeRadix16 ((s.drop 2).take 7) = some n ∧
      MinistryContents.from_id_str α (fmtBin28 n) = .ok l ∧ m = wrap l := by
  unfold ministryPeriodArm at h
  rw [sliceIncl_ret 2 (by omega)] at h
  simp only [PRes.bind_ret] at h
  split at h
  · exact absurd h (by simp)
  · next n hn =>
    split at h
    · exact absurd h (by simp)
    · next l hl =>
      injection h with h2
      injection h2 with h3
      exact ⟨n, l, hn, hl, h3.symm⟩

/-- Dissection of an accepting ministry-order branch run. -/
theorem ministryBranch_inv (s : List Char) (hlen : s.length = 12)
    (t : LawType) (h : ministryBranch s = .ret (some t)) :
    ∃ m num, Ministry.from_id_str s = .ret (.ok m) ∧
      parseUsize ((s.drop 9).take 3) = some num ∧
      t = .MinistryOrder m num := by
  obtain ⟨r, hr⟩ := ministry_from_id_str_total s (by omega)
  unfold ministryBranch at h
  rw [hr] at h
  simp only [PRes.bind_ret] at h
  cases r with
  | error e => exact absurd h (by simp)
  | ok m =>
    rw [sliceIncl_ret 9 (by omega)] at h
    simp only [PRes.bind_ret] at h
    split at h
    · exact absurd h (by simp)
    · next num hnum =>
      injection h with h2
      injection h2 with h3
      exact ⟨m, num, hr, hnum, h3.symm⟩

/-- Dissection of an accepting RJNJ branch run. -/
theorem jinjinBranch_inv (s : List Char) (hlen : s.length = 12)
    (t : LawType) (h : jinjinBranch s = .ret (some t)) :
    ∃ kind ks amend, parseUsize ((s.drop 4).take 2) = some kind ∧
      parseUsize ((s.drop 6).take 3) = some ks ∧
      parseUsize ((s.drop 9).take 3) = some amend ∧
      t = .Jinjin kind ks amend := by
  unfold jinjinBranch at h
  rw [sliceIncl_ret 4 (by omega), sliceIncl_ret 6 (by omega),
    sliceIncl_ret 9 (by omega)] at h
  simp only [PRes.bind_ret] at h
  split at h
  · exact absurd h (by simp)
  · next kind hk =>
    split at h
    · exact absurd h (by simp)
    · next ks hks =>
      split at h
      · exact absurd h (by simp)
      · next amend ha =>
        injection h with h2
        injection h2 with h3
        exact ⟨kind, ks, amend, hk, hks, ha, h3.symm⟩

/-- Dissection of an accepting RPMD branch run. -/
theorem rpmdBranch_inv (s : List Char) (hlen : s.length = 12)
    (t : LawType) (h : rpmdBranch s = .ret (some t)) :
    ∃ month day num, parseUsize ((s.drop 4).take 2) = some month ∧
      parseUsize ((s.drop 6).take 2) = some day ∧
      parseUsize ((s.drop 8).take 4) = some num ∧
      t = .PrimeMinisterDecision month day num := by
  unfold rpmdBranch at h
  rw [sliceIncl_ret 4 (by omega), sliceIncl_ret 6 (by omega),
    sliceIncl_ret 8 (by omega)] at h
  simp only [PRes.bind_ret] at h
  split at h
  · exact absurd h (by simp)
  · next month hmo =>
    split at h
    · exact absurd h (by simp)
    · next day hd =>
      split at h
      · exact absurd h (by simp)
      · next num hn =>
        injection h with h2
        injection h2 with h3
        exact ⟨month, day, num, hmo, hd, hn, h3.symm⟩

/-- Dissection of an accepting bare-R branch run. -/
theorem regulationBranch_inv (s : List Char) (hlen : s.length = 12)
    (t : LawType) (h : regulationBranch s = .ret (some t)) :
    ∃ code inst num, parseUsize ((s.drop 1).take 8) = some code ∧
      Institution.from_int code = some inst ∧
      parseUsize ((s.drop 9).take 3) = some num ∧
      t = .Regulation inst num := by
  unfold regulationBranch at h
  rw [sliceIncl_ret 1 (by omega), sliceIncl_ret 9 (by omega)] at h
  simp only [PRes.bind_ret] at h
  split at h
  · exact absurd h (by simp)
  · next code hcode =>
    split at h
    · exact absurd h (by simp)
    · next inst hinst =>
      split at h
      · exact absurd h (by simp)
      · next num hn =>
        injection h with h2
        injection h2 with h3
        exact ⟨code, inst, num, hcode, hinst, hn, h3.symm⟩

/-- Ministry::from_id_str is sound: an accepted 9-character prefix is the
re-encoding of the returned ministry. -/
theorem ministry_from_inv (s : List Char) (hlen : 9 ≤ s.length)
    (hch : ∀ c ∈ s, isCanonChar c = true) (m : Ministry)
    (h : Ministry.from_id_str s = .ret (.ok m)) :
    Ministry.to_id_str m = s.take 9 := by
  unfold Ministry.from_id_str at h
  rw [sliceIncl_ret 0 (by omega), sliceIncl_ret 1 (by omega)] at h
  simp only [PRes.bind_ret] at h
  by_cases hM : List.take (0 + 1 - 0) (List.drop 0 s) = ['M']
  case neg =>
    rw [if_neg hM] at h
    exact absurd h (by simp)
  rw [if_pos hM] at h
  have hfield : ((s.drop 2).take 7).length = 7 := by
    rw [List.length_take, List.length_drop]
    omega
  have hchf : ∀ c ∈ (s.drop 2).take 7, isCanonChar c = true := by
    intro c hcm
    exact hch c (List.mem_of_mem_drop (List.mem_of_mem_take hcm))
  by_cases g1 : List.take (1 + 1 - 1) (List.drop 1 s) = ['1']
  case pos =>
    rw [if_pos g1] at h
    obtain ⟨n, l, hn, hl, hm⟩ := ministryPeriodArm_inv M1Ministry .M1 s hlen m h
    subst hm
    have hinv := parseUsizeRadix16_fmt_inv _ n hchf hn
    rw [hfield] at hinv
    have hbound : n < 2 ^ 28 := by
      have hb := parseRadix_bound 16 hexDigitVal (by omega)
        (fun c d2 hd2 => hexDigitVal_lt c d2 hd2) _ n
        (by rw [← parseUsizeRadix16_of_canon _ hchf]; exact hn)
      rw [hfield] at hb
      calc n < 16 ^ 7 := hb
        _ = 2 ^ 28 := by norm_num
    have hmask := decode_mask n hbound l hl
    have hdec : s.take 9 = s.take 2 ++ (s.drop 2).take 7 := by
      rw [show (9 : Nat) = 2 + 7 from rfl, List.take_add]
    have ht2 : s.take 2 = ['M', '1'] := by
      rw [show (2 : Nat) = 1 + 1 from rfl, List.take_add]
      have e1 : s.take 1 = ['M'] := hM
      have e2 : (s.drop 1).take 1 = ['1'] := g1
      rw [e1, e2]
      rfl
    rw [hdec, ht2, ← hinv, ← hmask]
    rfl
  rw [if_neg g1] at h
  by_cases g2 : List.take (1 + 1 - 1) (List.drop 1 s) = ['2']
  case pos =>
    rw [if_pos g2] at h
    obtain ⟨n, l, hn, hl, hm⟩ := ministryPeriodArm_inv M2Ministry .M2 s hlen m h
    subst hm
    have hinv := parseUsizeRadix16_fmt_inv _ n hchf hn
    rw [hfield] at hinv
    have hbound : n < 2 ^ 28 := by
      have hb := parseRadix_bound 16 hexDigitVal (by omega)
        (fun c d2 hd2 => hexDigitVal_lt c d2 hd2) _ n
        (by rw [← parseUsizeRadix16_of_canon _ hchf]; exact hn)
      rw [hfield] at hb
      calc n < 16 ^ 7 := hb
        _ = 2 ^ 28 := by norm_num
    have hmask := decode_mask n hbound l hl
    have hdec : s.take 9 = s.take 2 ++ (s.drop 2).take 7 := by
      rw [show (9 : Nat) = 2 + 7 from rfl, List.take_add]
    have ht2 : s.take 2 = ['M', '2'] := by
      rw [show (2 : Nat) = 1 + 1 from rfl, List.take_add]
      have e1 : s.take 1 = ['M'] := hM
      have e2 : (s.drop 1).take 1 = ['2'] := g2
      rw [e1, e2]
      rfl
    rw [hdec, ht2, ← hinv, ← hmask]
    rfl
  rw [if_neg g2] at h
  by_cases g3 : List.take (1 + 1 - 1) (List.drop 1 s) = ['3']
  case pos =>
    rw [if_pos g3] at h
    obtain ⟨n, l, hn, hl, hm⟩ := ministryPeriodArm_inv M3Ministry .M3 s hlen m h
    subst hm
    have hinv := parseUsizeRadix16_fmt_inv _ n hchf hn
    rw [hfield] at hinv
    have hbound : n < 2 ^ 28 := by
      have hb := parseRadix_bound 16 hexDigitVal (by omega)
        (fun c d2 hd2 => hexDigitVal_lt c d2 hd2) _ n
        (by rw [← parseUsizeRadix16_of_canon _ hchf]; exact hn)
      rw [hfield] at hb
      calc n < 16 ^ 7 := hb
        _ = 2 ^ 28 := by norm_num
    have hmask := decode_mask n hbound l hl
    have hdec : s.take 9 = s.take 2 ++ (s.drop 2).take 7 := by
      rw [show (9 : Nat) = 2 + 7 from rfl, List.take_add]
    have ht2 : s.take 2 = ['M', '3'] := by
      rw [show (2 : Nat) = 1 + 1 from rfl, List.take_add]
      have e1 : s.take 1 = ['M'] := hM
      have e2 : (s.drop 1).take 1 = ['3'] := g3
      rw [e1, e2]
      rfl
    rw [hdec, ht2, ← hinv, ← hmask]
    rfl
  rw [if_neg g3] at h
  by_cases g4 : List.take (1 + 1 - 1) (List.drop 1 s) = ['4']
  case pos =>
    rw [if_pos g4] at h
    obtain ⟨n, l, hn, hl, hm⟩ := ministryPeriodArm_inv M4Ministry .M4 s hlen m h
    subst hm
    have hinv := parseUsizeRadix16_fmt_inv _ n hchf hn
    rw [hfield] at hinv
    have hbound : n < 2 ^ 28 := by
      have hb := parseRadix_bound 16 hexDigitVal (by omega)
        (fun c d2 hd2 => hexDigitVal_lt c d2 hd2) _ n
        (by rw [← parseUsizeRadix16_of_canon _ hchf]; exact hn)
      rw [hfield] at hb
      calc n < 16 ^ 7 := hb
        _ = 2 ^ 28 := by norm_num
    have hmask := decode_mask n hbound l hl
    have hdec : s.take 9 = s.take 2 ++ (s.drop 2).take 7 := by
      rw [show (9 : Nat) = 2 + 7 from rfl, List.take_add]
    have ht2 : s.take 2 = ['M', '4'] := by
      rw [show (2 : Nat) = 1 + 1 from rfl, List.take_add]
      have e1 : s.take 1 = ['M'] := hM
      have e2 : (s.drop 1).take 1 = ['4'] := g4
      rw [e1, e2]
      rfl
    rw [hdec, ht2, ← hinv, ← hmask]
    rfl
  rw [if_neg g4] at h
  by_cases g5 : List.take (1 + 1 - 1) (List.drop 1 s) = ['5']
  case pos =>
    rw [if_pos g5] at h
    obtain ⟨n, l, hn, hl, hm⟩ := ministryPeriodArm_inv M5Ministry .M5 s hlen m h
    subst hm
    have hinv := parseUsizeRadix16_fmt_inv _ n hchf hn
    rw [hfield] at hinv
    have hbound : n < 2 ^ 28 := by
      have hb := parseRadix_bound 16 hexDigitVal (by omega)
        (fun c d2 hd2 => hexDigitVal_lt c d2 hd2) _ n
        (by rw [← parseUsizeRadix16_of_canon _ hchf]; exact hn)
      rw [hfield] at hb
      calc n < 16 ^ 7 := hb
        _ = 2 ^ 28 := by norm_num
    have hmask := decode_mask n hbound l hl
    have hdec : s.take 9 = s.take 2 ++ (s.drop 2).take 7 := by
      rw [show (9 : Nat) = 2 + 7 from rfl, List.take_add]
    have ht2 : s.take 2 = ['M', '5'] := by
      rw [show (2 : Nat) = 1 + 1 from rfl, List.take_add]
      have e1 : s.take 1 = ['M'] := hM
      have e2 : (s.drop 1).take 1 = ['5'] := g5
      rw [e1, e2]
      rfl
    rw [hdec, ht2, ← hinv, ← hmask]
    rfl
  rw [if_neg g5] at h
  by_cases g6 : List.take (1 + 1 - 1) (List.drop 1 s) = ['6']
  case pos =>
    rw [if_pos g6] at h
    obtain ⟨n, l, hn, hl, hm⟩ := ministryPeriodArm_inv M6Ministry .M6 s hlen m h
    subst hm
    have hinv := parseUsizeRadix16_fmt_inv _ n hchf hn
    rw [hfield] at hinv
    have hbound : n < 2 ^ 28 := by
      have hb := parseRadix_bound 16 hexDigitVal (by omega)
        (fun c d2 hd2 => hexDigitVal_lt c d2 hd2) _ n
        (by rw [← parseUsizeRadix16_of_canon _ hchf]; exact hn)
      rw [hfield] at hb
      calc n < 16 ^ 7 := hb
        _ = 2 ^ 28 := by norm_num
    have hmask := decode_mask n hbound l hl
    have hdec : s.take 9 = s.take 2 ++ (s.drop 2).take 7 := by
      rw [show (9 : Nat) = 2 + 7 from rfl, List.take_add]
    have ht2 : s.take 2 = ['M', '6'] := by
      rw [show (2 : Nat) = 1 + 1 from rfl, List.take_add]
      have e1 : s.take 1 = ['M'] := hM
      have e2 : (s.drop 1).take 1 = ['6'] := g6
      rw [e1, e2]
      rfl
    rw [hdec, ht2, ← hinv, ← hmask]
    rfl
  rw [if_neg g6] at h
  exact absurd h (by simp)


/-- LawType::to_id_str inverts LawType::from_id_str on accepted canonical
12-character strings that do not carry the legacy institution code 17. -/
theorem lawtype_from_to_inv (s : List Char) (hlen : s.length = 12)
    (hch : ∀ c ∈ s, isCanonChar c = true)
    (h17 : ¬ s.take 9 = ['R', '0', '0', '0', '0', '0', '0', '1', '7'])
    (t : LawType) (h : LawType.from_id_str s = .ret (some t)) :
    LawType.to_id_str t = s := by
  have hmem2 : ∀ a : Nat, ∀ c ∈ (s.drop a).take 7, isCanonChar c = true :=
    fun a c hcm => hch c (List.mem_of_mem_drop (List.mem_of_mem_take hcm))
  have hmem3 : ∀ a w : Nat, ∀ c ∈ (s.drop a).take w, isCanonChar c = true :=
    fun a w c hcm => hch c (List.mem_of_mem_drop (List.mem_of_mem_take hcm))
  unfold LawType.from_id_str at h
  by_cases hcon : s = constitutionStr
  case pos =>
    rw [if_pos hcon] at h
    injection h with h2
    injection h2 with h3
    rw [← h3, hcon]
    rfl
  rw [if_neg hcon, sliceIncl_ret 0 (show (1 : Nat) < s.length by omega),
    sliceIncl_ret 0 (show (0 : Nat) < s.length by omega),
    sliceIncl_ret 0 (show (3 : Nat) < s.length by omega)] at h
  simp only [PRes.bind_ret] at h
  by_cases k1 : List.take (1 + 1 - 0) (List.drop 0 s) = ['A', 'C']
  case pos =>
    rw [if_pos k1] at h
    obtain ⟨v, mk, num, hv, hmk, hnum, ht⟩ := flagNumBranch_inv s hlen _ t h
    subst ht
    have hf1len : ((s.drop 2).take 7).length = 7 := by
      rw [List.length_take, List.length_drop]
      omega
    have hf1 : fmtDec 7 v = (s.drop 2).take 7 := by
      have hx := parseUsize_fmt_inv _ v (hmem3 2 7) hv
      rwa [hf1len] at hx
    have hf2len : ((s.drop 9).take 3).length = 3 := by
      rw [List.length_take, List.length_drop]
      omega
    have hf2 : fmtDec 3 num = (s.drop 9).take 3 := by
      have hx := parseUsize_fmt_inv _ num (hmem3 9 3) hnum
      rwa [hf2len] at hx
    have hA : s.take 12 = s.take 2 ++ (s.drop 2).take 10 := List.take_add s 2 10
    have hB : (s.drop 2).take 10
        = (s.drop 2).take 7 ++ ((s.drop 2).drop 7).take 3 :=
      List.take_add (s.drop 2) 7 3
    have hC : (s.drop 2).drop 7 = s.drop 9 := by rw [List.drop_drop]
    have hsplit : s = s.take 2 ++ ((s.drop 2).take 7 ++ (s.drop 9).take 3) := by
      conv_lhs => rw [← List.take_all_of_le (show s.length ≤ 12 by omega)]
      rw [hA, hB, hC]
    have htag : s.take 2 = ['A', 'C'] := k1
    unfold actFlag at hmk
    split_ifs at hmk with a1 a2 a3
    · injection hmk with hmk2
      subst hmk2
      conv_rhs => rw [hsplit]
      rw [htag, ← hf1, ← hf2, a1]
      rfl
    · injection hmk with hmk2
      subst hmk2
      conv_rhs => rw [hsplit]
      rw [htag, ← hf1, ← hf2, a2]
      rfl
    · injection hmk with hmk2
      subst hmk2
      conv_rhs => rw [hsplit]
      rw [htag, ← hf1, ← hf2, a3]
      rfl
  rw [if_neg k1] at h
  by_cases k2 : List.take (1 + 1 - 0) (List.drop 0 s) = ['C', 'O']
  case pos =>
    rw [if_pos k2] at h
    obtain ⟨v, mk, num, hv, hmk, hnum, ht⟩ := flagNumBranch_inv s hlen _ t h
    subst ht
    have hf1len : ((s.drop 2).take 7).length = 7 := by
      rw [List.length_take, List.length_drop]
      omega
    have hf1 : fmtDec 7 v = (s.drop 2).take 7 := by
      have hx := parseUsize_fmt_inv _ v (hmem3 2 7) hv
      rwa [hf1len] at hx
    have hf2len : ((s.drop 9).take 3).length = 3 := by
      rw [List.length_take, List.length_drop]
      omega
    have hf2 : fmtDec 3 num = (s.drop 9).take 3 := by
      have hx := parseUsize_fmt_inv _ num (hmem3 9 3) hnum
      rwa [hf2len] at hx
    have hA : s.take 12 = s.take 2 ++ (s.drop 2).take 10 := List.take_add s 2 10
    have hB : (s.drop 2).take 10
        = (s.drop 2).take 7 ++ ((s.drop 2).drop 7).take 3 :=
      List.take_add (s.drop 2) 7 3
    have hC : (s.drop 2).drop 7 = s.drop 9 := by rw [List.drop_drop]
    have hsplit : s = s.take 2 ++ ((s.drop 2).take 7 ++ (s.drop 9).take 3) := by
      conv_lhs => rw [← List.take_all_of_le (show s.length ≤ 12 by omega)]
      rw [hA, hB, hC]
    have htag : s.take 2 = ['C', 'O'] := k2
    unfold efficacyFlag at hmk
    split_ifs at hmk with a1 a2
    · injection hmk with hmk2
      subst hmk2
      conv_rhs => rw [hsplit]
      rw [htag, ← hf1, ← hf2, a1]
      rfl
    · injection hmk with hmk2
      subst hmk2
      conv_rhs => rw [hsplit]
      rw [htag, ← hf1, ← hf2, a2]
      rfl
  rw [if_neg k2] at h
  by_cases k3 : List.take (1 + 1 - 0) (List.drop 0 s) = ['I', 'O']
  case pos =>
    rw [if_pos k3] at h
    obtain ⟨v, mk, num, hv, hmk, hnum, ht⟩ := flagNumBranch_inv s hlen _ t h
    subst ht
    have hf1len : ((s.drop 2).take 7).length = 7 := by
      rw [List.length_take, List.length_drop]
      omega
    have hf1 : fmtDec 7 v = (s.drop 2).take 7 := by
      have hx := parseUsize_fmt_inv _ v (hmem3 2 7) hv
      rwa [hf1len] at hx
    have hf2len : ((s.drop 9).take 3).length = 3 := by
      rw [List.length_take, List.length_drop]
      omega
    have hf2 : fmtDec 3 num = (s.drop 9).take 3 := by
      have hx := parseUsize_fmt_inv _ num (hmem3 9 3) hnum
      rwa [hf2len] at hx
    have hA : s.take 12 = s.take 2 ++ (s.drop 2).take 10 := List.take_add s 2 10
    have hB : (s.drop 2).take 10
        = (s.drop 2).take 7 ++ ((s.drop 2).drop 7).take 3 :=
      List.take_add (s.drop 2) 7 3
    have hC : (s.drop 2).drop 7 = s.drop 9 := by rw [List.drop_drop]
    have hsplit : s = s.take 2 ++ ((s.drop 2).take 7 ++ (s.drop 9).take 3) := by
      conv_lhs => rw [← List.take_all_of_le (show s.length ≤ 12 by omega)]
      rw [hA, hB, hC]
    have htag : s.take 2 = ['I', 'O'] := k3
    unfold efficacyFlag at hmk
    split_ifs at hmk with a1 a2
    · injection hmk with hmk2
      subst hmk2
      conv_rhs => rw [hsplit]
      rw [htag, ← hf1, ← hf2, a1]
      rfl
    · injection hmk with hmk2
      subst hmk2
      conv_rhs => rw [hsplit]
      rw [htag, ← hf1, ← hf2, a2]
      rfl
  rw [if_neg k3] at h
  by_cases k4 : List.take (1 + 1 - 0) (List.drop 0 s) = ['D', 'F']
  case pos =>
    rw [if_pos k4] at h
    obtain ⟨v, mk, num, hv, hmk, hnum, ht⟩ := flagNumBranch_inv s hlen _ t h
    subst ht
    have hf1len : ((s.drop 2).take 7).length = 7 := by
      rw [List.length_take, List.length_drop]
      omega
    have hf1 : fmtDec 7 v = (s.drop 2).take 7 := by
      have hx := parseUsize_fmt_inv _ v (hmem3 2 7) hv
      rwa [hf1len] at hx
    have hf2len : ((s.drop 9).take 3).length = 3 := by
      rw [List.length_take, List.length_drop]
      omega
    have hf2 : fmtDec 3 num = (s.drop 9).take 3 := by
      have hx := parseUsize_fmt_inv _ num (hmem3 9 3) hnum
      rwa [hf2len] at hx
    have hA : s.take 12 = s.take 2 ++ (s.drop 2).take 10 := List.take_add s 2 10
    have hB : (s.drop 2).take 10
        = (s.drop 2).take 7 ++ ((s.drop 2).drop 7).take 3 :=
      List.take_add (s.drop 2) 7 3
    have hC : (s.drop 2).drop 7 = s.drop 9 := by rw [List.drop_drop]
    have hsplit : s = s.take 2 ++ ((s.drop 2).take 7 ++ (s.drop 9).take 3) := by
      conv_lhs => rw [← List.take_all_of_le (show s.length ≤ 12 by omega)]
      rw [hA, hB, hC]
    have htag : s.take 2 = ['D', 'F'] := k4
    unfold efficacyFlag at hmk
    split_ifs at hmk with a1 a2
    · injection hmk with hmk2
      subst hmk2
      conv_rhs => rw [hsplit]
      rw [htag, ← hf1, ← hf2, a1]
      rfl
    · injection hmk with hmk2
      subst hmk2
      conv_rhs => rw [hsplit]
      rw [htag, ← hf1, ← hf2, a2]
      rfl
  rw [if_neg k4] at h
  by_cases k5 : List.take (1 + 1 - 0) (List.drop 0 s) = ['D', 'T']
  case pos =>
    rw [if_pos k5] at h
    obtain ⟨v, mk, num, hv, hmk, hnum, ht⟩ := flagNumBranch_inv s hlen _ t h
    subst ht
    have hf1len : ((s.drop 2).take 7).length = 7 := by
      rw [List.length_take, List.length_drop]
      omega
    have hf1 : fmtDec 7 v = (s.drop 2).take 7 := by
      have hx := parseUsize_fmt_inv _ v (hmem3 2 7) hv
      rwa [hf1len] at hx
    have hf2len : ((s.drop 9).take 3).length = 3 := by
      rw [List.length_take, List.length_drop]
      omega
    have hf2 : fmtDec 3 num = (s.drop 9).take 3 := by
      have hx := parseUsize_fmt_inv _ num (hmem3 9 3) hnum
      rwa [hf2len] at hx
    have hA : s.take 12 = s.take 2 ++ (s.drop 2).take 10 := List.take_add s 2 10
    have hB : (s.drop 2).take 10
        = (s.drop 2).take 7 ++ ((s.drop 2).drop 7).take 3 :=
      List.take_add (s.drop 2) 7 3
    have hC : (s.drop 2).drop 7 = s.drop 9 := by rw [List.drop_drop]
    have hsplit : s = s.take 2 ++ ((s.drop 2).take 7 ++ (s.drop 9).take 3) := by
      conv_lhs => rw [← List.take_all_of_le (show s.length ≤ 12 by omega)]
      rw [hA, hB, hC]
    have htag : s.take 2 = ['D', 'T'] := k5
    unfold efficacyFlag at hmk
    split_ifs at hmk with a1 a2
    · injection hmk with hmk2
      subst hmk2
      conv_rhs => rw [hsplit]
      rw [htag, ← hf1, ← hf2, a1]
      rfl
    · injection hmk with hmk2
      subst hmk2
      conv_rhs => rw [hsplit]
      rw [htag, ← hf1, ← hf2, a2]
      rfl
  rw [if_neg k5] at h
  by_cases k6 : List.take (1 + 1 - 0) (List.drop 0 s) = ['D', 'H']
  case pos =>
    rw [if_pos k6] at h
    obtain ⟨v, mk, num, hv, hmk, hnum, ht⟩ := flagNumBranch_inv s hlen _ t h
    subst ht
    have hf1len : ((s.drop 2).take 7).length = 7 := by
      rw [List.length_take, List.length_drop]
      omega
    have hf1 : fmtDec 7 v = (s.drop 2).take 7 := by
      have hx := parseUsize_fmt_inv _ v (hmem3 2 7) hv
      rwa [hf1len] at hx
    have hf2len : ((s.drop 9).take 3).length = 3 := by
      rw [List.length_take, List.length_drop]
      omega
    have hf2 : fmtDec 3 num = (s.drop 9).take 3 := by
      have hx := parseUsize_fmt_inv _ num (hmem3 9 3) hnum
      rwa [hf2len] at hx
    have hA : s.take 12 = s.take 2 ++ (s.drop 2).take 10 := List.take_add s 2 10
    have hB : (s.drop 2).take 10
        = (s.drop 2).take 7 ++ ((s.drop 2).drop 7).take 3 :=
      List.take_add (s.drop 2) 7 3
    have hC : (s.drop 2).drop 7 = s.drop 9 := by rw [List.drop_drop]
    have hsplit : s = s.take 2 ++ ((s.drop 2).take 7 ++ (s.drop 9).take 3) := by
      conv_lhs => rw [← List.take_all_of_le (show s.length ≤ 12 by omega)]
      rw [hA, hB, hC]
    have htag : s.take 2 = ['D', 'H'] := k6
    unfold efficacyFlag at hmk
    split_ifs at hmk with a1 a2
    · injection hmk with hmk2
      subst hmk2
      conv_rhs => rw [hsplit]
      rw [htag, ← hf1, ← hf2, a1]
      rfl
    · injection hmk with hmk2
      subst hmk2
      conv_rhs => rw [hsplit]
      rw [htag, ← hf1, ← hf2, a2]
      rfl
  rw [if_neg k6] at h
  by_cases kM : List.take (0 + 1 - 0) (List.drop 0 s) = ['M']
  case pos =>
    rw [if_pos kM] at h
    obtain ⟨m, num, hmin, hnum, ht⟩ := ministryBranch_inv s hlen t h
    subst ht
    have hms := ministry_from_inv s (by omega) hch m hmin
    have hf2len : ((s.drop 9).take 3).length = 3 := by
      rw [List.length_take, List.length_drop]
      omega
    have hf2 : fmtDec 3 num = (s.drop 9).take 3 := by
      have hx := parseUsize_fmt_inv _ num (hmem3 9 3) hnum
      rwa [hf2len] at hx
    have hsplit : s = s.take 9 ++ (s.drop 9).take 3 := by
      conv_lhs => rw [← List.take_all_of_le (show s.length ≤ 12 by omega)]
      rw [List.take_add s 9 3]
    conv_rhs => rw [hsplit]
    rw [← hms, ← hf2]
    rfl
  rw [if_neg kM] at h
  by_cases kJ : List.take (3 + 1 - 0) (List.drop 0 s) = ['R', 'J', 'N', 'J']
  case pos =>
    rw [if_pos kJ] at h
    obtain ⟨kind, ks, amend, hk, hks, ha, ht⟩ := jinjinBranch_inv s hlen t h
    subst ht
    have hf1len : ((s.drop 4).take 2).length = 2 := by
      rw [List.length_take, List.length_drop]
      omega
    have hf1 : fmtDec 2 kind = (s.drop 4).take 2 := by
      have hx := parseUsize_fmt_inv _ kind (hmem3 4 2) hk
      rwa [hf1len] at hx
    have hf2len : ((s.drop 6).take 3).length = 3 := by
      rw [List.length_take, List.length_drop]
      omega
    have hf2 : fmtDec 3 ks = (s.drop 6).take 3 := by
      have hx := parseUsize_fmt_inv _ ks (hmem3 6 3) hks
      rwa [hf2len] at hx
    have hf3len : ((s.drop 9).take 3).length = 3 := by
      rw [List.length_take, List.length_drop]
      omega
    have hf3 : fmtDec 3 amend = (s.drop 9).take 3 := by
      have hx := parseUsize_fmt_inv _ amend (hmem3 9 3) ha
      rwa [hf3len] at hx
    have hA : s.take 12 = s.take 4 ++ (s.drop 4).take 8 := List.take_add s 4 8
    have hB : (s.drop 4).take 8
        = (s.drop 4).take 2 ++ ((s.drop 4).drop 2).take 6 :=
      List.take_add (s.drop 4) 2 6
    have hBd : (s.drop 4).drop 2 = s.drop 6 := by rw [List.drop_drop]
    have hC : (s.drop 6).take 6
        = (s.drop 6).take 3 ++ ((s.drop 6).drop 3).take 3 :=
      List.take_add (s.drop 6) 3 3
    have hCd : (s.drop 6).drop 3 = s.drop 9 := by rw [List.drop_drop]
    have hsplit : s = s.take 4
        ++ ((s.drop 4).take 2 ++ ((s.drop 6).take 3 ++ (s.drop 9).take 3)) := by
      conv_lhs => rw [← List.take_all_of_le (show s.length ≤ 12 by omega)]
      rw [hA, hB, hBd, hC, hCd]
    have htag : s.take 4 = ['R', 'J', 'N', 'J'] := kJ
    conv_rhs => rw [hsplit]
    rw [htag, ← hf1, ← hf2, ← hf3]
    show (((['R', 'J', 'N', 'J'] ++ fmtDec 2 kind) ++ fmtDec 3 ks)
      ++ fmtDec 3 amend : List Char) = _
    rw [List.append_assoc, List.append_assoc]
  rw [if_neg kJ] at h
  by_cases kP : List.take (3 + 1 - 0) (List.drop 0 s) = ['R', 'P', 'M', 'D']
  case pos =>
    rw [if_pos kP] at h
    obtain ⟨month, day, num, hmo, hd, hn, ht⟩ := rpmdBranch_inv s hlen t h
    subst ht
    have hf1len : ((s.drop 4).take 2).length = 2 := by
      rw [List.length_take, List.length_drop]
      omega
    have hf1 : fmtDec 2 month = (s.drop 4).take 2 := by
      have hx := parseUsize_fmt_inv _ month (hmem3 4 2) hmo
      rwa [hf1len] at hx
    have hf2len : ((s.drop 6).take 2).length = 2 := by
      rw [List.length_take, List.length_drop]
      omega
    have hf2 : fmtDec 2 day = (s.drop 6).take 2 := by
      have hx := parseUsize_fmt_inv _ day (hmem3 6 2) hd
      rwa [hf2len] at hx
    have hf3len : ((s.drop 8).take 4).length = 4 := by
      rw [List.length_take, List.length_drop]
      omega
    have hf3 : fmtDec 4 num = (s.drop 8).take 4 := by
      have hx := parseUsize_fmt_inv _ num (hmem3 8 4) hn
      rwa [hf3len] at hx
    have hA : s.take 12 = s.take 4 ++ (s.drop 4).take 8 := List.take_add s 4 8
    have hB : (s.drop 4).take 8
        = (s.drop 4).take 2 ++ ((s.drop 4).drop 2).take 6 :=
      List.take_add (s.drop 4) 2 6
    have hBd : (s.drop 4).drop 2 = s.drop 6 := by rw [List.drop_drop]
    have hC : (s.drop 6).take 6
        = (s.drop 6).take 2 ++ ((s.drop 6).drop 2).take 4 :=
      List.take_add (s.drop 6) 2 4
    have hCd : (s.drop 6).drop 2 = s.drop 8 := by rw [List.drop_drop]
    have hsplit : s = s.take 4
        ++ ((s.drop 4).take 2 ++ ((s.drop 6).take 2 ++ (s.drop 8).take 4)) := by
      conv_lhs => rw [← List.take_all_of_le (show s.length ≤ 12 by omega)]
      rw [hA, hB, hBd, hC, hCd]
    have htag : s.take 4 = ['R', 'P', 'M', 'D'] := kP
    conv_rhs => rw [hsplit]
    rw [htag, ← hf1, ← hf2, ← hf3]
    show (((['R', 'P', 'M', 'D'] ++ fmtDec 2 month) ++ fmtDec 2 day)
      ++ fmtDec 4 num : List Char) = _
    rw [List.append_assoc, List.append_assoc]
  rw [if_neg kP] at h
  by_cases kR : List.take (0 + 1 - 0) (List.drop 0 s) = ['R']
  case pos =>
    rw [if_pos kR] at h
    obtain ⟨code, inst, num, hcode, hinst, hn, ht⟩ := regulationBranch_inv s hlen t h
    subst ht
    have hf1len : ((s.drop 1).take 8).length = 8 := by
      rw [List.length_take, List.length_drop]
      omega
    have hf1 : fmtDec 8 code = (s.drop 1).take 8 := by
      have hx := parseUsize_fmt_inv _ code (hmem3 1 8) hcode
      rwa [hf1len] at hx
    have hf2len : ((s.drop 9).take 3).length = 3 := by
      rw [List.length_take, List.length_drop]
      omega
    have hf2 : fmtDec 3 num = (s.drop 9).take 3 := by
      have hx := parseUsize_fmt_inv _ num (hmem3 9 3) hn
      rwa [hf2len] at hx
    have htag : s.take 1 = ['R'] := kR
    have hcode17 : code ≠ 17 := by
      intro hc17
      apply h17
      have h19 : s.take 9 = s.take 1 ++ (s.drop 1).take 8 := List.take_add s 1 8
      rw [h19, htag, ← hf1, hc17]
      decide
    have hsound := institution_from_int_sound code inst hcode17 hinst
    have hA : s.take 12 = s.take 1 ++ (s.drop 1).take 11 := List.take_add s 1 11
    have hB : (s.drop 1).take 11
        = (s.drop 1).take 8 ++ ((s.drop 1).drop 8).take 3 :=
      List.take_add (s.drop 1) 8 3
    have hBd : (s.drop 1).drop 8 = s.drop 9 := by rw [List.drop_drop]
    have hsplit : s = s.take 1 ++ ((s.drop 1).take 8 ++ (s.drop 9).take 3) := by
      conv_lhs => rw [← List.take_all_of_le (show s.length ≤ 12 by omega)]
      rw [hA, hB, hBd]
    conv_rhs => rw [hsplit]
    rw [htag, ← hf1, ← hf2]
    show ((['R'] ++ fmtDec 8 (Institution.to_int inst))
      ++ fmtDec 3 num : List Char) = _
    rw [hsound, List.append_assoc]
  rw [if_neg kR] at h
  exact absurd h (by simp)

/-- C2 (amended): every accepted 15-character id string over the canonical
alphabet that does not carry the legacy institution code 17 re-encodes
byte-identically. -/
theorem C2_accepted_reencodes (s : List Char) (x : LawId)
    (hlen : s.length = 15) (hch : ∀ c ∈ s, isCanonChar c = true)
    (h17 : reg17At s = false)
    (hacc : LawId.from_id_str s = .ret (some x)) :
    LawId.to_id_str x = s := by
  unfold LawId.from_id_str at hacc
  rw [sliceIncl_ret 0 (by omega), sliceIncl_ret 1 (by omega),
    sliceIncl_ret 3 (by omega)] at hacc
  simp only [PRes.bind_ret] at hacc
  split at hacc
  · exact absurd hacc (by simp)
  · next era_n hera_n =>
    split at hacc
    · exact absurd hacc (by simp)
    · next era hera =>
      split at hacc
      · exact absurd hacc (by simp)
      · next year hyear =>
        have ht12len : ((s.drop 3).take 12).length = 12 := by
          rw [List.length_take, List.length_drop]
          omega
        obtain ⟨r, hr⟩ := lawtype_from_id_str_total ((s.drop 3).take (14 + 1 - 3))
          (show 12 ≤ ((s.drop 3).take (14 + 1 - 3)).length from by
            rw [List.length_take, List.length_drop]
            omega)
        rw [hr] at hacc
        simp only [PRes.bind_ret] at hacc
        cases r with
        | none => exact absurd hacc (by simp)
        | some t =>
          injection hacc with h2
          injection h2 with h3
          subst h3
          have he0ch : ∀ c ∈ s.take 1, isCanonChar c = true :=
            fun c hcm => hch c (List.mem_of_mem_take hcm)
          have he0len : (s.take 1).length = 1 := by
            rw [List.length_take]
            omega
          have he0 : fmtDec 1 era_n = s.take 1 := by
            have hx := parseUsize_fmt_inv _ era_n he0ch
              (show parseUsize (s.take 1) = some era_n from hera_n)
            rwa [he0len] at hx
          obtain ⟨hton, hge1, hle5⟩ := era_from_number_sound era_n era hera
          have h1le : 1 ≤ (natDecChars era_n).length := by
            have hne := natCharsBase_ne_nil 10 decDigitChar era_n (by omega)
            cases hnc : natDecChars era_n with
            | nil => exact absurd hnc hne
            | cons a t2 => simp
          have hnd : natDecChars (Era.to_number era) = fmtDec 1 era_n := by
            rw [hton]
            exact (padZero_of_le 1 _ h1le).symm
          have hy2ch : ∀ c ∈ (s.drop 1).take 2, isCanonChar c = true :=
            fun c hcm => hch c (List.mem_of_mem_drop (List.mem_of_mem_take hcm))
          have hy2len : ((s.drop 1).take 2).length = 2 := by
            rw [List.length_take, List.length_drop]
            omega
          have hy2 : fmtDec 2 year = (s.drop 1).take 2 := by
            have hx := parseUsize_fmt_inv _ year hy2ch
              (show parseUsize ((s.drop 1).take 2) = some year from hyear)
            rwa [hy2len] at hx
          have ht12ch : ∀ c ∈ (s.drop 3).take 12, isCanonChar c = true :=
            fun c hcm => hch c (List.mem_of_mem_drop (List.mem_of_mem_take hcm))
          have h17a : ¬ (s.drop 3).take 9
              = ['R', '0', '0', '0', '0', '0', '0', '1', '7'] := by
            simpa [reg17At] using h17
          have h17b : ¬ ((s.drop 3).take 12).take 9
              = ['R', '0', '0', '0', '0', '0', '0', '1', '7'] := by
            rw [List.take_take]
            exact h17a
          have hfrom := lawtype_from_to_inv ((s.drop 3).take 12) ht12len
            ht12ch h17b t
            (show LawType.from_id_str ((s.drop 3).take 12) = .ret (some t)
              from hr)
          have hA : s.take 15 = s.take 1 ++ (s.drop 1).take 14 :=
            List.take_add s 1 14
          have hB : (s.drop 1).take 14
              = (s.drop 1).take 2 ++ ((s.drop 1).drop 2).take 12 :=
            List.take_add (s.drop 1) 2 12
          have hBd : (s.drop 1).drop 2 = s.drop 3 := by rw [List.drop_drop]
          have hsplit : s = s.take 1
              ++ ((s.drop 1).take 2 ++ (s.drop 3).take 12) := by
            conv_lhs => rw [← List.take_all_of_le (show s.length ≤ 15 by omega)]
            rw [hA, hB, hBd]
          show (natDecChars (Era.to_number era) ++ fmtDec 2 year)
            ++ LawType.to_id_str t = s
          conv_rhs => rw [hsplit]
          rw [← he0, ← hy2, ← hfrom, hnd, List.append_assoc]

/-- C2 counterexample: the accepted string carrying the legacy institution
code 17 decodes, but re-encodes with the member's own code 8, so the
round trip is not byte-identical. -/
theorem C2_code17_not_byte_identical :
    LawId.from_id_str
        ['3', '2', '6', 'R', '0', '0', '0', '0', '0', '0', '1', '7', '0', '0', '9']
      = .ret (some (⟨⟨.Showa, 26⟩,
          .Regulation .BarExaminationManagementCommittee 9⟩ : LawId)) ∧
    LawId.to_id_str (⟨⟨.Showa, 26⟩,
        .Regulation .BarExaminationManagementCommittee 9⟩ : LawId)
      ≠ ['3', '2', '6', 'R', '0', '0', '0', '0', '0', '0', '1', '7', '0', '0', '9'] :=
  ⟨by decide, by decide⟩

/-- C2 witness: a concrete accepted canonical string re-encodes to itself. -/
theorem C2_accepted_reencodes_witness :
    LawId.to_id_str (⟨⟨.Reiwa, 2⟩, .Act .Kakuhou 31⟩ : LawId)
      = ['5', '0', '2', 'A', 'C', '0', '0', '0', '0', '0', '0', '0', '0', '3', '1'] :=
  C2_accepted_reencodes
    ['5', '0', '2', 'A', 'C', '0', '0', '0', '0', '0', '0', '0', '0', '3', '1']
    ⟨⟨.Reiwa, 2⟩, .Act .Kakuhou 31⟩ (by decide) (by decide) (by decide)
    (by decide)
